import Mathlib

/-!
# Genus dashboard: the aggregation engine of `assets/app.js`

A shallow embedding of the energy-loss / SLA aggregation engine
(`buildModelFromRows`, `computeGlobalTotals`, `buildResultsTable` and the
utilities they call) together with theorems about it.

Modelling conventions.

* A JavaScript number is a `JsNum`: a finite value carried as an exact rational,
  or one of `NaN`, `+Infinity`, `-Infinity`; `-0` is identified with `+0`.
* Binary64 arithmetic is the namespace `Binary64`: `Binary64.roundDouble` is the
  binary64 value nearest to a rational (ties to even, overflow to an infinity) and
  `Binary64.add`, `sub`, `mul`, `div` and `toFixed2` are the operations of the program,
  each rounded.  A finite value that is not itself a binary64 value stands for the
  binary64 value nearest to it, as a decimal literal does; `Binary64.toNumber` is this
  reading.  The cells read by `getNum`, the percentages and losses (`pct`, `pctLoss`,
  `lossOrNull`, `computeGlobalTotals`) and `Binary64.computeEnergy`,
  `Binary64.diffEnergy`, `Binary64.sum` are computed in binary64 arithmetic.
* The hierarchy builder and the aggregator carry an energy as an `Option ℚ`, "a finite
  number or `null`", computed by `computeEnergy`, `diffEnergy` and `sum` in exact
  decimal arithmetic: the theorems about the model built from rows are statements
  about which rows, lists and counters enter which value, and where they speak of a
  sum of energies it is the exact sum.  What binary64 rounding changes is stated with
  the `Binary64` functions.
* `toFixed2` on a rational is the rounding of the magnitude to two decimals, ties away
  from zero, which `toFixed(2)` performs on the exact value of its argument.
* Object references are modelled by the key under which the object is stored in
  its lookup `Map` (region name, feeder id, DT id); meters are never mutated
  after creation and are stored by value.  A `Map` is the list of its values in
  insertion order.
-/

namespace Genus

/-! ## JavaScript values -/

/-- A JavaScript number: finite (exact rational), NaN or an infinity. -/
inductive JsNum where
  | fin (q : ℚ)
  | nan
  | posInf
  | negInf
deriving DecidableEq

/-- The JavaScript values that can occur in a row or as an argument of a utility. -/
inductive JsVal where
  | undefined
  | null
  | bool (b : Bool)
  | num (n : JsNum)
  | str (s : String)
deriving DecidableEq

namespace JsNum

/-- Unary minus. -/
def neg : JsNum → JsNum
  | fin q => fin (-q)
  | nan => nan
  | posInf => negInf
  | negInf => posInf

/-- The sign of a number as seen by multiplication and division: `none` for NaN. -/
def sign : JsNum → Option ℤ
  | fin q => some (if q < 0 then -1 else if q = 0 then 0 else 1)
  | nan => none
  | posInf => some 1
  | negInf => some (-1)

/-- Addition `a + b` on numbers. -/
def add : JsNum → JsNum → JsNum
  | fin a, fin b => fin (a + b)
  | fin _, posInf => posInf
  | fin _, negInf => negInf
  | posInf, fin _ => posInf
  | negInf, fin _ => negInf
  | posInf, posInf => posInf
  | negInf, negInf => negInf
  | _, _ => nan

/-- Subtraction `a - b`. -/
def sub (a b : JsNum) : JsNum := add a (neg b)

/-- An infinity of the given sign, NaN for sign zero. -/
def infOfSign (s : ℤ) : JsNum :=
  if s = 0 then nan else if 0 < s then posInf else negInf

/-- Multiplication `a * b`. -/
def mul : JsNum → JsNum → JsNum
  | fin a, fin b => fin (a * b)
  | a, b =>
    match sign a, sign b with
    | some s, some t => infOfSign (s * t)
    | _, _ => nan

/-- Division `a / b` (a zero divisor is taken as `+0`). -/
def div : JsNum → JsNum → JsNum
  | fin a, fin b =>
    if b = 0 then infOfSign (if a < 0 then -1 else if a = 0 then 0 else 1) else fin (a / b)
  | fin _, posInf => fin 0
  | fin _, negInf => fin 0
  | posInf, fin b => if b < 0 then negInf else posInf
  | negInf, fin b => if b < 0 then posInf else negInf
  | _, _ => nan

/-- The predicate `Number.isFinite`. -/
def isFinite : JsNum → Bool
  | fin _ => true
  | _ => false

/-- The finite value, if any. -/
def toRat? : JsNum → Option ℚ
  | fin q => some q
  | _ => none

end JsNum

/-- Rounding to two decimals as done by `Number(x.toFixed(2))` on an exact value:
the magnitude is rounded to the nearest hundredth, a tie going to the larger
magnitude, and the sign is put back. -/
def toFixed2 (x : ℚ) : ℚ :=
  if 0 ≤ x then ((⌊x * 100 + 1 / 2⌋ : ℤ) : ℚ) / 100
  else -(((⌊(-x) * 100 + 1 / 2⌋ : ℤ) : ℚ) / 100)

/-! ### Binary64 arithmetic

The numbers of the program are IEEE 754 binary64 values.  `Binary64.roundDouble` gives
the binary64 value nearest to an exact rational, and the operations of this section
are the exact operations followed by that rounding, which is what `a + b`, `a - b`,
`a * b`, `a / b` and `Number(x.toFixed(2))` compute. -/

namespace Binary64

/-- The number of binary digits of `n`, counted with at most `fuel` halvings. -/
def bitLength : ℕ → ℕ → ℕ
  | 0, _ => 0
  | fuel + 1, n => if n = 0 then 0 else bitLength fuel (n / 2) + 1

/-- The integer `⌊log₂ n⌋` for a positive `n` (and `0` for `n = 0`). -/
def log2 (n : ℕ) : ℕ := bitLength n n - 1

/-- The binade of the positive ratio `n / d`: the integer `e` with
`2 ^ e ≤ n / d < 2 ^ (e + 1)`. -/
def binade (n d : ℕ) : ℤ :=
  if d * 2 ^ ((log2 n : ℤ) - (log2 d : ℤ)).toNat ≤ n * 2 ^ ((log2 d : ℤ) - (log2 n : ℤ)).toNat
  then (log2 n : ℤ) - (log2 d : ℤ)
  else (log2 n : ℤ) - (log2 d : ℤ) - 1

/-- The exponent of the spacing of the binary64 values around the positive ratio
`n / d`: 53 significant bits, and `2 ^ (-1074)` below the smallest normal number. -/
def ulpExp (n d : ℕ) : ℤ := max (binade n d) (-1022) - 52

/-- The integer nearest to `n / d`, a tie going to the even one. -/
def roundHalfEven (n d : ℕ) : ℕ :=
  if 2 * (n % d) < d then n / d
  else if d < 2 * (n % d) then n / d + 1
  else if (n / d) % 2 = 0 then n / d else n / d + 1

/-- The significand of the binary64 value nearest to the positive ratio `n / d`, in units
of the spacing `2 ^ ulpExp n d`. -/
def significand (n d : ℕ) : ℕ :=
  roundHalfEven (n * 2 ^ (-ulpExp n d).toNat) (d * 2 ^ (ulpExp n d).toNat)

/-- The binary64 value nearest to the ratio `n / d` of two naturals (round to nearest,
ties to even); a value that rounds to `2 ^ 1024` or more overflows to `+Infinity`.
The patterns take the two arguments apart so that each is computed once. -/
def roundRatio : ℕ → ℕ → JsNum
  | 0, _ => .fin 0
  | _, 0 => .fin 0
  | n + 1, d + 1 =>
    if 2 ^ 1024 * 2 ^ (-ulpExp (n + 1) (d + 1)).toNat
        ≤ significand (n + 1) (d + 1) * 2 ^ (ulpExp (n + 1) (d + 1)).toNat
    then .posInf
    else .fin (((significand (n + 1) (d + 1) * 2 ^ (ulpExp (n + 1) (d + 1)).toNat : ℕ) : ℚ)
      / ((2 ^ (-ulpExp (n + 1) (d + 1)).toNat : ℕ) : ℚ))

/-- The binary64 value nearest to the rational `q`; `-0` is identified with `+0`. -/
def roundDouble (q : ℚ) : JsNum :=
  match q.num with
  | Int.ofNat n => roundRatio n q.den
  | Int.negSucc n => JsNum.neg (roundRatio (n + 1) q.den)

/-- The result of an exact operation as the binary64 value the program holds. -/
def round : JsNum → JsNum
  | .fin q => roundDouble q
  | n => n

/-- The sum `a + b` of two numbers. -/
def add (a b : JsNum) : JsNum := round (JsNum.add a b)

/-- The difference `a - b` of two numbers. -/
def sub (a b : JsNum) : JsNum := round (JsNum.sub a b)

/-- The product `a * b` of two numbers. -/
def mul (a b : JsNum) : JsNum := round (JsNum.mul a b)

/-- The quotient `a / b` of two numbers. -/
def div (a b : JsNum) : JsNum := round (JsNum.div a b)

/-- The expression `Number(x.toFixed(2))`: `toFixed` rounds the exact value of `x` to the
nearest hundredth, a tie going to the larger magnitude, and `Number` reads the decimal
back as the nearest binary64 value; a magnitude of `10 ^ 21` or more, NaN and the
infinities print as themselves. -/
def toFixed2 : JsNum → JsNum
  | .fin q => if 10 ^ 21 ≤ q ∨ q ≤ -10 ^ 21 then .fin q else roundDouble (Genus.toFixed2 q)
  | n => n

end Binary64

/-! ### Strings -/

/-- Code points removed by `String.prototype.trim` (WhiteSpace and LineTerminator). -/
def isJsWhitespace (c : Char) : Bool :=
  let n := c.toNat
  n = 9 || n = 10 || n = 11 || n = 12 || n = 13 || n = 32 || n = 160 || n = 5760 ||
  (8192 ≤ n && n ≤ 8202) || n = 8232 || n = 8233 || n = 8239 || n = 8287 ||
  n = 12288 || n = 65279

/-- Drop leading white space. -/
def trimStart : List Char → List Char
  | [] => []
  | c :: cs => if isJsWhitespace c then trimStart cs else c :: cs

/-- The method `s.trim()`. -/
def jsTrim (s : String) : String :=
  String.mk (trimStart (trimStart s.data).reverse).reverse

/-- The method `s.toLowerCase()`, on the ASCII letters (other characters are kept). -/
def jsToLowerCase (s : String) : String :=
  String.mk (s.data.map Char.toLower)

/-- Whether `p` is an initial segment of `s`. -/
def startsWithChars : List Char → List Char → Bool
  | [], _ => true
  | _ :: _, [] => false
  | p :: ps, c :: cs => p == c && startsWithChars ps cs

/-- Whether `p` occurs in `s` as a contiguous block. -/
def includesChars (p : List Char) : List Char → Bool
  | [] => p.isEmpty
  | c :: cs => startsWithChars p (c :: cs) || includesChars p cs

/-- The method `s.includes(p)`. -/
def jsIncludes (s p : String) : Bool := includesChars p.data s.data

/-- Longest run of decimal digits at the head of the input, and the rest. -/
def takeDigits : List Char → List Char × List Char
  | [] => ([], [])
  | c :: cs =>
    if c.isDigit then ((c :: (takeDigits cs).1), (takeDigits cs).2) else ([], c :: cs)

/-- Value of a run of decimal digits. -/
def digitsToNat (ds : List Char) : ℕ :=
  ds.foldl (fun n c => 10 * n + (c.toNat - 48)) 0

/-- Value of a hexadecimal digit. -/
def hexDigit? (c : Char) : Option ℕ :=
  if c.isDigit then some (c.toNat - 48)
  else if 97 ≤ c.toNat ∧ c.toNat ≤ 102 then some (c.toNat - 87)
  else if 65 ≤ c.toNat ∧ c.toNat ≤ 70 then some (c.toNat - 55)
  else none

/-- Value of a non-empty run of digits in the given radix, `none` on a foreign character. -/
def radixDigits (radix : ℕ) : List Char → ℕ → Option ℕ
  | [], acc => some acc
  | c :: cs, acc =>
    match hexDigit? c with
    | some d => if d < radix then radixDigits radix cs (radix * acc + d) else none
    | none => none

/-- The exponent part `e[+-]digits` of a decimal literal applied to a mantissa. -/
def applyExponent (mant : ℚ) : List Char → Option ℚ
  | [] => some mant
  | e :: r =>
    if e = 'e' ∨ e = 'E' then
      let neg := r.head? = some '-'
      let r1 := if r.head? = some '-' ∨ r.head? = some '+' then r.tail else r
      let ds := takeDigits r1
      if ds.1 = [] ∨ ds.2 ≠ [] then none
      else if neg then some (mant / (10 : ℚ) ^ digitsToNat ds.1)
      else some (mant * (10 : ℚ) ^ digitsToNat ds.1)
    else none

/-- An unsigned decimal literal `digits[.digits][exp]` or `.digits[exp]`. -/
def unsignedDecimal (cs : List Char) : Option ℚ :=
  let ip := takeDigits cs
  let fp := if ip.2.head? = some '.' then takeDigits ip.2.tail else ([], ip.2)
  if ip.1 = [] ∧ fp.1 = [] then none
  else applyExponent ((digitsToNat ip.1 : ℚ) + (digitsToNat fp.1 : ℚ) / (10 : ℚ) ^ fp.1.length) fp.2

/-- The conversion `Number(s)` of a string (StringToNumber): white space is trimmed, the
empty string is `0`, then a signed decimal literal, `Infinity`, or an unsigned
hexadecimal, octal or binary integer literal; anything else is NaN. -/
def stringToNumber (s : String) : JsNum :=
  let cs := (jsTrim s).data
  if cs = [] then .fin 0
  else if cs = "Infinity".data ∨ cs = "+Infinity".data then .posInf
  else if cs = "-Infinity".data then .negInf
  else
    match cs with
    | '0' :: x :: d :: ds =>
      if x = 'x' ∨ x = 'X' then
        ((radixDigits 16 (d :: ds) 0).map (fun n => JsNum.fin n)).getD .nan
      else if x = 'o' ∨ x = 'O' then
        ((radixDigits 8 (d :: ds) 0).map (fun n => JsNum.fin n)).getD .nan
      else if x = 'b' ∨ x = 'B' then
        ((radixDigits 2 (d :: ds) 0).map (fun n => JsNum.fin n)).getD .nan
      else ((unsignedDecimal cs).map JsNum.fin).getD .nan
    | '-' :: r => ((unsignedDecimal r).map (fun q => JsNum.fin (-q))).getD .nan
    | '+' :: r => ((unsignedDecimal r).map JsNum.fin).getD .nan
    | _ => ((unsignedDecimal cs).map JsNum.fin).getD .nan

/-- Digits of the fractional part `n / d` (with `n < d`), at most `fuel` of them. -/
def fracDigits : ℕ → ℕ → ℕ → List Char
  | 0, _, _ => []
  | fuel + 1, n, d =>
    if n = 0 then [] else Nat.digitChar (10 * n / d) :: fracDigits fuel (10 * n % d) d

/-- The conversion `String(n)` of a number: decimal digits of the exact value (at most 20
fractional digits); exponent forms are not modelled. -/
def numberToString : JsNum → String
  | .nan => "NaN"
  | .posInf => "Infinity"
  | .negInf => "-Infinity"
  | .fin q =>
    let ip := q.num.natAbs / q.den
    let fr := fracDigits 20 (q.num.natAbs % q.den) q.den
    String.mk ((if q < 0 then ['-'] else []) ++ Nat.toDigits 10 ip ++
      (if fr = [] then [] else '.' :: fr))

namespace JsVal

/-- The conversion `Number(v)`. -/
def toNumber : JsVal → JsNum
  | undefined => .nan
  | null => .fin 0
  | bool b => .fin (if b then 1 else 0)
  | num n => n
  | str s => stringToNumber s

/-- The conversion `String(v)`. -/
def toStr : JsVal → String
  | undefined => "undefined"
  | null => "null"
  | bool b => if b then "true" else "false"
  | num n => numberToString n
  | str s => s

/-- The conversion `Boolean(v)`. -/
def truthy : JsVal → Bool
  | undefined => false
  | null => false
  | bool b => b
  | num (.fin q) => decide (q ≠ 0)
  | num .nan => false
  | num _ => true
  | str s => decide (s ≠ "")

/-- The test `v == null`, true of `null` and `undefined` only. -/
def isNullish : JsVal → Bool
  | undefined => true
  | null => true
  | _ => false

/-- The global `isFinite(v)`: the argument is converted to a number first. -/
def isFinite (v : JsVal) : Bool := v.toNumber.isFinite

/-- A finite number as a value. -/
def ofRat (q : ℚ) : JsVal := num (.fin q)

/-- A "finite number or null" as a value. -/
def ofOption : Option ℚ → JsVal
  | some q => num (.fin q)
  | none => null

end JsVal

/-- The conversion `Number(v)` as the binary64 value the program holds: the value nearest
to the one denoted, as for a decimal literal or a numeric string. -/
def Binary64.toNumber (v : JsVal) : JsNum := Binary64.round v.toNumber

/-! ## Utilities of `app.js` -/

/-- The function `computeEnergy(day1, day2)` in exact arithmetic (`Binary64.computeEnergy`
is the same function with the rounding and the overflow of the program). -/
def computeEnergy (day1 day2 : JsVal) : Option ℚ :=
  if day1.isNullish || day2.isNullish then none
  else
    match JsNum.sub day2.toNumber day1.toNumber with
    | .fin diff => some (max 0 (toFixed2 diff))
    | _ => none

/-- The function `diffEnergy(day1, day2, mf = 1)` in exact arithmetic; an omitted
multiplier is `undefined`, which takes the default (`Binary64.diffEnergy` is the same
function with the rounding and the overflow of the program). -/
def diffEnergy (day1 day2 mf : JsVal) : Option ℚ :=
  let mf := if mf = .undefined then JsVal.ofRat 1 else mf
  match computeEnergy day1 day2 with
  | none => none
  | some base =>
    let e := base * (match mf.toNumber with
      | .fin m => m
      | _ => 1)
    some (toFixed2 e)

/-- The function `parseYesNo(v)`. -/
def parseYesNo (v : JsVal) : Bool :=
  if v.isNullish then false
  else
    let s := jsToLowerCase (jsTrim v.toStr)
    if s = "yes" ∨ s = "y" ∨ s = "true" ∨ s = "1" then true
    else if s = "no" ∨ s = "n" ∨ s = "false" ∨ s = "0" then false
    else v.truthy

/-- The function `sum(arr)` on an array of finite numbers, in exact arithmetic: a left
fold from `0` (`Number(b) || 0` is `b` itself for a finite `b`); `Binary64.sum` is the
same fold with every addition rounded. -/
def sum (arr : List ℚ) : ℚ := arr.foldl (fun a b => a + b) 0

/-- The function `pct(part, whole)`; it is called with counts, which are binary64 values
as they stand. -/
def pct (part whole : JsVal) : JsNum :=
  if !whole.truthy then .fin 0
  else Binary64.toFixed2 (Binary64.mul (Binary64.div part.toNumber whole.toNumber) (.fin 100))

/-- The function `pctLoss(input, output)`. -/
def pctLoss (input output : JsVal) : JsNum :=
  if !input.truthy then .fin 0
  else
    Binary64.toFixed2
      (Binary64.mul
        (Binary64.div (Binary64.sub (Binary64.toNumber input) (Binary64.toNumber output))
          (Binary64.toNumber input))
        (.fin 100))

/-- The function `lossOrNull(input, comparedSum)`; `none` is the `null` result. -/
def lossOrNull (input comparedSum : JsVal) : Option JsNum :=
  if input.isNullish || input = JsVal.num (.fin 0) then none
  else
    let s := if comparedSum.isNullish then JsNum.fin 0 else Binary64.toNumber comparedSum
    some (Binary64.toFixed2
      (Binary64.mul
        (Binary64.div (Binary64.sub (Binary64.toNumber input) s) (Binary64.toNumber input))
        (.fin 100)))

/-! ### The energy utilities in binary64 arithmetic

The functions `computeEnergy`, `diffEnergy` and `sum` once more, with every operation
rounded as the program rounds it and with the non-finite results it can produce. -/

namespace Binary64

/-- The expression `Math.max(0, x)`. -/
def max0 : JsNum → JsNum
  | .fin q => .fin (max 0 q)
  | .posInf => .posInf
  | .negInf => .fin 0
  | .nan => .nan

/-- The function `computeEnergy(day1, day2)`; `none` is the `null` result. -/
def computeEnergy (day1 day2 : JsVal) : Option JsNum :=
  if day1.isNullish || day2.isNullish then none
  else if (sub (toNumber day2) (toNumber day1)).isFinite then
    some (max0 (toFixed2 (sub (toNumber day2) (toNumber day1))))
  else none

/-- The function `diffEnergy(day1, day2, mf = 1)`; an omitted multiplier is `undefined`,
which takes the default. -/
def diffEnergy (day1 day2 mf : JsVal) : Option JsNum :=
  match computeEnergy day1 day2 with
  | none => none
  | some base =>
    some (toFixed2 (mul base
      (if (toNumber (if mf = .undefined then JsVal.ofRat 1 else mf)).isFinite then
        toNumber (if mf = .undefined then JsVal.ofRat 1 else mf)
      else .fin 1)))

/-- The function `sum(arr)`: a left fold from `0` that takes `Number(b) || 0` of each
element. -/
def sum (arr : List JsVal) : JsNum :=
  arr.foldl
    (fun a b => add a (if (JsVal.num (toNumber b)).truthy then toNumber b else .fin 0))
    (.fin 0)

/-- The expression `round(a / b * 100, 2)` of the contract, evaluated as the program
evaluates it: quotient, product and `Number(x.toFixed(2))`, each rounded to binary64. -/
def percent (a b : JsNum) : JsNum := toFixed2 (mul (div a b) (.fin 100))

/-- The energy of two readings as the contract words it once the rounding of the delta
is taken into account: `round(max(0, round(day2 - day1, 2)) * mf, 2)`. -/
def roundedTwice (day1 day2 mf : JsNum) : JsNum :=
  toFixed2 (mul (max0 (toFixed2 (sub day2 day1))) mf)

/-- The energy of two readings with a single final rounding:
`round(max(0, day2 - day1) * mf, 2)`. -/
def roundedOnce (day1 day2 mf : JsNum) : JsNum :=
  toFixed2 (mul (max0 (sub day2 day1)) mf)

end Binary64

/-! ## Row normalizer -/

/-- One input record: the headers in `Object.keys` order, each with its cell. -/
abbrev RawRow := List (String × JsVal)

/-- The property access `row[key]`. -/
def RawRow.prop (row : RawRow) (key : String) : JsVal :=
  ((row.find? (fun p => p.1 = key)).map Prod.snd).getD .undefined

/-- The helper `getVal(row, candidates)`. -/
def getVal (row : RawRow) : List String → JsVal
  | [] => .undefined
  | cand :: rest =>
    let c := jsToLowerCase cand
    let keys := row.map Prod.fst
    let key :=
      (keys.find? (fun k => k ≠ "" && jsToLowerCase k = c)).orElse
        (fun _ => keys.find? (fun k => k ≠ "" && jsIncludes (jsToLowerCase k) c))
    match key with
    | some k => row.prop k
    | none => getVal row rest

/-- The helper `getStr(row, cands, fallback)`. -/
def getStr (row : RawRow) (cands : List String) (fallback : String) : String :=
  let v := getVal row cands
  if v.isNullish then fallback else jsTrim v.toStr

/-- The helper `getNum(row, cands, fallback)`: the cell as the binary64 number `Number(v)`
when that is finite. -/
def getNum (row : RawRow) (cands : List String) (fallback : Option ℚ) : Option ℚ :=
  match Binary64.toNumber (getVal row cands) with
  | .fin n => some n
  | _ => fallback

/-- The values resolved from one record at the head of the loop body of
`buildModelFromRows`. -/
structure Row where
  regionName : String
  feederId : String
  feederName : String
  feederDay1 : Option ℚ
  feederDay2 : Option ℚ
  feederMf : Option ℚ
  dtId : String
  dtName : String
  dtDay1 : Option ℚ
  dtDay2 : Option ℚ
  dtMf : Option ℚ
  meterId : String
  meterDay1 : Option ℚ
  meterDay2 : Option ℚ
  dailyEnergyYes : Bool
  loadDataYes : Bool
  feederEnergy : Option ℚ
  dtEnergy : Option ℚ
deriving DecidableEq

/-- Resolution of one record (the `const` declarations of the loop body). -/
def resolveRow (r : RawRow) : Row :=
  let regionName := getStr r ["Region Name", "Region", "RegionName"] "Unknown"
  let feederId :=
    getStr r ["Feeder Code", "FeederId", "Feeder Code.", "Feeder Code ", "Feeder"] "F-?"
  let feederName := getStr r ["Feeder Name", "Feeder"] feederId
  let feederDay1 := getNum r ["Feeder Day1 reading", "Feeder Day1 Read", "Feeder Day1"] none
  let feederDay2 := getNum r ["Feeder Day2 reading", "Feeder Day2 Read", "Feeder Day2"] none
  let feederMf := getNum r ["MF Feeder", "Feeder MF", "MF Feed"] (some 1)
  let dtId := getStr r ["DT Code", "DTId", "DT Code "] "DT-?"
  let dtName := getStr r ["DT Name", "DT"] dtId
  let dtDay1 := getNum r ["DT Day1 Reading", "DT Day1", "DT Day1 Read"] none
  let dtDay2 := getNum r ["DT Day2 Reading", "DT Day2", "DT Day2 Read"] none
  let dtMf := getNum r ["MF DT", "DT MF", "MF"] (some 1)
  let meterId := getStr r ["Meter No", "Meter No.", "Meter Number", "Meter N", "Meter"] "M-?"
  let meterDay1 :=
    getNum r ["Meter Day1 Reading", "Meter Day1", "Day1", "Reading Day1"] none
  let meterDay2 :=
    getNum r ["Meter Day2 Reading", "Meter Day2", "Day2", "Reading Day2"] none
  let dailyEnergyFlagRaw := getVal r ["Daily energy", "Daily Energy", "Daily_energy"]
  let loadDataRaw := getVal r ["Load Data", "LoadData", "Load_Data"]
  { regionName := regionName
    feederId := feederId
    feederName := feederName
    feederDay1 := feederDay1
    feederDay2 := feederDay2
    feederMf := feederMf
    dtId := dtId
    dtName := dtName
    dtDay1 := dtDay1
    dtDay2 := dtDay2
    dtMf := dtMf
    meterId := meterId
    meterDay1 := meterDay1
    meterDay2 := meterDay2
    dailyEnergyYes := parseYesNo dailyEnergyFlagRaw
    loadDataYes := parseYesNo loadDataRaw
    feederEnergy :=
      diffEnergy (JsVal.ofOption feederDay1) (JsVal.ofOption feederDay2) (JsVal.ofOption feederMf)
    dtEnergy := diffEnergy (JsVal.ofOption dtDay1) (JsVal.ofOption dtDay2) (JsVal.ofOption dtMf) }

/-! ## Data model -/

/-- Raw-row SLA counters (`slaGlobal`, `region._sla`). -/
structure SlaCounters where
  totalRows : ℕ
  dailyYes : ℕ
  loadYes : ℕ
deriving DecidableEq

/-- A `metrics` object; a key that is not present is `none` (`false` for the two latch
flags `_feEnergySet`, `_dtEnergySet`). -/
structure Metrics where
  feeders : Option ℕ
  dts : Option ℕ
  meters : Option ℕ
  feederEnergy : Option ℚ
  dtEnergy : Option ℚ
  consumerEnergy : Option ℚ
  lossFdt : Option JsNum
  lossDtc : Option JsNum
  lossFc : Option JsNum
  slaDailyPct : Option JsNum
  slaLoadPct : Option JsNum
  feEnergySet : Bool
  dtEnergySet : Bool
deriving DecidableEq

/-- The empty object `{}`. -/
def Metrics.empty : Metrics :=
  { feeders := none, dts := none, meters := none, feederEnergy := none, dtEnergy := none,
    consumerEnergy := none, lossFdt := none, lossDtc := none, lossFc := none,
    slaDailyPct := none, slaLoadPct := none, feEnergySet := false, dtEnergySet := false }

/-- The two readings of a meter. -/
structure Readings where
  day1 : Option ℚ
  day2 : Option ℚ
deriving DecidableEq

/-- The two SLA flags of a meter. -/
structure MeterSla where
  daily : Bool
  load : Bool
deriving DecidableEq

/-- A meter object. -/
structure Meter where
  id : String
  readings : Readings
  energy : Option ℚ
  sla : MeterSla
  dtId : String
  feederId : String
deriving DecidableEq

/-- A DT object; `meters` holds the meter objects pushed to it. -/
structure DT where
  id : String
  name : String
  meters : List Meter
  metrics : Metrics
  feederId : String
deriving DecidableEq

/-- A feeder object; `dts` holds the ids of the DT objects pushed to it. -/
structure Feeder where
  id : String
  name : String
  dts : List String
  meters : List Meter
  metrics : Metrics
  region : String
deriving DecidableEq

/-- A region object; `feeders` holds the ids of the feeder objects pushed to it. -/
structure Region where
  name : String
  feeders : List String
  metrics : Metrics
  sla : SlaCounters
deriving DecidableEq

/-- One row of `resultsRows`. -/
structure ResultRow where
  Feeder_Code : String
  Feeder_E : Option ℚ
  Sum_DT_E : Option ℚ
  Feeder_to_DT_Loss : Option JsNum
  Sum_Cons_E : Option ℚ
  Feeder_to_Cons_Loss : Option JsNum
  DT_Code : String
  DT_E : Option ℚ
  Sum_Cons_E_for_DT : Option ℚ
  DT_to_Cons_Loss : Option JsNum
deriving DecidableEq

/-- The part of `state` the engine works on.  `regions` is both `state.regions` and
the values of `lookups.regionByName` (the two are always extended together);
`feederById`, `dtById`, `meterById` are the values of the three other lookups, in
insertion order. -/
structure State where
  regions : List Region
  feederById : List Feeder
  dtById : List DT
  meterById : List Meter
  resultsRows : List ResultRow
  slaGlobal : SlaCounters
deriving DecidableEq

/-- The call `map.get(k)` on a lookup whose values carry their own key. -/
def lookupBy {α : Type} (key : α → String) (k : String) (xs : List α) : Option α :=
  xs.find? (fun x => key x = k)

/-- A mutation `g` of the object stored under key `k`. -/
def modifyBy {α : Type} (key : α → String) (k : String) (g : α → α) (xs : List α) : List α :=
  xs.map (fun x => if key x = k then g x else x)

/-- The objects behind a list of references. -/
def deref {α : Type} (key : α → String) (xs : List α) (ids : List String) : List α :=
  ids.filterMap (fun k => lookupBy key k xs)

/-! ## Hierarchy builder: one iteration of the row loop -/

/-- One more raw row on a set of SLA counters. -/
def SlaCounters.count (c : SlaCounters) (daily load : Bool) : SlaCounters :=
  { totalRows := c.totalRows + 1
    dailyYes := if daily then c.dailyYes + 1 else c.dailyYes
    loadYes := if load then c.loadYes + 1 else c.loadYes }

/-- The global SLA counters are incremented (`state.slaGlobal...`). -/
def countGlobal (r : Row) (state : State) : State :=
  { state with slaGlobal := state.slaGlobal.count r.dailyEnergyYes r.loadDataYes }

/-- The region object created from a row. -/
def newRegion (r : Row) : Region :=
  { name := r.regionName, feeders := [], metrics := Metrics.empty,
    sla := { totalRows := 0, dailyYes := 0, loadYes := 0 } }

/-- Get-or-create of the region of the row. -/
def ensureRegion (r : Row) (state : State) : State :=
  if (lookupBy Region.name r.regionName state.regions).isNone then
    { state with regions := state.regions ++ [newRegion r] }
  else state

/-- The counters `region._sla` of the region of the row are incremented. -/
def countRegion (r : Row) (state : State) : State :=
  { state with
    regions := modifyBy Region.name r.regionName
      (fun g => { g with sla := g.sla.count r.dailyEnergyYes r.loadDataYes }) state.regions }

/-- The feeder object created from a row. -/
def newFeeder (r : Row) : Feeder :=
  { id := r.feederId, name := r.feederName, dts := [], meters := [],
    metrics := Metrics.empty, region := r.regionName }

/-- Get-or-create of the feeder of the row; a new feeder is pushed to the region of the
row. -/
def ensureFeeder (r : Row) (state : State) : State :=
  if (lookupBy Feeder.id r.feederId state.feederById).isNone then
    { state with
      feederById := state.feederById ++ [newFeeder r]
      regions := modifyBy Region.name r.regionName
        (fun g => { g with feeders := g.feeders ++ [r.feederId] }) state.regions }
  else state

/-- The DT object created from a row. -/
def newDt (r : Row) : DT :=
  { id := r.dtId, name := r.dtName, meters := [], metrics := Metrics.empty,
    feederId := r.feederId }

/-- Get-or-create of the DT of the row; a new DT is pushed to the feeder of the row. -/
def ensureDt (r : Row) (state : State) : State :=
  if (lookupBy DT.id r.dtId state.dtById).isNone then
    { state with
      dtById := state.dtById ++ [newDt r]
      feederById := modifyBy Feeder.id r.feederId
        (fun f => { f with dts := f.dts ++ [r.dtId] }) state.feederById }
  else state

/-- The meter object created from a row. -/
def newMeter (r : Row) : Meter :=
  { id := r.meterId
    readings := { day1 := r.meterDay1, day2 := r.meterDay2 }
    energy := diffEnergy (JsVal.ofOption r.meterDay1) (JsVal.ofOption r.meterDay2) (JsVal.ofRat 1)
    sla := { daily := r.dailyEnergyYes, load := r.loadDataYes }
    dtId := r.dtId
    feederId := r.feederId }

/-- Get-or-create of the meter of the row; a new meter is pushed to the DT and to the
feeder of the row. -/
def ensureMeter (r : Row) (state : State) : State :=
  if (lookupBy Meter.id r.meterId state.meterById).isNone then
    { state with
      meterById := state.meterById ++ [newMeter r]
      dtById := modifyBy DT.id r.dtId
        (fun d => { d with meters := d.meters ++ [newMeter r] }) state.dtById
      feederById := modifyBy Feeder.id r.feederId
        (fun f => { f with meters := f.meters ++ [newMeter r] }) state.feederById }
  else state

/-- The one-time latch of `feeder.metrics.feederEnergy`. -/
def latchFeeder (feederEnergy : Option ℚ) (f : Feeder) : Feeder :=
  match feederEnergy with
  | some e =>
    if f.metrics.feEnergySet ≠ true then
      { f with metrics := { f.metrics with feederEnergy := some e, feEnergySet := true } }
    else f
  | none => f

/-- The one-time latch of `dt.metrics.dtEnergy`. -/
def latchDt (dtEnergy : Option ℚ) (d : DT) : DT :=
  match dtEnergy with
  | some e =>
    if d.metrics.dtEnergySet ≠ true then
      { d with metrics := { d.metrics with dtEnergy := some e, dtEnergySet := true } }
    else d
  | none => d

/-- The two latch statements at the end of the loop body. -/
def latchEnergies (r : Row) (state : State) : State :=
  { state with
    feederById := modifyBy Feeder.id r.feederId (latchFeeder r.feederEnergy) state.feederById
    dtById := modifyBy DT.id r.dtId (latchDt r.dtEnergy) state.dtById }

/-- One iteration of the row loop of `buildModelFromRows`, on a resolved row. -/
def addRow (state : State) (r : Row) : State :=
  latchEnergies r (ensureMeter r (ensureDt r (ensureFeeder r
    (countRegion r (ensureRegion r (countGlobal r state))))))

/-! ## Aggregator -/

/-- The function `sumMeterEnergy(dt)`. -/
def sumMeterEnergy (dt : DT) : ℚ := sum (dt.meters.map (fun m => m.energy.getD 0))

/-- The expression `d.metrics.dtEnergy ?? sumMeterEnergy(d)`. -/
def dtEnergyOrSum (d : DT) : ℚ := d.metrics.dtEnergy.getD (sumMeterEnergy d)

/-- The function `sumDTEnergy(feeder)`. -/
def sumDTEnergy (state : State) (feeder : Feeder) : ℚ :=
  sum ((deref DT.id state.dtById feeder.dts).map dtEnergyOrSum)

/-- The expression `f.metrics.feederEnergy ?? sumDTEnergy(f)`. -/
def feederEnergyOrSum (state : State) (f : Feeder) : ℚ :=
  f.metrics.feederEnergy.getD (sumDTEnergy state f)

/-- A natural number (an array length or a counter) as a value. -/
def JsVal.ofNat (n : ℕ) : JsVal := JsVal.ofRat (n : ℚ)

/-- The metrics assigned to a region. -/
def regionMetrics (state : State) (region : Region) : Metrics :=
  let feeders := deref Feeder.id state.feederById region.feeders
  let allDts := feeders.flatMap (fun f => f.dts)
  let allMeters := feeders.flatMap (fun f => f.meters)
  let feederEnergy := sum (feeders.map (feederEnergyOrSum state))
  let dtEnergy := sum ((deref DT.id state.dtById allDts).map dtEnergyOrSum)
  let consumerEnergy := sum (allMeters.map (fun m => m.energy.getD 0))
  { feeders := some region.feeders.length
    dts := some allDts.length
    meters := some allMeters.length
    feederEnergy := some feederEnergy
    dtEnergy := some dtEnergy
    consumerEnergy := some consumerEnergy
    lossFdt := some (pctLoss (JsVal.ofRat feederEnergy) (JsVal.ofRat dtEnergy))
    lossDtc := some (pctLoss (JsVal.ofRat dtEnergy) (JsVal.ofRat consumerEnergy))
    lossFc := some (pctLoss (JsVal.ofRat feederEnergy) (JsVal.ofRat consumerEnergy))
    slaDailyPct := some (pct (JsVal.ofNat region.sla.dailyYes) (JsVal.ofNat region.sla.totalRows))
    slaLoadPct := some (pct (JsVal.ofNat region.sla.loadYes) (JsVal.ofNat region.sla.totalRows))
    feEnergySet := false
    dtEnergySet := false }

/-- The metrics assigned to a feeder (`{ ...feeder.metrics, feeders: 1, ... }`). -/
def feederMetrics (state : State) (feeder : Feeder) : Metrics :=
  let dts := deref DT.id state.dtById feeder.dts
  let meters := feeder.meters
  let fFeederEnergy := feederEnergyOrSum state feeder
  let fDtEnergy := sum (dts.map dtEnergyOrSum)
  let fConsumerEnergy := sum (meters.map (fun m => m.energy.getD 0))
  { feeder.metrics with
    feeders := some 1
    dts := some feeder.dts.length
    meters := some meters.length
    feederEnergy := some fFeederEnergy
    dtEnergy := some fDtEnergy
    consumerEnergy := some fConsumerEnergy
    lossFdt := some (pctLoss (JsVal.ofRat fFeederEnergy) (JsVal.ofRat fDtEnergy))
    lossDtc := some (pctLoss (JsVal.ofRat fDtEnergy) (JsVal.ofRat fConsumerEnergy))
    lossFc := some (pctLoss (JsVal.ofRat fFeederEnergy) (JsVal.ofRat fConsumerEnergy))
    slaDailyPct := some (pct (JsVal.ofNat (meters.filter (fun m => m.sla.daily)).length)
      (JsVal.ofNat meters.length))
    slaLoadPct := some (pct (JsVal.ofNat (meters.filter (fun m => m.sla.load)).length)
      (JsVal.ofNat meters.length)) }

/-- The metrics assigned to a DT (`{ ...dt.metrics, meters: ..., ... }`). -/
def dtMetrics (dt : DT) : Metrics :=
  let meters := dt.meters
  let dtEnergyVal := dtEnergyOrSum dt
  let consumerEnergyVal := sum (meters.map (fun m => m.energy.getD 0))
  { dt.metrics with
    meters := some meters.length
    dtEnergy := some dtEnergyVal
    consumerEnergy := some consumerEnergyVal
    lossDtc := some (pctLoss (JsVal.ofRat dtEnergyVal) (JsVal.ofRat consumerEnergyVal))
    slaDailyPct := some (pct (JsVal.ofNat (meters.filter (fun m => m.sla.daily)).length)
      (JsVal.ofNat meters.length))
    slaLoadPct := some (pct (JsVal.ofNat (meters.filter (fun m => m.sla.load)).length)
      (JsVal.ofNat meters.length)) }

/-- One iteration of `for (const feeder of region.feeders)`. -/
def aggregateFeeder (state : State) (feederId : String) : State :=
  { state with
    feederById := modifyBy Feeder.id feederId
      (fun f => { f with metrics := feederMetrics state f }) state.feederById }

/-- One iteration of `for (const dt of allDts)`. -/
def aggregateDt (state : State) (dtId : String) : State :=
  { state with
    dtById := modifyBy DT.id dtId (fun d => { d with metrics := dtMetrics d }) state.dtById }

/-- One iteration of `for (const region of state.regions)`. -/
def aggregateRegion (state : State) (regionName : String) : State :=
  match lookupBy Region.name regionName state.regions with
  | none => state
  | some region =>
    let allDts :=
      (deref Feeder.id state.feederById region.feeders).flatMap (fun f => f.dts)
    let s1 : State :=
      { state with
        regions := modifyBy Region.name regionName
          (fun g => { g with metrics := regionMetrics state g }) state.regions }
    let s2 := region.feeders.foldl aggregateFeeder s1
    allDts.foldl aggregateDt s2

/-- The loop "Aggregate counts and KPIs". -/
def aggregate (state : State) : State :=
  (state.regions.map Region.name).foldl aggregateRegion state

/-- The result of `computeGlobalTotals()`. -/
structure GlobalTotals where
  feeders : ℚ
  dts : ℚ
  meters : ℚ
  lossFdt : JsNum
  lossDtc : JsNum
  lossFc : JsNum
  slaDailyPct : JsNum
  slaLoadPct : JsNum
deriving DecidableEq

/-- The function `computeGlobalTotals()`. -/
def computeGlobalTotals (state : State) : GlobalTotals :=
  let regions := state.regions
  let feeders := sum (regions.map (fun r => ((r.metrics.feeders.getD 0 : ℕ) : ℚ)))
  let dts := sum (regions.map (fun r => ((r.metrics.dts.getD 0 : ℕ) : ℚ)))
  let meters := sum (regions.map (fun r => ((r.metrics.meters.getD 0 : ℕ) : ℚ)))
  let feederEnergy := sum (regions.map (fun r => r.metrics.feederEnergy.getD 0))
  let dtEnergy := sum (regions.map (fun r => r.metrics.dtEnergy.getD 0))
  let consumerEnergy := sum (regions.map (fun r => r.metrics.consumerEnergy.getD 0))
  let totalRows := state.slaGlobal.totalRows
  { feeders := feeders
    dts := dts
    meters := meters
    lossFdt := pctLoss (JsVal.ofRat feederEnergy) (JsVal.ofRat dtEnergy)
    lossDtc := pctLoss (JsVal.ofRat dtEnergy) (JsVal.ofRat consumerEnergy)
    lossFc := pctLoss (JsVal.ofRat feederEnergy) (JsVal.ofRat consumerEnergy)
    slaDailyPct :=
      if totalRows ≠ 0 then
        Binary64.toFixed2 (Binary64.mul
          (Binary64.div (.fin (state.slaGlobal.dailyYes : ℚ)) (.fin (totalRows : ℚ))) (.fin 100))
      else .fin 0
    slaLoadPct :=
      if totalRows ≠ 0 then
        Binary64.toFixed2 (Binary64.mul
          (Binary64.div (.fin (state.slaGlobal.loadYes : ℚ)) (.fin (totalRows : ℚ))) (.fin 100))
      else .fin 0 }

/-! ## Results flattener -/

/-- A `Map` from identifiers to numbers, as used locally by `buildResultsTable`. -/
abbrev NumMap := List (String × ℚ)

/-- The call `map.get(k)`. -/
def NumMap.get (m : NumMap) (k : String) : Option ℚ :=
  (m.find? (fun p => p.1 = k)).map Prod.snd

/-- The call `map.set(k, v)`. -/
def NumMap.set (m : NumMap) (k : String) (v : ℚ) : NumMap :=
  if (m.get k).isSome then m.map (fun p => if p.1 = k then (k, v) else p) else m ++ [(k, v)]

/-- A loop that records the non-null, non-negative energy of each object under its id. -/
def energyById {α : Type} (id : α → String) (energy : α → Option ℚ) (xs : List α) : NumMap :=
  xs.foldl (fun mp x =>
    match energy x with
    | none => mp
    | some e => if e < 0 then mp else mp.set (id x) e) []

/-- A loop that adds up, per group key, the recorded energy of each object (`?? 0` when
none is recorded). -/
def sumByGroup {α : Type} (id group : α → String) (recorded : NumMap) (xs : List α) : NumMap :=
  xs.foldl (fun mp x =>
    mp.set (group x) ((mp.get (group x)).getD 0 + (recorded.get (id x)).getD 0)) []

/-- The function `buildResultsTable()`. -/
def buildResultsTable (state : State) : State :=
  let uniqueFeeders := state.feederById
  let uniqueDts := state.dtById
  let uniqueMeters := state.meterById
  let meterEnergyById := energyById Meter.id Meter.energy uniqueMeters
  let dtEnergyById := energyById DT.id (fun d => d.metrics.dtEnergy) uniqueDts
  let feederEnergyById := energyById Feeder.id (fun f => f.metrics.feederEnergy) uniqueFeeders
  let sumConsByDt := sumByGroup Meter.id Meter.dtId meterEnergyById uniqueMeters
  let sumDtByFeeder := sumByGroup DT.id DT.feederId dtEnergyById uniqueDts
  let sumConsByFeeder := sumByGroup Meter.id Meter.feederId meterEnergyById uniqueMeters
  let feederRows : List ResultRow := uniqueFeeders.map (fun f =>
    let Feeder_Code := f.id
    let Feeder_E := feederEnergyById.get Feeder_Code
    let Sum_DT_E := (sumDtByFeeder.get Feeder_Code).getD 0
    let Sum_Cons_E := (sumConsByFeeder.get Feeder_Code).getD 0
    { Feeder_Code := Feeder_Code
      Feeder_E := Feeder_E
      Sum_DT_E := some Sum_DT_E
      Feeder_to_DT_Loss := lossOrNull (JsVal.ofOption Feeder_E) (JsVal.ofRat Sum_DT_E)
      Sum_Cons_E := some Sum_Cons_E
      Feeder_to_Cons_Loss := lossOrNull (JsVal.ofOption Feeder_E) (JsVal.ofRat Sum_Cons_E)
      DT_Code := ""
      DT_E := none
      Sum_Cons_E_for_DT := none
      DT_to_Cons_Loss := none })
  let dtRows : List ResultRow := uniqueDts.map (fun d =>
    let DT_Code := d.id
    let DT_E := dtEnergyById.get DT_Code
    let Sum_Cons_E_for_DT := (sumConsByDt.get DT_Code).getD 0
    { Feeder_Code := d.feederId
      Feeder_E := none
      Sum_DT_E := none
      Feeder_to_DT_Loss := none
      Sum_Cons_E := none
      Feeder_to_Cons_Loss := none
      DT_Code := DT_Code
      DT_E := DT_E
      Sum_Cons_E_for_DT := some Sum_Cons_E_for_DT
      DT_to_Cons_Loss := lossOrNull (JsVal.ofOption DT_E) (JsVal.ofRat Sum_Cons_E_for_DT) })
  { state with resultsRows := feederRows ++ dtRows }

/-! ## The rebuild -/

/-- The state after the "Reset state" block. -/
def resetState (state : State) : State :=
  { state with
    regions := []
    feederById := []
    dtById := []
    meterById := []
    slaGlobal := { totalRows := 0, dailyYes := 0, loadYes := 0 } }

/-- The state after the row loop. -/
def buildHierarchy (state : State) (rows : List RawRow) : State :=
  (rows.map resolveRow).foldl addRow (resetState state)

/-- The function `buildModelFromRows(rows)`, from the state it is called in. -/
def buildModelFromRows (state : State) (rows : List RawRow) : State :=
  buildResultsTable (aggregate (buildHierarchy state rows))

/-- A state as it is when the script is loaded. -/
def State.initial : State :=
  { regions := [], feederById := [], dtById := [], meterById := [], resultsRows := [],
    slaGlobal := { totalRows := 0, dailyYes := 0, loadYes := 0 } }

/-! ## Auxiliary definitions used in the statements and proofs -/

/-- What one iteration of the row loop does to an existing (or just created) region:
the counters, then the push of a new feeder. -/
def regionStep (s : State) (r : Row) (g : Region) : Region :=
  let g1 : Region :=
    if g.name = r.regionName then { g with sla := g.sla.count r.dailyEnergyYes r.loadDataYes }
    else g
  if (lookupBy Feeder.id r.feederId s.feederById).isNone then
    (if g1.name = r.regionName then { g1 with feeders := g1.feeders ++ [r.feederId] } else g1)
  else g1

/-- What one iteration of the row loop does to an existing (or just created) feeder:
the push of a new DT, the push of a new meter, then the latch. -/
def feederStep (s : State) (r : Row) (f : Feeder) : Feeder :=
  let f1 : Feeder :=
    if (lookupBy DT.id r.dtId s.dtById).isNone then
      (if f.id = r.feederId then { f with dts := f.dts ++ [r.dtId] } else f)
    else f
  let f2 : Feeder :=
    if (lookupBy Meter.id r.meterId s.meterById).isNone then
      (if f1.id = r.feederId then { f1 with meters := f1.meters ++ [newMeter r] } else f1)
    else f1
  if f2.id = r.feederId then latchFeeder r.feederEnergy f2 else f2

/-- What one iteration of the row loop does to an existing (or just created) DT: the
push of a new meter, then the latch. -/
def dtStep (s : State) (r : Row) (d : DT) : DT :=
  let d1 : DT :=
    if (lookupBy Meter.id r.meterId s.meterById).isNone then
      (if d.id = r.dtId then { d with meters := d.meters ++ [newMeter r] } else d)
    else d
  if d1.id = r.dtId then latchDt r.dtEnergy d1 else d1

/-- The list `xs` extended by `x` when no entry has key `k` yet. -/
def ensureBy {α : Type} (key : α → String) (k : String) (x : α) (xs : List α) : List α :=
  if (lookupBy key k xs).isNone then xs ++ [x] else xs

/-- The hierarchy is well formed: keys are unique, every child list is the list of the
objects whose back-reference names the parent (in insertion order), and every
back-reference names an existing object. -/
structure WF (s : State) : Prop where
  regions_nodup : (s.regions.map Region.name).Nodup
  feeders_nodup : (s.feederById.map Feeder.id).Nodup
  dts_nodup : (s.dtById.map DT.id).Nodup
  meters_nodup : (s.meterById.map Meter.id).Nodup
  region_feeders : ∀ g ∈ s.regions,
    g.feeders = (s.feederById.filter (fun f => f.region = g.name)).map Feeder.id
  feeder_dts : ∀ f ∈ s.feederById,
    f.dts = (s.dtById.filter (fun d => d.feederId = f.id)).map DT.id
  feeder_meters : ∀ f ∈ s.feederById,
    f.meters = (s.meterById.filter (fun m => m.feederId = f.id)).map id
  dt_meters : ∀ d ∈ s.dtById,
    d.meters = (s.meterById.filter (fun m => m.dtId = d.id)).map id
  feeder_region : ∀ f ∈ s.feederById, ∃ g ∈ s.regions, g.name = f.region
  dt_feeder : ∀ d ∈ s.dtById, ∃ f ∈ s.feederById, f.id = d.feederId
  meter_feeder : ∀ m ∈ s.meterById, ∃ f ∈ s.feederById, f.id = m.feederId
  meter_dt : ∀ m ∈ s.meterById, ∃ d ∈ s.dtById, d.id = m.dtId

/-- The state `s` in which the metrics of the regions named in `R`, of the feeders with
an id in `F` and of the DTs with an id in `D` have been assigned by the aggregator. -/
def aggregatedUpTo (s : State) (R F D : List String) : State :=
  { s with
    regions := s.regions.map
      (fun g => if g.name ∈ R then { g with metrics := regionMetrics s g } else g)
    feederById := s.feederById.map
      (fun f => if f.id ∈ F then { f with metrics := feederMetrics s f } else f)
    dtById := s.dtById.map (fun d => if d.id ∈ D then { d with metrics := dtMetrics d } else d) }

/-- The state `s` in which every region, feeder and DT has been assigned its metrics. -/
def aggregatedAll (s : State) : State :=
  { s with
    regions := s.regions.map (fun g => { g with metrics := regionMetrics s g })
    feederById := s.feederById.map (fun f => { f with metrics := feederMetrics s f })
    dtById := s.dtById.map (fun d => { d with metrics := dtMetrics d }) }

/-- The ids of the DTs reached from a region through its feeders (`allDts`). -/
def regionDtIds (s : State) (g : Region) : List String :=
  (deref Feeder.id s.feederById g.feeders).flatMap (fun f => f.dts)

/-! ## Sample inputs -/

/-- A record of region `R1`, feeder `F1`, DT `D1` without feeder or DT readings, for the
given meter. -/
def sampleRowNoReadings (meter : String) (day1 day2 : ℚ) (daily : String) : RawRow :=
  [("Region", .str "R1"), ("Feeder Code", .str "F1"), ("DT Code", .str "D1"),
   ("Meter No", .str meter), ("Meter Day1", .ofRat day1), ("Meter Day2", .ofRat day2),
   ("Daily energy", .str daily), ("Load Data", .str "No")]

/-- A record of region `R1`, feeder `F1` and DT `D1` with the given feeder and DT second-day
readings (the first-day readings are `100` and `40`), for the given meter. -/
def sampleRow (feederDay2 dtDay2 : ℚ) (meter : String) (day1 day2 : ℚ) (daily : String) :
    RawRow :=
  [("Region", .str "R1"), ("Feeder Code", .str "F1"),
   ("Feeder Day1", .ofRat 100), ("Feeder Day2", .ofRat feederDay2),
   ("DT Code", .str "D1"), ("DT Day1", .ofRat 40), ("DT Day2", .ofRat dtDay2),
   ("Meter No", .str meter), ("Meter Day1", .ofRat day1), ("Meter Day2", .ofRat day2),
   ("Daily energy", .str daily), ("Load Data", .str "No")]

/-- Three records of the same feeder and DT: the first without feeder/DT readings, the
second with energies `50` and `30`, the third with different readings. -/
def latchRows : List RawRow :=
  [sampleRowNoReadings "M1" 0 10 "Yes", sampleRow 150 70 "M2" 5 20 "Yes",
   sampleRow 170 90 "M3" 0 1 "No"]

/-- The energy latched for feeder `k` by the row loop: the energy of the first row of that
feeder whose computed feeder energy is not null, if there is one. -/
def latchedFeederEnergy (rows : List RawRow) (k : String) : Option ℚ :=
  ((rows.map resolveRow).find?
    (fun x => decide (x.feederId = k) && x.feederEnergy.isSome)).bind Row.feederEnergy

/-- The energy latched for DT `k` by the row loop: the energy of the first row of that DT
whose computed DT energy is not null, if there is one. -/
def latchedDtEnergy (rows : List RawRow) (k : String) : Option ℚ :=
  ((rows.map resolveRow).find?
    (fun x => decide (x.dtId = k) && x.dtEnergy.isSome)).bind Row.dtEnergy

/-- The end-to-end scenario: feeder `F1` with energy `50`, DT `D1` with energy `30`, two
meters with energies `10` and `15`, both with daily = Yes. -/
def scenarioRows : List RawRow :=
  [sampleRow 150 70 "M1" 0 10 "Yes", sampleRow 150 70 "M2" 5 20 "Yes"]

/-- The raw-row counters of a list of resolved rows: how many rows, how many with the
daily flag, how many with the load flag. -/
def countRows (rs : List Row) : SlaCounters :=
  { totalRows := rs.length
    dailyYes := (rs.filter (fun r => r.dailyEnergyYes)).length
    loadYes := (rs.filter (fun r => r.loadDataYes)).length }

/-- The resolved input rows that resolve to region `name`. -/
def rowsOfRegion (rows : List RawRow) (name : String) : List Row :=
  (rows.map resolveRow).filter (fun r => r.regionName = name)

/-- One region, three records of which two are daily = Yes; the third record repeats the
meter of the second. -/
def slaRows : List RawRow :=
  [sampleRow 150 70 "M1" 0 10 "Yes", sampleRow 150 70 "M2" 5 20 "No",
   sampleRow 150 70 "M2" 5 20 "Yes"]

/-- An energy as the flattener records it: absent when null or negative. -/
def nonExcluded (e : Option ℚ) : Option ℚ :=
  e.bind (fun v => if v < 0 then none else some v)

/-- One record without feeder or DT readings: neither energy is ever latched. -/
def unlatchedRows : List RawRow := [sampleRowNoReadings "M1" 0 10 "Yes"]

/-- The loss column of a results row as the contract words it: null when the anchor energy
is null or `0`, otherwise `round((anchor - sum) / anchor * 100, 2)` on the binary64
values of the anchor and the sum. -/
def lossSpec (anchor sum : Option ℚ) : Option JsNum :=
  match anchor with
  | none => none
  | some a =>
    if a = 0 then none
    else some (Binary64.percent
      (Binary64.sub (Binary64.roundDouble a) (Binary64.roundDouble (sum.getD 0)))
      (Binary64.roundDouble a))

/-- The feeder-anchored results row in closed form: the anchor is the non-excluded
`metrics.feederEnergy`, the sums run over the non-excluded `metrics.dtEnergy` of the
DTs referenced by `feeder.dts` and over `feeder.meters`, all read in the state `s` the
table is built from. -/
def feederRowSpec (s : State) (f : Feeder) : ResultRow :=
  let sumDt := sum ((deref DT.id s.dtById f.dts).map
    (fun d => (nonExcluded d.metrics.dtEnergy).getD 0))
  let sumCons := sum (f.meters.map (fun m => (nonExcluded m.energy).getD 0))
  { Feeder_Code := f.id
    Feeder_E := nonExcluded f.metrics.feederEnergy
    Sum_DT_E := some sumDt
    Feeder_to_DT_Loss := lossSpec (nonExcluded f.metrics.feederEnergy) (some sumDt)
    Sum_Cons_E := some sumCons
    Feeder_to_Cons_Loss := lossSpec (nonExcluded f.metrics.feederEnergy) (some sumCons)
    DT_Code := ""
    DT_E := none
    Sum_Cons_E_for_DT := none
    DT_to_Cons_Loss := none }

/-- The DT-anchored results row in closed form: the anchor is the non-excluded
`metrics.dtEnergy` of the DT as it stands when the table is built, the sum runs over
`dt.meters`. -/
def dtRowSpec (d : DT) : ResultRow :=
  let sumCons := sum (d.meters.map (fun m => (nonExcluded m.energy).getD 0))
  { Feeder_Code := d.feederId
    Feeder_E := none
    Sum_DT_E := none
    Feeder_to_DT_Loss := none
    Sum_Cons_E := none
    Feeder_to_Cons_Loss := none
    DT_Code := d.id
    DT_E := nonExcluded d.metrics.dtEnergy
    Sum_Cons_E_for_DT := some sumCons
    DT_to_Cons_Loss := lossSpec (nonExcluded d.metrics.dtEnergy) (some sumCons) }

/-- One record whose feeder reading goes down (`100` to `60`), so that the feeder energy
is clamped to `0`. -/
def zeroFeederRows : List RawRow := [sampleRow 60 70 "M1" 0 10 "Yes"]

/-- One record of a feeder with energy `160` (readings `100` to `260`) and a DT with
energy `63` (readings `40` to `103`). -/
def lossRows : List RawRow := [sampleRow 260 103 "M1" 0 10 "Yes"]

/-- Two records for the same meter id `M1` with different readings and flags. -/
def duplicateMeterRows : List RawRow :=
  [sampleRow 150 70 "M1" 0 10 "Yes", sampleRow 150 70 "M1" 3 30 "No"]

/-- Two records without any identifier column. -/
def anonymousRows : List RawRow := [[("Daily energy", .str "Yes")], []]

/-- A record of feeder `F1` whose first-day feeder reading is the given cell, the second-day
reading being `150`; there is no multiplier column. -/
def feederDay1Row (day1 : JsVal) : RawRow :=
  [("Region", .str "R1"), ("Feeder Code", .str "F1"), ("Feeder Day1", day1),
   ("Feeder Day2", .ofRat 150), ("DT Code", .str "D1"), ("Meter No", .str "M1"),
   ("Meter Day1", .ofRat 0), ("Meter Day2", .ofRat 10)]

/-- A record of feeder `F1` with the readings `100`, `150` and the given cell in the column
`MF Feeder`. -/
def feederMfRow (mf : JsVal) : RawRow :=
  [("Region", .str "R1"), ("Feeder Code", .str "F1"), ("Feeder Day1", .ofRat 100),
   ("Feeder Day2", .ofRat 150), ("MF Feeder", mf), ("DT Code", .str "D1"),
   ("Meter No", .str "M1"), ("Meter Day1", .ofRat 0), ("Meter Day2", .ofRat 10)]

/-- A record with a header that contains the first region candidate and a header that
equals the second one. -/
def twoRegionHeadersRow : RawRow :=
  [("Sub Region Name", .str "A"), ("Region", .str "B")]

/-- The text that `parseYesNo` compares: `String(v).trim().toLowerCase()`. -/
def yesNoText (v : JsVal) : String := jsToLowerCase (jsTrim v.toStr)

/-! ## Rollups as functions of the identifying data of the assets -/

/-- What the rollups read of a feeder: its id, its region and its latched energy. -/
def Feeder.core (f : Feeder) : String × String × Option ℚ :=
  (f.id, f.region, f.metrics.feederEnergy)

/-- What the rollups read of a DT: its id, its feeder and its latched energy. -/
def DT.core (d : DT) : String × String × Option ℚ :=
  (d.id, d.feederId, d.metrics.dtEnergy)

/-- What the rollups read of a meter: its id, its DT, its feeder and its energy. -/
def Meter.core (m : Meter) : String × String × String × Option ℚ :=
  (m.id, m.dtId, m.feederId, m.energy)

/-- The feeder data carried by a resolved row. -/
def Row.feederCore (r : Row) : String × String × Option ℚ :=
  (r.feederId, r.regionName, r.feederEnergy)

/-- The DT data carried by a resolved row. -/
def Row.dtCore (r : Row) : String × String × Option ℚ :=
  (r.dtId, r.feederId, r.dtEnergy)

/-- The meter data carried by a resolved row. -/
def Row.meterCore (r : Row) : String × String × String × Option ℚ :=
  (r.meterId, r.dtId, r.feederId, (newMeter r).energy)

/-- Energy of a DT: latched, else the energies of the meters that name it. -/
def dtValue (M : List (String × String × String × Option ℚ))
    (d : String × String × Option ℚ) : ℚ :=
  d.2.2.getD (((M.filter (fun m => m.2.1 = d.1)).map (fun m => m.2.2.2.getD 0)).sum)

/-- Sum of the DT energies of the DTs that name feeder `k`. -/
def feederDtValue (D : List (String × String × Option ℚ))
    (M : List (String × String × String × Option ℚ)) (k : String) : ℚ :=
  ((D.filter (fun d => d.2.1 = k)).map (dtValue M)).sum

/-- Sum of the energies of the meters that name feeder `k`. -/
def feederConsumerValue (M : List (String × String × String × Option ℚ)) (k : String) : ℚ :=
  ((M.filter (fun m => m.2.2.1 = k)).map (fun m => m.2.2.2.getD 0)).sum

/-- Energy of a feeder: latched, else the sum of its DT energies. -/
def feederValue (D : List (String × String × Option ℚ))
    (M : List (String × String × String × Option ℚ)) (f : String × String × Option ℚ) : ℚ :=
  f.2.2.getD (feederDtValue D M f.1)

/-- The three rollup sums of the region `name`. -/
def regionRollup (F D : List (String × String × Option ℚ))
    (M : List (String × String × String × Option ℚ)) (name : String) : ℚ × ℚ × ℚ :=
  (((F.filter (fun f => f.2.1 = name)).map (feederValue D M)).sum,
   ((F.filter (fun f => f.2.1 = name)).map (fun f => feederDtValue D M f.1)).sum,
   ((F.filter (fun f => f.2.1 = name)).map (fun f => feederConsumerValue M f.1)).sum)

/-- The three rollup sums of a region. -/
def Region.rollups (g : Region) : Option ℚ × Option ℚ × Option ℚ :=
  (g.metrics.feederEnergy, g.metrics.dtEnergy, g.metrics.consumerEnergy)

/-- The three energy sums over the regions that `computeGlobalTotals` forms
(its locals `feederEnergy`, `dtEnergy`, `consumerEnergy`). -/
def globalEnergySums (state : State) : ℚ × ℚ × ℚ :=
  (sum (state.regions.map (fun r => r.metrics.feederEnergy.getD 0)),
   sum (state.regions.map (fun r => r.metrics.dtEnergy.getD 0)),
   sum (state.regions.map (fun r => r.metrics.consumerEnergy.getD 0)))

/-- A number that is at least `0`: a non-negative finite value or `+Infinity`. -/
def JsNum.nonneg (n : JsNum) : Prop := n = .posInf ∨ ∃ q : ℚ, n = .fin q ∧ 0 ≤ q

/-- A record of region `R1` for the given feeder, DT and meter, the DT readings going
from `0` to `dtDay2` and the meter readings from `0` to `0`; no feeder readings. -/
def dtRow (feeder dt meter : String) (dtDay2 : ℚ) : RawRow :=
  [("Region", .str "R1"), ("Feeder Code", .str feeder), ("DT Code", .str dt),
   ("DT Day1", .ofRat 0), ("DT Day2", .ofRat dtDay2),
   ("Meter No", .str meter), ("Meter Day1", .ofRat 0), ("Meter Day2", .ofRat 0)]

/-- One region with feeder `F1` over DT `D1` (energy `0.1`) and feeder `F2` over DTs `D2`
(energy `0.2`) and `D3` (energy `0.3`). -/
def groupingRows : List RawRow :=
  [dtRow "F1" "D1" "M1" (1 / 10), dtRow "F2" "D2" "M2" (2 / 10), dtRow "F2" "D3" "M3" (3 / 10)]

/-! # Theorems -/

/-! ## Binary64 rounding -/

namespace Binary64

theorem bitLength_pos (fuel n : ℕ) (h1 : n ≤ fuel) (h2 : 0 < n) : 0 < bitLength fuel n := by
  cases fuel with
  | zero => omega
  | succ k =>
    have hn : n ≠ 0 := by omega
    simp [bitLength, hn]

theorem bitLength_spec : ∀ (fuel n : ℕ), n ≤ fuel → 0 < n →
    2 ^ (bitLength fuel n - 1) ≤ n ∧ n < 2 ^ (bitLength fuel n - 1 + 1) := by
  intro fuel
  induction fuel with
  | zero => intro n h1 h2; omega
  | succ fuel ih =>
    intro n h1 h2
    have hn : n ≠ 0 := by omega
    simp only [bitLength, hn, if_false, Nat.add_sub_cancel]
    by_cases h : n / 2 = 0
    · have hn1 : n = 1 := by omega
      subst hn1
      cases fuel <;> simp [bitLength]
    · have hpos : 0 < n / 2 := Nat.pos_of_ne_zero h
      obtain ⟨h3, h4⟩ := ih (n / 2) (by omega) hpos
      have hb := bitLength_pos fuel (n / 2) (by omega) hpos
      obtain ⟨k, hk⟩ : ∃ k, bitLength fuel (n / 2) = k + 1 := ⟨_, (Nat.succ_pred_eq_of_pos hb).symm⟩
      rw [hk] at h3 h4 ⊢
      simp only [Nat.add_sub_cancel] at h3 h4
      have e1 : 2 ^ (k + 1) = 2 ^ k * 2 := pow_succ 2 k
      have e2 : 2 ^ (k + 1 + 1) = 2 ^ k * 2 * 2 := by rw [pow_succ, pow_succ]
      rw [e1] at h4 ⊢
      rw [e2]
      constructor <;> omega

theorem log2_spec (n : ℕ) (hn : 0 < n) : 2 ^ log2 n ≤ n ∧ n < 2 ^ (log2 n + 1) :=
  bitLength_spec n n le_rfl hn

end Binary64

namespace Binary64

theorem roundRatio_nonneg (n d : ℕ) :
    roundRatio n d = .posInf ∨ ∃ r : ℚ, roundRatio n d = .fin r ∧ 0 ≤ r := by
  cases n with
  | zero => exact Or.inr ⟨0, by simp [roundRatio], le_refl _⟩
  | succ n =>
    cases d with
    | zero => exact Or.inr ⟨0, by simp [roundRatio], le_refl _⟩
    | succ d =>
      simp only [roundRatio]
      split
      · exact Or.inl rfl
      · exact Or.inr ⟨_, rfl, by positivity⟩

theorem roundDouble_nonneg (q : ℚ) (hq : 0 ≤ q) :
    roundDouble q = .posInf ∨ ∃ r : ℚ, roundDouble q = .fin r ∧ 0 ≤ r := by
  obtain ⟨n, hn⟩ := Int.eq_ofNat_of_zero_le (Rat.num_nonneg.mpr hq)
  unfold roundDouble
  rw [hn]
  exact roundRatio_nonneg n q.den

theorem roundHalfEven_le (a b M : ℕ) (hb : 0 < b) (h : a ≤ M * b) : roundHalfEven a b ≤ M := by
  have hdm := Nat.div_add_mod a b
  have hr := Nat.mod_lt a hb
  have hq : a / b ≤ M := Nat.div_le_of_le_mul (by rw [Nat.mul_comm]; exact h)
  have hstep : b ≤ 2 * (a % b) → a / b + 1 ≤ M := by
    intro h2
    by_contra hcon
    have hM : M = a / b := by omega
    rw [hM] at h
    have : a / b * b = b * (a / b) := Nat.mul_comm _ _
    omega
  unfold roundHalfEven
  split_ifs <;> first | exact hq | exact hstep (by omega)

theorem binade_le (n d c t : ℕ) (hn : 0 < n) (hd : 0 < d) (h : n ≤ c * 2 ^ t * d)
    (hc : c < 2 ^ 53) : binade n d ≤ 52 + t := by
  obtain ⟨hn1, hn2⟩ := log2_spec n hn
  obtain ⟨hd1, hd2⟩ := log2_spec d hd
  have hlt : n < 2 ^ (53 + t) * d := by
    have h1 : c * 2 ^ t < 2 ^ 53 * 2 ^ t := Nat.mul_lt_mul_of_pos_right hc (by positivity)
    have h2 : c * 2 ^ t * d < 2 ^ 53 * 2 ^ t * d := Nat.mul_lt_mul_of_pos_right h1 hd
    rw [pow_add]
    omega
  have hln : log2 n < log2 d + (54 + t) := by
    by_contra hcon
    have h1 : 2 ^ (log2 d + (54 + t)) ≤ 2 ^ log2 n :=
      Nat.pow_le_pow_right (by decide) (by omega)
    have h2 : 2 ^ (log2 d + (54 + t)) = 2 ^ (53 + t) * (2 ^ (log2 d + 1)) := by
      rw [← pow_add]; congr 1; omega
    have h3 : 2 ^ (53 + t) * d < 2 ^ (53 + t) * 2 ^ (log2 d + 1) :=
      Nat.mul_lt_mul_of_pos_left hd2 (by positivity)
    omega
  unfold binade
  split_ifs with hchk
  · by_contra hcon
    have he : (log2 n : ℤ) - (log2 d : ℤ) = ((log2 n - log2 d : ℕ) : ℤ) := by omega
    have he2 : (log2 d : ℤ) - (log2 n : ℤ) ≤ 0 := by omega
    rw [he, Int.toNat_ofNat, Int.toNat_eq_zero.mpr he2, pow_zero, mul_one] at hchk
    have h53 : 53 + t ≤ log2 n - log2 d := by omega
    have h1 : 2 ^ (53 + t) ≤ 2 ^ (log2 n - log2 d) := Nat.pow_le_pow_right (by decide) h53
    have h2 : d * 2 ^ (53 + t) ≤ d * 2 ^ (log2 n - log2 d) := Nat.mul_le_mul_left d h1
    have h3 : d * 2 ^ (53 + t) = 2 ^ (53 + t) * d := Nat.mul_comm _ _
    omega
  · omega

theorem ulpExp_le (n d c t : ℕ) (hn : 0 < n) (hd : 0 < d) (h : n ≤ c * 2 ^ t * d)
    (hc : c < 2 ^ 53) : ulpExp n d ≤ t := by
  have := binade_le n d c t hn hd h hc
  unfold ulpExp
  omega

/-- A bound `c * 2 ^ t` with `c < 2 ^ 53` is itself a binary64 value, so rounding does not
cross it. -/
theorem roundRatio_le (n d c t : ℕ) (hd : 0 < d) (h : n ≤ c * 2 ^ t * d) (hc : c < 2 ^ 53)
    (ht : t + 53 ≤ 1024) :
    ∃ r : ℚ, roundRatio n d = .fin r ∧ 0 ≤ r ∧ r ≤ ((c * 2 ^ t : ℕ) : ℚ) := by
  cases n with
  | zero => exact ⟨0, by simp [roundRatio], le_refl _, by positivity⟩
  | succ n =>
    cases d with
    | zero => omega
    | succ d =>
      have hk := ulpExp_le (n + 1) (d + 1) c t (by omega) hd h hc
      generalize hkdef : ulpExp (n + 1) (d + 1) = k at hk
      obtain ⟨p, j, hp, hj, hpt⟩ : ∃ p j : ℕ, k.toNat = p ∧ (-k).toNat = j ∧ p ≤ t :=
        ⟨k.toNat, (-k).toNat, rfl, rfl, by omega⟩
      have hsplit : 2 ^ t = 2 ^ (t - p) * 2 ^ p := by
        rw [← pow_add]; congr 1; omega
      have hsig : roundHalfEven ((n + 1) * 2 ^ j) ((d + 1) * 2 ^ p) ≤ c * 2 ^ (t - p) * 2 ^ j := by
        apply roundHalfEven_le _ _ _ (by positivity)
        calc (n + 1) * 2 ^ j ≤ (c * 2 ^ t * (d + 1)) * 2 ^ j := Nat.mul_le_mul_right _ h
          _ = c * 2 ^ (t - p) * 2 ^ j * ((d + 1) * 2 ^ p) := by rw [hsplit]; ring
      have hval : roundHalfEven ((n + 1) * 2 ^ j) ((d + 1) * 2 ^ p) * 2 ^ p
          ≤ c * 2 ^ t * 2 ^ j := by
        calc roundHalfEven ((n + 1) * 2 ^ j) ((d + 1) * 2 ^ p) * 2 ^ p
            ≤ c * 2 ^ (t - p) * 2 ^ j * 2 ^ p := Nat.mul_le_mul_right _ hsig
          _ = c * 2 ^ t * 2 ^ j := by rw [hsplit]; ring
      have hpow : 0 < 2 ^ j := by positivity
      have hnot : ¬ (2 ^ 1024 * 2 ^ j
          ≤ roundHalfEven ((n + 1) * 2 ^ j) ((d + 1) * 2 ^ p) * 2 ^ p) := by
        intro hcon
        have h1 : c * 2 ^ t < 2 ^ 53 * 2 ^ t := Nat.mul_lt_mul_of_pos_right hc (by positivity)
        have h2 : 2 ^ 53 * 2 ^ t ≤ 2 ^ 1024 := by
          rw [← pow_add]; exact Nat.pow_le_pow_right (by decide) (by omega)
        have h3 : c * 2 ^ t * 2 ^ j < 2 ^ 1024 * 2 ^ j :=
          Nat.mul_lt_mul_of_pos_right (lt_of_lt_of_le h1 h2) hpow
        omega
      refine ⟨((roundHalfEven ((n + 1) * 2 ^ j) ((d + 1) * 2 ^ p) * 2 ^ p : ℕ) : ℚ)
        / ((2 ^ j : ℕ) : ℚ), ?_, by positivity, ?_⟩
      · simp only [roundRatio, significand, hkdef, hp, hj, if_neg hnot]
      · have hq : (0 : ℚ) < ((2 ^ j : ℕ) : ℚ) := by exact_mod_cast hpow
        rw [div_le_iff₀ hq]
        exact_mod_cast hval

theorem roundDouble_bounds (x : ℚ) (c t : ℕ) (hx0 : 0 ≤ x) (hxc : x ≤ ((c * 2 ^ t : ℕ) : ℚ))
    (hc : c < 2 ^ 53) (ht : t + 53 ≤ 1024) :
    ∃ r : ℚ, roundDouble x = .fin r ∧ 0 ≤ r ∧ r ≤ ((c * 2 ^ t : ℕ) : ℚ) := by
  obtain ⟨n, hn⟩ := Int.eq_ofNat_of_zero_le (Rat.num_nonneg.mpr hx0)
  have hle : n ≤ c * 2 ^ t * x.den := by
    have h1 : (x.num : ℚ) / (x.den : ℚ) ≤ ((c * 2 ^ t : ℕ) : ℚ) := by
      rw [Rat.num_div_den]; exact hxc
    have hden : (0 : ℚ) < (x.den : ℚ) := by exact_mod_cast x.den_pos
    rw [div_le_iff₀ hden, hn] at h1
    exact_mod_cast h1
  unfold roundDouble
  rw [hn]
  exact roundRatio_le n x.den c t x.den_pos hle hc ht

theorem roundDouble_neg (x : ℚ) : roundDouble (-x) = JsNum.neg (roundDouble x) := by
  unfold roundDouble
  rw [Rat.neg_num, Rat.neg_den]
  rcases hx : x.num with n | n
  · cases n with
    | zero => simp [roundRatio, JsNum.neg]
    | succ m =>
      have : -(Int.ofNat (m + 1)) = Int.negSucc m := rfl
      rw [this]
  · have : -(Int.negSucc n) = Int.ofNat (n + 1) := rfl
    rw [this]
    simp only
    cases h : roundRatio (n + 1) x.den <;> simp [JsNum.neg]

end Binary64

/-! ## Numbers and utilities -/

@[simp] theorem JsVal.toNumber_ofRat (q : ℚ) : (JsVal.ofRat q).toNumber = .fin q := rfl

@[simp] theorem JsVal.isNullish_ofRat (q : ℚ) : (JsVal.ofRat q).isNullish = false := rfl

@[simp] theorem JsVal.truthy_ofRat (q : ℚ) : (JsVal.ofRat q).truthy = decide (q ≠ 0) := rfl

@[simp] theorem JsNum.sub_fin (a b : ℚ) : JsNum.sub (.fin a) (.fin b) = .fin (a - b) := by
  simp [JsNum.sub, JsNum.neg, JsNum.add, sub_eq_add_neg]

@[simp] theorem JsNum.mul_fin (a b : ℚ) : JsNum.mul (.fin a) (.fin b) = .fin (a * b) := rfl

theorem JsNum.div_fin (a b : ℚ) (hb : b ≠ 0) : JsNum.div (.fin a) (.fin b) = .fin (a / b) := by
  simp [JsNum.div, hb]

theorem toFixed2_nonneg {x : ℚ} (hx : 0 ≤ x) : 0 ≤ toFixed2 x := by
  unfold toFixed2
  rw [if_pos hx]
  apply div_nonneg _ (by norm_num)
  have h : (0 : ℤ) ≤ ⌊x * 100 + 1 / 2⌋ := Int.floor_nonneg.mpr (by positivity)
  exact_mod_cast h

theorem computeEnergy_ofRat (day1 day2 : ℚ) :
    computeEnergy (.ofRat day1) (.ofRat day2) = some (max 0 (toFixed2 (day2 - day1))) := by
  simp [computeEnergy]

theorem diffEnergy_ofRat (day1 day2 mf : ℚ) :
    diffEnergy (.ofRat day1) (.ofRat day2) (.ofRat mf)
      = some (toFixed2 (max 0 (toFixed2 (day2 - day1)) * mf)) := by
  have h : (JsVal.ofRat mf = JsVal.undefined) = False := by simp [JsVal.ofRat]
  simp [diffEnergy, computeEnergy_ofRat, h]

/-! ## Energy of two readings -/

theorem toFixed2_of_neg {x : ℚ} (hx : x < 0) : toFixed2 x = -toFixed2 (-x) := by
  have h1 : ¬ (0 ≤ x) := not_le.mpr hx
  have h2 : (0 : ℚ) ≤ -x := by linarith
  unfold toFixed2
  rw [if_neg h1, if_pos h2]

theorem toFixed2_le_pow {x : ℚ} (h0 : 0 ≤ x) (h1 : x < 10 ^ 21) :
    toFixed2 x ≤ ((1 * 2 ^ 70 : ℕ) : ℚ) := by
  unfold toFixed2
  rw [if_pos h0, div_le_iff₀ (by norm_num : (0 : ℚ) < 100)]
  have h : ⌊x * 100 + 1 / 2⌋ ≤ (10 ^ 23 : ℤ) := by
    have hlt : ⌊x * 100 + 1 / 2⌋ < (10 ^ 23 + 1 : ℤ) := by
      rw [Int.floor_lt]
      push_cast
      linarith
    omega
  have h2 : ((⌊x * 100 + 1 / 2⌋ : ℤ) : ℚ) ≤ ((10 ^ 23 : ℤ) : ℚ) := by exact_mod_cast h
  calc ((⌊x * 100 + 1 / 2⌋ : ℤ) : ℚ) ≤ ((10 ^ 23 : ℤ) : ℚ) := h2
    _ ≤ ((1 * 2 ^ 70 : ℕ) : ℚ) * 100 := by norm_num

namespace Binary64

theorem toFixed2_fin_finite (q : ℚ) : ∃ r : ℚ, toFixed2 (.fin q) = .fin r := by
  by_cases hbig : (10 : ℚ) ^ 21 ≤ q ∨ q ≤ -10 ^ 21
  · exact ⟨q, by show (if _ then _ else _) = _; rw [if_pos hbig]⟩
  · have e : toFixed2 (.fin q) = roundDouble (Genus.toFixed2 q) := by
      show (if _ then _ else _) = _
      rw [if_neg hbig]
    rw [not_or, not_le, not_le] at hbig
    rw [e]
    by_cases h0 : 0 ≤ q
    · obtain ⟨r, hr, -, -⟩ := roundDouble_bounds _ 1 70 (Genus.toFixed2_nonneg h0)
        (toFixed2_le_pow h0 hbig.1) (by norm_num) (by norm_num)
      exact ⟨r, hr⟩
    · have hneg : q < 0 := not_le.mp h0
      have h0b : (0 : ℚ) ≤ -q := by linarith
      obtain ⟨r, hr, -, -⟩ := roundDouble_bounds _ 1 70 (Genus.toFixed2_nonneg h0b)
        (toFixed2_le_pow h0b (by linarith)) (by norm_num) (by norm_num)
      rw [toFixed2_of_neg hneg, roundDouble_neg, hr]
      exact ⟨-r, rfl⟩

theorem round_nonneg (q : ℚ) (hq : 0 ≤ q) : (round (.fin q)).nonneg :=
  roundDouble_nonneg q hq

theorem toFixed2_keeps_nonneg (n : JsNum) (h : n.nonneg) : (toFixed2 n).nonneg := by
  rcases h with rfl | ⟨q, rfl, hq⟩
  · exact Or.inl rfl
  · by_cases hbig : (10 : ℚ) ^ 21 ≤ q ∨ q ≤ -10 ^ 21
    · have e : toFixed2 (.fin q) = .fin q := by
        show (if _ then _ else _) = _
        rw [if_pos hbig]
      rw [e]
      exact Or.inr ⟨q, rfl, hq⟩
    · have e : toFixed2 (.fin q) = roundDouble (Genus.toFixed2 q) := by
        show (if _ then _ else _) = _
        rw [if_neg hbig]
      rw [e]
      exact roundDouble_nonneg _ (Genus.toFixed2_nonneg hq)

theorem toNumber_undefined : toNumber .undefined = .nan := rfl

theorem toNumber_one : toNumber (JsVal.ofRat 1) = .fin 1 := by decide!

/-- The multiplier that `diffEnergy` applies is a non-negative finite number when the
argument is not a negative finite number. -/
theorem multiplier_nonneg (mf : JsVal) (hmf : ∀ m : ℚ, toNumber mf = .fin m → 0 ≤ m) :
    ∃ m : ℚ, 0 ≤ m ∧
      (if (toNumber (if mf = .undefined then JsVal.ofRat 1 else mf)).isFinite then
        toNumber (if mf = .undefined then JsVal.ofRat 1 else mf)
      else .fin 1) = .fin m := by
  by_cases hu : mf = JsVal.undefined
  · refine ⟨1, by norm_num, ?_⟩
    rw [if_pos hu, toNumber_one]
    rfl
  · rw [if_neg hu]
    cases hm : toNumber mf with
    | fin m => exact ⟨m, hmf m hm, rfl⟩
    | nan => exact ⟨1, by norm_num, rfl⟩
    | posInf => exact ⟨1, by norm_num, rfl⟩
    | negInf => exact ⟨1, by norm_num, rfl⟩

end Binary64

/-- C1 (as amended): whatever the readings, for a multiplier that is not a negative finite
number `diffEnergy` returns null or a number that is at least `0` (a non-negative
finite value, or `+Infinity` when the product overflows), never a negative number or
NaN; it returns null exactly when a reading is null or undefined or the difference
`Number(day2) - Number(day1)` is not finite, as when it overflows.  Moreover
`diffEnergy(150, 100, 1) = 0`, `diffEnergy(100, 150, 2) = 100`,
`diffEnergy(-1e308, 1e308, 1)` is null and `diffEnergy(0, 1e308, 10)` is `+Infinity`. -/
theorem diffEnergy_nonneg (day1 day2 mf : JsVal)
    (hmf : ∀ m : ℚ, Binary64.toNumber mf = .fin m → 0 ≤ m) :
    (Binary64.diffEnergy day1 day2 mf = none ∨
      ∃ e : JsNum, Binary64.diffEnergy day1 day2 mf = some e ∧ e.nonneg) ∧
    (Binary64.diffEnergy day1 day2 mf = none ↔
      (day1.isNullish = true ∨ day2.isNullish = true ∨
        (Binary64.sub (Binary64.toNumber day2) (Binary64.toNumber day1)).isFinite = false)) ∧
    Binary64.diffEnergy (.ofRat 150) (.ofRat 100) (.ofRat 1) = some (.fin 0) ∧
    Binary64.diffEnergy (.ofRat 100) (.ofRat 150) (.ofRat 2) = some (.fin 100) ∧
    Binary64.diffEnergy (.ofRat (-(10 ^ 308))) (.ofRat (10 ^ 308)) (.ofRat 1) = none ∧
    Binary64.diffEnergy (.ofRat 0) (.ofRat (10 ^ 308)) (.ofRat 10) = some .posInf := by
  refine ⟨?_, ?_, by decide!, by decide!, by decide!, by decide!⟩
  · unfold Binary64.diffEnergy Binary64.computeEnergy
    by_cases hnull : (day1.isNullish || day2.isNullish) = true
    · left
      simp only [hnull, if_true]
    · rw [if_neg hnull]
      cases hd : Binary64.sub (Binary64.toNumber day2) (Binary64.toNumber day1) with
      | fin q =>
        right
        obtain ⟨r, hr⟩ := Binary64.toFixed2_fin_finite q
        have hfin : (JsNum.fin q).isFinite = true := rfl
        simp only [hfin, if_true, hr, Binary64.max0]
        refine ⟨_, rfl, ?_⟩
        apply Binary64.toFixed2_keeps_nonneg
        have hb : (0 : ℚ) ≤ max 0 r := le_max_left _ _
        obtain ⟨m, hm0, hm⟩ := Binary64.multiplier_nonneg mf hmf
        rw [hm]
        show (Binary64.round (JsNum.mul (.fin (max 0 r)) (.fin m))).nonneg
        rw [JsNum.mul_fin]
        exact Binary64.round_nonneg _ (mul_nonneg hb hm0)
      | nan => left; simp [JsNum.isFinite]
      | posInf => left; simp [JsNum.isFinite]
      | negInf => left; simp [JsNum.isFinite]
  · unfold Binary64.diffEnergy Binary64.computeEnergy
    by_cases hnull : (day1.isNullish || day2.isNullish) = true
    · simp only [hnull, if_true, true_iff]
      rcases Bool.or_eq_true _ _ ▸ hnull with h | h
      · exact Or.inl h
      · exact Or.inr (Or.inl h)
    · rw [if_neg hnull]
      have hn1 : day1.isNullish = false := by
        cases h : day1.isNullish
        · rfl
        · exact absurd (by simp [h]) hnull
      have hn2 : day2.isNullish = false := by
        cases h : day2.isNullish
        · rfl
        · exact absurd (by simp [h]) hnull
      cases hd : (Binary64.sub (Binary64.toNumber day2) (Binary64.toNumber day1)).isFinite
      · simp [hn1, hn2]
      · simp [hn1, hn2]

/-- Witness for C1: the multiplier `2` on the readings `100`, `150`. -/
theorem diffEnergy_nonneg_witness :
    (∀ m : ℚ, Binary64.toNumber (.ofRat 2) = .fin m → 0 ≤ m) ∧
    (Binary64.diffEnergy (.ofRat 100) (.ofRat 150) (.ofRat 2) = none ∨
      ∃ e : JsNum, Binary64.diffEnergy (.ofRat 100) (.ofRat 150) (.ofRat 2) = some e ∧
        e.nonneg) :=
  have h : ∀ m : ℚ, Binary64.toNumber (.ofRat 2) = .fin m → 0 ≤ m := by
    intro m hm
    have h2 : Binary64.toNumber (.ofRat 2) = .fin 2 := by decide!
    rw [h2] at hm
    cases hm
    norm_num
  ⟨h, (diffEnergy_nonneg (.ofRat 100) (.ofRat 150) (.ofRat 2) h).1⟩

/-- C1 (counterexample): with the finite readings `100`, `150` and the multiplier `-1`,
`diffEnergy` returns `-50`, which is negative. -/
theorem diffEnergy_negative_multiplier :
    Binary64.diffEnergy (.ofRat 100) (.ofRat 150) (.ofRat (-1)) = some (.fin (-50)) ∧
    (-50 : ℚ) < 0 := by
  refine ⟨by decide!, by norm_num⟩

/-- C2 (as amended): for readings that are not null or undefined and a finite multiplier,
`diffEnergy` is null when `Number(day2) - Number(day1)` is not finite and otherwise
`round(max(0, round(day2 - day1, 2)) * mf, 2)`, every operation being the binary64
one: the delta is rounded to two decimals before it is clamped and multiplied, and
the product is rounded again.  So `diffEnergy(0, 0.03125, 0.5) = 0.01` (the rounded
delta is the binary64 value of `0.03`, below `0.03`),
`diffEnergy("100.005", "104.6", 1) = 4.59` and `diffEnergy(0, 1e308, 10)` is
`+Infinity`. -/
theorem diffEnergy_double_rounding (day1 day2 mf : JsVal)
    (h1 : day1.isNullish = false) (h2 : day2.isNullish = false)
    (hmf : (Binary64.toNumber mf).isFinite = true) :
    Binary64.diffEnergy day1 day2 mf
      = (if (Binary64.sub (Binary64.toNumber day2) (Binary64.toNumber day1)).isFinite then
          some (Binary64.roundedTwice (Binary64.toNumber day1) (Binary64.toNumber day2)
            (Binary64.toNumber mf))
        else none) ∧
    Binary64.diffEnergy (.ofRat 0) (.ofRat (1 / 32)) (.ofRat (1 / 2))
      = some (Binary64.roundDouble (1 / 100)) ∧
    Binary64.diffEnergy (.str "100.005") (.str "104.6") (.ofRat 1)
      = some (Binary64.roundDouble (459 / 100)) ∧
    Binary64.diffEnergy (.ofRat 0) (.ofRat (10 ^ 308)) (.ofRat 10) = some .posInf := by
  refine ⟨?_, by decide!, by decide!, by decide!⟩
  have hu : mf ≠ JsVal.undefined := by
    intro h
    rw [h, Binary64.toNumber_undefined] at hmf
    exact absurd hmf (by decide)
  unfold Binary64.diffEnergy Binary64.computeEnergy Binary64.roundedTwice
  rw [if_neg hu, if_pos hmf]
  have hnull : ¬ ((day1.isNullish || day2.isNullish) = true) := by simp [h1, h2]
  rw [if_neg hnull]
  by_cases hd : (Binary64.sub (Binary64.toNumber day2) (Binary64.toNumber day1)).isFinite = true
  · rw [if_pos hd, if_pos hd]
  · rw [if_neg hd, if_neg hd]

/-- Witness for C2: the readings `0`, `0.03125` and the multiplier `0.5`. -/
theorem diffEnergy_double_rounding_witness :
    (JsVal.ofRat 0).isNullish = false ∧ (JsVal.ofRat (1 / 32)).isNullish = false ∧
    (Binary64.toNumber (.ofRat (1 / 2))).isFinite = true ∧
    Binary64.diffEnergy (.ofRat 0) (.ofRat (1 / 32)) (.ofRat (1 / 2))
      = (if (Binary64.sub (Binary64.toNumber (.ofRat (1 / 32)))
            (Binary64.toNumber (.ofRat 0))).isFinite then
          some (Binary64.roundedTwice (Binary64.toNumber (.ofRat 0))
            (Binary64.toNumber (.ofRat (1 / 32))) (Binary64.toNumber (.ofRat (1 / 2))))
        else none) :=
  ⟨rfl, rfl, by decide!,
    (diffEnergy_double_rounding (.ofRat 0) (.ofRat (1 / 32)) (.ofRat (1 / 2)) rfl rfl
      (by decide!)).1⟩

/-- C2 (counterexample): for the readings `0`, `1/256` and the multiplier `256` the code
returns `0`, whereas `round(max(0, day2 - day1) * mf, 2)` is `1`. -/
theorem diffEnergy_not_single_rounding :
    Binary64.diffEnergy (.ofRat 0) (.ofRat (1 / 256)) (.ofRat 256) = some (.fin 0) ∧
    Binary64.roundedOnce (.fin 0) (.fin (1 / 256)) (.fin 256) = .fin 1 := by
  refine ⟨by decide!, by decide!⟩

/-! ## Lookups -/

theorem lookupBy_append {α : Type} (key : α → String) (k : String) (xs ys : List α) :
    lookupBy key k (xs ++ ys) = (lookupBy key k xs).or (lookupBy key k ys) := by
  simp [lookupBy, List.find?_append]

theorem lookupBy_eq_none_iff {α : Type} (key : α → String) (k : String) (xs : List α) :
    lookupBy key k xs = none ↔ ∀ x ∈ xs, key x ≠ k := by
  simp [lookupBy, List.find?_eq_none]

theorem lookupBy_some {α : Type} {key : α → String} {k : String} {xs : List α} {x : α}
    (h : lookupBy key k xs = some x) : x ∈ xs ∧ key x = k := by
  unfold lookupBy at h
  exact ⟨List.mem_of_find?_eq_some h, by simpa using List.find?_some h⟩

theorem lookupBy_map {α : Type} (key : α → String) (k : String) (h : α → α)
    (hk : ∀ x, key (h x) = key x) (xs : List α) :
    lookupBy key k (xs.map h) = (lookupBy key k xs).map h := by
  induction xs with
  | nil => rfl
  | cons x xs ih =>
    unfold lookupBy at ih ⊢
    by_cases hx : key x = k
    · simp [List.find?_cons, hk, hx]
    · simp [List.find?_cons, hk, hx, ih]

theorem lookupBy_of_mem {α : Type} {key : α → String} {xs : List α}
    (hnd : (xs.map key).Nodup) {x : α} (hx : x ∈ xs) : lookupBy key (key x) xs = some x := by
  induction xs with
  | nil => cases hx
  | cons y ys ih =>
    simp only [List.map_cons, List.nodup_cons, List.mem_map, not_exists, not_and] at hnd
    unfold lookupBy at ih ⊢
    rcases List.mem_cons.mp hx with rfl | hmem
    · simp [List.find?_cons]
    · have hne : key y ≠ key x := fun h => hnd.1 x hmem h.symm
      simp [List.find?_cons, hne, ih hnd.2 hmem]

theorem lookupBy_isSome_iff {α : Type} (key : α → String) (k : String) (xs : List α) :
    (lookupBy key k xs).isSome ↔ ∃ x ∈ xs, key x = k := by
  rw [← not_iff_not]
  simp [lookupBy_eq_none_iff]

/-! ## The row loop, collection by collection -/

theorem addRow_slaGlobal (s : State) (r : Row) :
    (addRow s r).slaGlobal = s.slaGlobal.count r.dailyEnergyYes r.loadDataYes := by
  simp only [addRow, latchEnergies, ensureMeter, ensureDt, ensureFeeder, countRegion,
    ensureRegion, countGlobal]
  repeat' split
  all_goals rfl

theorem addRow_resultsRows (s : State) (r : Row) :
    (addRow s r).resultsRows = s.resultsRows := by
  simp only [addRow, latchEnergies, ensureMeter, ensureDt, ensureFeeder, countRegion,
    ensureRegion, countGlobal]
  repeat' split
  all_goals rfl

theorem ensureRegion_fields (r : Row) (s : State) :
    (ensureRegion r s).regions = ensureBy Region.name r.regionName (newRegion r) s.regions ∧
    (ensureRegion r s).feederById = s.feederById ∧ (ensureRegion r s).dtById = s.dtById ∧
    (ensureRegion r s).meterById = s.meterById := by
  unfold ensureRegion ensureBy
  split <;> simp

theorem ensureFeeder_fields (r : Row) (s : State) :
    (ensureFeeder r s).regions =
      (if (lookupBy Feeder.id r.feederId s.feederById).isNone then
        modifyBy Region.name r.regionName
          (fun g => { g with feeders := g.feeders ++ [r.feederId] }) s.regions
       else s.regions) ∧
    (ensureFeeder r s).feederById = ensureBy Feeder.id r.feederId (newFeeder r) s.feederById ∧
    (ensureFeeder r s).dtById = s.dtById ∧ (ensureFeeder r s).meterById = s.meterById := by
  unfold ensureFeeder ensureBy
  split <;> simp

theorem ensureDt_fields (r : Row) (s : State) :
    (ensureDt r s).regions = s.regions ∧
    (ensureDt r s).feederById =
      (if (lookupBy DT.id r.dtId s.dtById).isNone then
        modifyBy Feeder.id r.feederId (fun f => { f with dts := f.dts ++ [r.dtId] }) s.feederById
       else s.feederById) ∧
    (ensureDt r s).dtById = ensureBy DT.id r.dtId (newDt r) s.dtById ∧
    (ensureDt r s).meterById = s.meterById := by
  unfold ensureDt ensureBy
  split <;> simp

theorem ensureMeter_fields (r : Row) (s : State) :
    (ensureMeter r s).regions = s.regions ∧
    (ensureMeter r s).feederById =
      (if (lookupBy Meter.id r.meterId s.meterById).isNone then
        modifyBy Feeder.id r.feederId
          (fun f => { f with meters := f.meters ++ [newMeter r] }) s.feederById
       else s.feederById) ∧
    (ensureMeter r s).dtById =
      (if (lookupBy Meter.id r.meterId s.meterById).isNone then
        modifyBy DT.id r.dtId (fun d => { d with meters := d.meters ++ [newMeter r] }) s.dtById
       else s.dtById) ∧
    (ensureMeter r s).meterById = ensureBy Meter.id r.meterId (newMeter r) s.meterById := by
  unfold ensureMeter ensureBy
  split <;> simp

theorem addRow_meterById (s : State) (r : Row) :
    (addRow s r).meterById = ensureBy Meter.id r.meterId (newMeter r) s.meterById := by
  simp only [addRow, latchEnergies, (ensureMeter_fields _ _).2.2.2, (ensureDt_fields _ _).2.2.2,
    (ensureFeeder_fields _ _).2.2.2, (ensureRegion_fields _ _).2.2.2, countRegion, countGlobal]

theorem addRow_dtById (s : State) (r : Row) :
    (addRow s r).dtById = (ensureBy DT.id r.dtId (newDt r) s.dtById).map (dtStep s r) := by
  simp only [addRow, latchEnergies, (ensureMeter_fields _ _).2.2.1, (ensureMeter_fields _ _).2.2.2,
    (ensureDt_fields _ _).2.2.1, (ensureDt_fields _ _).2.2.2,
    (ensureFeeder_fields _ _).2.2.1, (ensureFeeder_fields _ _).2.2.2,
    (ensureRegion_fields _ _).2.2.1, (ensureRegion_fields _ _).2.2.2, countRegion, countGlobal]
  unfold modifyBy dtStep
  split <;> simp [List.map_map, Function.comp_def]

theorem addRow_feederById (s : State) (r : Row) :
    (addRow s r).feederById
      = (ensureBy Feeder.id r.feederId (newFeeder r) s.feederById).map (feederStep s r) := by
  simp only [addRow, latchEnergies, ensureMeter_fields, ensureDt_fields, ensureFeeder_fields,
    ensureRegion_fields, countRegion, countGlobal]
  unfold modifyBy feederStep
  split <;> split <;> simp [List.map_map, Function.comp_def]

theorem addRow_regions (s : State) (r : Row) :
    (addRow s r).regions
      = (ensureBy Region.name r.regionName (newRegion r) s.regions).map (regionStep s r) := by
  simp only [addRow, latchEnergies, ensureMeter_fields, ensureDt_fields, ensureFeeder_fields,
    ensureRegion_fields, countRegion, countGlobal]
  unfold modifyBy regionStep
  split <;> simp [List.map_map, Function.comp_def]

/-! ## Get-or-create and the parent/child relations -/

theorem mem_ensureBy {α : Type} {key : α → String} {k : String} {x : α} {xs : List α} {y : α} :
    y ∈ ensureBy key k x xs ↔ y ∈ xs ∨ (y = x ∧ lookupBy key k xs = none) := by
  unfold ensureBy
  split
  · rename_i h
    simp [Option.isNone_iff_eq_none.mp h]
  · rename_i h
    have h2 : lookupBy key k xs ≠ none := fun hn => h (by simp [hn])
    simp [h2]

theorem exists_key_ensureBy {α : Type} (key : α → String) (k : String) (x : α) (xs : List α)
    (hk : key x = k) : ∃ y ∈ ensureBy key k x xs, key y = k := by
  by_cases h : lookupBy key k xs = none
  · exact ⟨x, mem_ensureBy.mpr (Or.inr ⟨rfl, h⟩), hk⟩
  · obtain ⟨y, hy⟩ := Option.ne_none_iff_exists'.mp h
    exact ⟨y, mem_ensureBy.mpr (Or.inl (lookupBy_some hy).1), (lookupBy_some hy).2⟩

theorem nodup_ensureBy_map {α : Type} (key : α → String) (k : String) (x : α) (xs : List α)
    (hk : key x = k) (step : α → α) (hstep : ∀ y, key (step y) = key y)
    (hnd : (xs.map key).Nodup) : (((ensureBy key k x xs).map step).map key).Nodup := by
  have hfun : (key ∘ step) = key := funext hstep
  rw [List.map_map, hfun]
  unfold ensureBy
  split
  · rename_i h
    have hnone := (lookupBy_eq_none_iff key k xs).mp (Option.isNone_iff_eq_none.mp h)
    rw [List.map_append, List.nodup_append]
    refine ⟨hnd, by simp, ?_⟩
    intro a ha hb
    simp only [List.map_cons, List.map_nil, List.mem_singleton] at hb
    obtain ⟨y, hy, rfl⟩ := List.mem_map.mp ha
    exact hnone y hy (hb.trans hk)
  · exact hnd

theorem childRel_step {π γ κ : Type} (pk : π → String) (kids : π → List κ)
    (ck par : γ → String) (proj : γ → κ) (P : List π) (C : List γ)
    (newP : π) (newC : γ) (kP kC : String) (stepP : π → π) (stepC : γ → γ)
    (hkP : pk newP = kP)
    (hrel : ∀ p ∈ P, kids p = (C.filter (fun c => par c = pk p)).map proj)
    (hclosed : ∀ c ∈ C, ∃ p ∈ P, pk p = par c)
    (hnewP : kids newP = [])
    (hpk : ∀ p, pk (stepP p) = pk p)
    (hkids : ∀ p, kids (stepP p) =
      if (lookupBy ck kC C).isNone ∧ pk p = par newC then kids p ++ [proj newC] else kids p)
    (hpar : ∀ c, par (stepC c) = par c) (hproj : ∀ c, proj (stepC c) = proj c) :
    ∀ p ∈ (ensureBy pk kP newP P).map stepP,
      kids p = (((ensureBy ck kC newC C).map stepC).filter (fun c => par c = pk p)).map proj := by
  intro p hp
  obtain ⟨p0, hp0, rfl⟩ := List.mem_map.mp hp
  have hold : kids p0 = (C.filter (fun c => par c = pk p0)).map proj := by
    rcases mem_ensureBy.mp hp0 with h | ⟨rfl, habs⟩
    · exact hrel p0 h
    · rw [hnewP]
      have hnone := (lookupBy_eq_none_iff pk kP P).mp habs
      have : C.filter (fun c => par c = pk p0) = [] := by
        rw [List.filter_eq_nil_iff]
        intro c hc hpc
        obtain ⟨q, hq, hqc⟩ := hclosed c hc
        exact hnone q hq (by rw [hqc, ← hkP]; simpa using hpc)
      rw [this]; rfl
  rw [hpk, hkids, List.filter_map, List.map_map]
  have hf1 : ((fun c => decide (par c = pk p0)) ∘ stepC) = (fun c => decide (par c = pk p0)) := by
    funext c; simp [hpar]
  have hf2 : (proj ∘ stepC) = proj := funext hproj
  rw [hf1, hf2]
  unfold ensureBy
  by_cases habs : (lookupBy ck kC C).isNone
  · simp only [habs, true_and, if_true, List.filter_append, List.map_append]
    by_cases hpp : pk p0 = par newC
    · simp [hpp, hold]
    · have hpp2 : ¬ par newC = pk p0 := fun h => hpp h.symm
      simp [hpp, hpp2, hold]
  · simp [habs, hold]

theorem childClosed_step {π γ : Type} (pk : π → String) (par : γ → String) (ck : γ → String)
    (P : List π) (C : List γ) (newP : π) (newC : γ) (kP kC : String)
    (stepP : π → π) (stepC : γ → γ)
    (hkP : pk newP = kP) (hnew : par newC = kP)
    (hclosed : ∀ c ∈ C, ∃ p ∈ P, pk p = par c)
    (hpk : ∀ p, pk (stepP p) = pk p) (hpar : ∀ c, par (stepC c) = par c) :
    ∀ c ∈ (ensureBy ck kC newC C).map stepC,
      ∃ p ∈ (ensureBy pk kP newP P).map stepP, pk p = par c := by
  intro c hc
  obtain ⟨c0, hc0, rfl⟩ := List.mem_map.mp hc
  rw [hpar]
  rcases mem_ensureBy.mp hc0 with h | ⟨rfl, _⟩
  · obtain ⟨p, hp, hpc⟩ := hclosed c0 h
    exact ⟨stepP p, List.mem_map.mpr ⟨p, mem_ensureBy.mpr (Or.inl hp), rfl⟩, by rw [hpk, hpc]⟩
  · obtain ⟨p, hp, hpc⟩ := exists_key_ensureBy pk kP newP P hkP
    exact ⟨stepP p, List.mem_map.mpr ⟨p, hp, rfl⟩, by rw [hpk, hpc, hnew]⟩

/-! ## Fields of the objects after one iteration -/

@[simp] theorem latchFeeder_id (e : Option ℚ) (f : Feeder) : (latchFeeder e f).id = f.id := by
  unfold latchFeeder; repeat' split
  all_goals rfl

@[simp] theorem latchFeeder_region (e : Option ℚ) (f : Feeder) :
    (latchFeeder e f).region = f.region := by
  unfold latchFeeder; repeat' split
  all_goals rfl

@[simp] theorem latchFeeder_dts (e : Option ℚ) (f : Feeder) : (latchFeeder e f).dts = f.dts := by
  unfold latchFeeder; repeat' split
  all_goals rfl

@[simp] theorem latchFeeder_meters (e : Option ℚ) (f : Feeder) :
    (latchFeeder e f).meters = f.meters := by
  unfold latchFeeder; repeat' split
  all_goals rfl

@[simp] theorem latchDt_id (e : Option ℚ) (d : DT) : (latchDt e d).id = d.id := by
  unfold latchDt; repeat' split
  all_goals rfl

@[simp] theorem latchDt_feederId (e : Option ℚ) (d : DT) :
    (latchDt e d).feederId = d.feederId := by
  unfold latchDt; repeat' split
  all_goals rfl

@[simp] theorem latchDt_meters (e : Option ℚ) (d : DT) : (latchDt e d).meters = d.meters := by
  unfold latchDt; repeat' split
  all_goals rfl

@[simp] theorem regionStep_name (s : State) (r : Row) (g : Region) :
    (regionStep s r g).name = g.name := by
  unfold regionStep
  by_cases h1 : (lookupBy Feeder.id r.feederId s.feederById).isNone <;>
    by_cases h2 : g.name = r.regionName <;> simp [h1, h2]

theorem regionStep_feeders (s : State) (r : Row) (g : Region) :
    (regionStep s r g).feeders =
      if (lookupBy Feeder.id r.feederId s.feederById).isNone ∧ g.name = r.regionName then
        g.feeders ++ [r.feederId] else g.feeders := by
  unfold regionStep
  by_cases h1 : (lookupBy Feeder.id r.feederId s.feederById).isNone <;>
    by_cases h2 : g.name = r.regionName <;> simp [h1, h2]

theorem regionStep_sla (s : State) (r : Row) (g : Region) :
    (regionStep s r g).sla =
      if g.name = r.regionName then g.sla.count r.dailyEnergyYes r.loadDataYes else g.sla := by
  unfold regionStep
  by_cases h1 : (lookupBy Feeder.id r.feederId s.feederById).isNone <;>
    by_cases h2 : g.name = r.regionName <;> simp [h1, h2]

@[simp] theorem feederStep_id (s : State) (r : Row) (f : Feeder) :
    (feederStep s r f).id = f.id := by
  unfold feederStep
  by_cases h1 : (lookupBy DT.id r.dtId s.dtById).isNone <;>
    by_cases h2 : (lookupBy Meter.id r.meterId s.meterById).isNone <;>
    by_cases h3 : f.id = r.feederId <;> simp [h1, h2, h3]

@[simp] theorem feederStep_region (s : State) (r : Row) (f : Feeder) :
    (feederStep s r f).region = f.region := by
  unfold feederStep
  by_cases h1 : (lookupBy DT.id r.dtId s.dtById).isNone <;>
    by_cases h2 : (lookupBy Meter.id r.meterId s.meterById).isNone <;>
    by_cases h3 : f.id = r.feederId <;> simp [h1, h2, h3]

theorem feederStep_dts (s : State) (r : Row) (f : Feeder) :
    (feederStep s r f).dts =
      if (lookupBy DT.id r.dtId s.dtById).isNone ∧ f.id = r.feederId then f.dts ++ [r.dtId]
      else f.dts := by
  unfold feederStep
  by_cases h1 : (lookupBy DT.id r.dtId s.dtById).isNone <;>
    by_cases h2 : (lookupBy Meter.id r.meterId s.meterById).isNone <;>
    by_cases h3 : f.id = r.feederId <;> simp [h1, h2, h3]

theorem feederStep_meters (s : State) (r : Row) (f : Feeder) :
    (feederStep s r f).meters =
      if (lookupBy Meter.id r.meterId s.meterById).isNone ∧ f.id = r.feederId then
        f.meters ++ [newMeter r] else f.meters := by
  unfold feederStep
  by_cases h1 : (lookupBy DT.id r.dtId s.dtById).isNone <;>
    by_cases h2 : (lookupBy Meter.id r.meterId s.meterById).isNone <;>
    by_cases h3 : f.id = r.feederId <;> simp [h1, h2, h3]

theorem feederStep_metrics (s : State) (r : Row) (f : Feeder) :
    (feederStep s r f).metrics =
      if f.id = r.feederId then (latchFeeder r.feederEnergy f).metrics else f.metrics := by
  unfold feederStep
  by_cases h1 : (lookupBy DT.id r.dtId s.dtById).isNone <;>
    by_cases h2 : (lookupBy Meter.id r.meterId s.meterById).isNone <;>
    by_cases h3 : f.id = r.feederId <;> simp [h1, h2, h3, latchFeeder] <;>
    cases r.feederEnergy <;> simp <;> by_cases h4 : f.metrics.feEnergySet = true <;> simp [h4]

@[simp] theorem dtStep_id (s : State) (r : Row) (d : DT) : (dtStep s r d).id = d.id := by
  unfold dtStep
  by_cases h2 : (lookupBy Meter.id r.meterId s.meterById).isNone <;>
    by_cases h3 : d.id = r.dtId <;> simp [h2, h3]

@[simp] theorem dtStep_feederId (s : State) (r : Row) (d : DT) :
    (dtStep s r d).feederId = d.feederId := by
  unfold dtStep
  by_cases h2 : (lookupBy Meter.id r.meterId s.meterById).isNone <;>
    by_cases h3 : d.id = r.dtId <;> simp [h2, h3]

theorem dtStep_meters (s : State) (r : Row) (d : DT) :
    (dtStep s r d).meters =
      if (lookupBy Meter.id r.meterId s.meterById).isNone ∧ d.id = r.dtId then
        d.meters ++ [newMeter r] else d.meters := by
  unfold dtStep
  by_cases h2 : (lookupBy Meter.id r.meterId s.meterById).isNone <;>
    by_cases h3 : d.id = r.dtId <;> simp [h2, h3]

theorem dtStep_metrics (s : State) (r : Row) (d : DT) :
    (dtStep s r d).metrics =
      if d.id = r.dtId then (latchDt r.dtEnergy d).metrics else d.metrics := by
  unfold dtStep
  by_cases h2 : (lookupBy Meter.id r.meterId s.meterById).isNone <;>
    by_cases h3 : d.id = r.dtId <;> simp [h2, h3, latchDt] <;>
    cases r.dtEnergy <;> simp <;> by_cases h4 : d.metrics.dtEnergySet = true <;> simp [h4]

/-! ## Well-formedness of the hierarchy -/

theorem WF_resetState (st : State) : WF (resetState st) := by
  constructor <;> simp [resetState]

theorem WF_addRow {s : State} (h : WF s) (r : Row) : WF (addRow s r) := by
  constructor
  · rw [addRow_regions]
    exact nodup_ensureBy_map Region.name r.regionName (newRegion r) s.regions rfl _
      (regionStep_name s r) h.regions_nodup
  · rw [addRow_feederById]
    exact nodup_ensureBy_map Feeder.id r.feederId (newFeeder r) s.feederById rfl _
      (feederStep_id s r) h.feeders_nodup
  · rw [addRow_dtById]
    exact nodup_ensureBy_map DT.id r.dtId (newDt r) s.dtById rfl _ (dtStep_id s r) h.dts_nodup
  · rw [addRow_meterById]
    have := nodup_ensureBy_map Meter.id r.meterId (newMeter r) s.meterById rfl id
      (fun _ => rfl) h.meters_nodup
    simpa using this
  · rw [addRow_regions, addRow_feederById]
    exact childRel_step Region.name Region.feeders Feeder.id Feeder.region Feeder.id
      s.regions s.feederById (newRegion r) (newFeeder r) r.regionName r.feederId
      (regionStep s r) (feederStep s r) rfl h.region_feeders h.feeder_region rfl
      (regionStep_name s r) (regionStep_feeders s r) (feederStep_region s r) (feederStep_id s r)
  · rw [addRow_feederById, addRow_dtById]
    exact childRel_step Feeder.id Feeder.dts DT.id DT.feederId DT.id
      s.feederById s.dtById (newFeeder r) (newDt r) r.feederId r.dtId
      (feederStep s r) (dtStep s r) rfl h.feeder_dts h.dt_feeder rfl
      (feederStep_id s r) (feederStep_dts s r) (dtStep_feederId s r) (dtStep_id s r)
  · rw [addRow_feederById, addRow_meterById]
    have := childRel_step Feeder.id Feeder.meters Meter.id Meter.feederId id
      s.feederById s.meterById (newFeeder r) (newMeter r) r.feederId r.meterId
      (feederStep s r) id rfl h.feeder_meters h.meter_feeder rfl
      (feederStep_id s r) (feederStep_meters s r) (fun _ => rfl) (fun _ => rfl)
    simpa using this
  · rw [addRow_dtById, addRow_meterById]
    have := childRel_step DT.id DT.meters Meter.id Meter.dtId id
      s.dtById s.meterById (newDt r) (newMeter r) r.dtId r.meterId
      (dtStep s r) id rfl h.dt_meters h.meter_dt rfl
      (dtStep_id s r) (dtStep_meters s r) (fun _ => rfl) (fun _ => rfl)
    simpa using this
  · rw [addRow_regions, addRow_feederById]
    exact childClosed_step Region.name Feeder.region Feeder.id s.regions s.feederById
      (newRegion r) (newFeeder r) r.regionName r.feederId (regionStep s r) (feederStep s r)
      rfl rfl h.feeder_region (regionStep_name s r) (feederStep_region s r)
  · rw [addRow_feederById, addRow_dtById]
    exact childClosed_step Feeder.id DT.feederId DT.id s.feederById s.dtById
      (newFeeder r) (newDt r) r.feederId r.dtId (feederStep s r) (dtStep s r)
      rfl rfl h.dt_feeder (feederStep_id s r) (dtStep_feederId s r)
  · rw [addRow_feederById, addRow_meterById]
    have := childClosed_step Feeder.id Meter.feederId Meter.id s.feederById s.meterById
      (newFeeder r) (newMeter r) r.feederId r.meterId (feederStep s r) id
      rfl rfl h.meter_feeder (feederStep_id s r) (fun _ => rfl)
    simpa using this
  · rw [addRow_dtById, addRow_meterById]
    have := childClosed_step DT.id Meter.dtId Meter.id s.dtById s.meterById
      (newDt r) (newMeter r) r.dtId r.meterId (dtStep s r) id
      rfl rfl h.meter_dt (dtStep_id s r) (fun _ => rfl)
    simpa using this

theorem WF_foldl_addRow (rs : List Row) {s : State} (h : WF s) : WF (rs.foldl addRow s) := by
  induction rs generalizing s with
  | nil => exact h
  | cons r rs ih => exact ih (WF_addRow h r)

theorem WF_buildHierarchy (st : State) (rows : List RawRow) : WF (buildHierarchy st rows) :=
  WF_foldl_addRow _ (WF_resetState st)

/-! ## The aggregator assigns every object its metrics -/

theorem dtEnergyOrSum_dtMetrics (d : DT) :
    dtEnergyOrSum { d with metrics := dtMetrics d } = dtEnergyOrSum d := by
  simp [dtEnergyOrSum, dtMetrics, sumMeterEnergy]

theorem dtMetrics_dtMetrics (d : DT) :
    dtMetrics { d with metrics := dtMetrics d } = dtMetrics d := by
  simp [dtMetrics, dtEnergyOrSum, sumMeterEnergy]

theorem lookupBy_dt_aggregatedUpTo (s : State) (R F D : List String) (k : String) :
    lookupBy DT.id k (aggregatedUpTo s R F D).dtById =
      (lookupBy DT.id k s.dtById).map
        (fun d => if d.id ∈ D then { d with metrics := dtMetrics d } else d) := by
  unfold aggregatedUpTo
  exact lookupBy_map DT.id k _ (fun d => by by_cases h : d.id ∈ D <;> simp [h]) _

theorem lookupBy_feeder_aggregatedUpTo (s : State) (R F D : List String) (k : String) :
    lookupBy Feeder.id k (aggregatedUpTo s R F D).feederById =
      (lookupBy Feeder.id k s.feederById).map
        (fun f => if f.id ∈ F then { f with metrics := feederMetrics s f } else f) := by
  unfold aggregatedUpTo
  exact lookupBy_map Feeder.id k _ (fun f => by by_cases h : f.id ∈ F <;> simp [h]) _

theorem lookupBy_region_aggregatedUpTo (s : State) (R F D : List String) (k : String) :
    lookupBy Region.name k (aggregatedUpTo s R F D).regions =
      (lookupBy Region.name k s.regions).map
        (fun g => if g.name ∈ R then { g with metrics := regionMetrics s g } else g) := by
  unfold aggregatedUpTo
  exact lookupBy_map Region.name k _ (fun g => by by_cases h : g.name ∈ R <;> simp [h]) _

theorem deref_map_congr {α β : Type} (key : α → String) (xs ys : List α) (h : α → α)
    (hys : ∀ k, lookupBy key k ys = (lookupBy key k xs).map h)
    (φ ψ : α → β) (hφ : ∀ x, φ (h x) = ψ x) (ids : List String) :
    (deref key ys ids).map φ = (deref key xs ids).map ψ := by
  induction ids with
  | nil => rfl
  | cons k ks ih =>
    unfold deref at ih ⊢
    rw [List.filterMap_cons, List.filterMap_cons, hys k]
    cases hk : lookupBy key k xs with
    | none => simpa using ih
    | some x => simp [hφ, ih]

theorem deref_dt_aggregatedUpTo {β : Type} (s : State) (R F D : List String) (φ : DT → β)
    (hφ : ∀ d, φ { d with metrics := dtMetrics d } = φ d) (ids : List String) :
    (deref DT.id (aggregatedUpTo s R F D).dtById ids).map φ
      = (deref DT.id s.dtById ids).map φ := by
  apply deref_map_congr DT.id s.dtById _ _ (lookupBy_dt_aggregatedUpTo s R F D)
  intro d
  by_cases h : d.id ∈ D <;> simp [h, hφ]

theorem sumDTEnergy_aggregatedUpTo (s : State) (R F D : List String) (f f2 : Feeder)
    (h : f2.dts = f.dts) : sumDTEnergy (aggregatedUpTo s R F D) f2 = sumDTEnergy s f := by
  unfold sumDTEnergy
  rw [h, deref_dt_aggregatedUpTo s R F D dtEnergyOrSum dtEnergyOrSum_dtMetrics]

theorem feederMetrics_aggregatedUpTo (s : State) (R F D : List String) (f : Feeder) :
    feederMetrics (aggregatedUpTo s R F D) f = feederMetrics s f := by
  have h1 := sumDTEnergy_aggregatedUpTo s R F D f f rfl
  have h2 := deref_dt_aggregatedUpTo s R F D dtEnergyOrSum dtEnergyOrSum_dtMetrics f.dts
  simp only [feederMetrics, feederEnergyOrSum, h1, h2]

theorem feederMetrics_feederMetrics (s : State) (f : Feeder) :
    feederMetrics s { f with metrics := feederMetrics s f } = feederMetrics s f := by
  have h : sumDTEnergy s { f with metrics := feederMetrics s f } = sumDTEnergy s f := rfl
  simp [feederMetrics, feederEnergyOrSum, h]

theorem feederEnergyOrSum_feederMetrics (s : State) (f : Feeder) :
    feederEnergyOrSum s { f with metrics := feederMetrics s f } = feederEnergyOrSum s f := by
  simp [feederMetrics, feederEnergyOrSum]

theorem feederEnergyOrSum_aggregatedUpTo (s : State) (R F D : List String) (f : Feeder) :
    feederEnergyOrSum (aggregatedUpTo s R F D) f = feederEnergyOrSum s f := by
  unfold feederEnergyOrSum
  rw [sumDTEnergy_aggregatedUpTo s R F D f f rfl]

theorem deref_feeder_aggregatedUpTo {β : Type} (s : State) (R F D : List String)
    (φ ψ : Feeder → β) (h1 : ∀ f, φ f = ψ f)
    (h2 : ∀ f, φ { f with metrics := feederMetrics s f } = ψ f) (ids : List String) :
    (deref Feeder.id (aggregatedUpTo s R F D).feederById ids).map φ
      = (deref Feeder.id s.feederById ids).map ψ := by
  apply deref_map_congr Feeder.id s.feederById _ _ (lookupBy_feeder_aggregatedUpTo s R F D)
  intro f
  by_cases h : f.id ∈ F
  · simp only [h, if_true]; exact h2 f
  · simp only [h, if_false]; exact h1 f

theorem regionDtIds_aggregatedUpTo (s : State) (R F D : List String) (g : Region) :
    regionDtIds (aggregatedUpTo s R F D) g = regionDtIds s g := by
  unfold regionDtIds
  rw [List.flatMap_def, List.flatMap_def,
    deref_feeder_aggregatedUpTo s R F D Feeder.dts Feeder.dts (fun _ => rfl) (fun _ => rfl)]

theorem regionMetrics_aggregatedUpTo (s : State) (R F D : List String) (g : Region) :
    regionMetrics (aggregatedUpTo s R F D) g = regionMetrics s g := by
  have hdts := regionDtIds_aggregatedUpTo s R F D g
  unfold regionDtIds at hdts
  have hmeters : (deref Feeder.id (aggregatedUpTo s R F D).feederById g.feeders).flatMap
        (fun f => f.meters)
      = (deref Feeder.id s.feederById g.feeders).flatMap (fun f => f.meters) := by
    rw [List.flatMap_def, List.flatMap_def,
      deref_feeder_aggregatedUpTo s R F D Feeder.meters Feeder.meters (fun _ => rfl)
        (fun _ => rfl)]
  have hfe : (deref Feeder.id (aggregatedUpTo s R F D).feederById g.feeders).map
        (feederEnergyOrSum (aggregatedUpTo s R F D))
      = (deref Feeder.id s.feederById g.feeders).map (feederEnergyOrSum s) :=
    deref_feeder_aggregatedUpTo s R F D _ _
      (fun f => feederEnergyOrSum_aggregatedUpTo s R F D f)
      (fun f => by
        rw [feederEnergyOrSum_aggregatedUpTo]; exact feederEnergyOrSum_feederMetrics s f) _
  unfold regionMetrics
  simp only [hdts, hmeters, hfe,
    deref_dt_aggregatedUpTo s R F D dtEnergyOrSum dtEnergyOrSum_dtMetrics]

theorem aggregateDt_aggregatedUpTo (s : State) (R F D : List String) (k : String) :
    aggregateDt (aggregatedUpTo s R F D) k = aggregatedUpTo s R F (k :: D) := by
  unfold aggregateDt aggregatedUpTo modifyBy
  simp only [List.map_map, State.mk.injEq, and_true, true_and]
  apply List.map_congr_left
  intro d _
  by_cases hk : d.id = k
  · subst hk
    by_cases hD : d.id ∈ D <;> simp [hD, dtMetrics_dtMetrics]
  · by_cases hD : d.id ∈ D <;> simp [hk, hD]

theorem aggregateFeeder_aggregatedUpTo (s : State) (R F D : List String) (k : String) :
    aggregateFeeder (aggregatedUpTo s R F D) k = aggregatedUpTo s R (k :: F) D := by
  have hm := feederMetrics_aggregatedUpTo s R F D
  unfold aggregateFeeder
  simp only [hm]
  unfold aggregatedUpTo modifyBy
  simp only [List.map_map, State.mk.injEq, and_true, true_and]
  apply List.map_congr_left
  intro f _
  by_cases hk : f.id = k
  · subst hk
    by_cases hF : f.id ∈ F <;> simp [hF, feederMetrics_feederMetrics]
  · by_cases hF : f.id ∈ F <;> simp [hk, hF]

theorem foldl_aggregateFeeder (s : State) (R D : List String) (ks F : List String) :
    ks.foldl aggregateFeeder (aggregatedUpTo s R F D) = aggregatedUpTo s R (ks.reverse ++ F) D := by
  induction ks generalizing F with
  | nil => rfl
  | cons k ks ih =>
    rw [List.foldl_cons, aggregateFeeder_aggregatedUpTo, ih]
    simp

theorem foldl_aggregateDt (s : State) (R F : List String) (ks D : List String) :
    ks.foldl aggregateDt (aggregatedUpTo s R F D) = aggregatedUpTo s R F (ks.reverse ++ D) := by
  induction ks generalizing D with
  | nil => rfl
  | cons k ks ih =>
    rw [List.foldl_cons, aggregateDt_aggregatedUpTo, ih]
    simp

theorem regions_step_aggregatedUpTo (s : State) (R F D : List String) (n : String) :
    ({ aggregatedUpTo s R F D with
        regions := modifyBy Region.name n
          (fun g => { g with metrics := regionMetrics (aggregatedUpTo s R F D) g })
          (aggregatedUpTo s R F D).regions } : State)
      = aggregatedUpTo s (n :: R) F D := by
  have hm := regionMetrics_aggregatedUpTo s R F D
  simp only [hm]
  unfold aggregatedUpTo modifyBy
  simp only [List.map_map, State.mk.injEq, and_true, true_and]
  apply List.map_congr_left
  intro g _
  have hrr : regionMetrics s { g with metrics := regionMetrics s g } = regionMetrics s g := rfl
  by_cases hk : g.name = n
  · subst hk
    by_cases hR : g.name ∈ R <;> simp [hR, hrr]
  · by_cases hR : g.name ∈ R <;> simp [hk, hR]

theorem aggregateRegion_aggregatedUpTo (s : State) (R F D : List String) (n : String)
    (g : Region) (hg : lookupBy Region.name n s.regions = some g) :
    aggregateRegion (aggregatedUpTo s R F D) n
      = aggregatedUpTo s (n :: R) (g.feeders.reverse ++ F) ((regionDtIds s g).reverse ++ D) := by
  have hlk := lookupBy_region_aggregatedUpTo s R F D n
  rw [hg] at hlk
  have hdts := regionDtIds_aggregatedUpTo s R F D g
  unfold regionDtIds at hdts
  unfold aggregateRegion
  rw [hlk]
  simp only [Option.map_some']
  have hfe : (if g.name ∈ R then ({ g with metrics := regionMetrics s g } : Region) else g).feeders
      = g.feeders := by
    by_cases h : g.name ∈ R <;> simp [h]
  rw [hfe, hdts, regions_step_aggregatedUpTo, foldl_aggregateFeeder, foldl_aggregateDt]
  rfl

theorem aggregatedUpTo_nil (s : State) : aggregatedUpTo s [] [] [] = s := by
  simp [aggregatedUpTo]

theorem foldl_aggregateRegion (s : State) (ns : List String)
    (hns : ∀ n ∈ ns, ∃ g, lookupBy Region.name n s.regions = some g) (R F D : List String) :
    ∃ R2 F2 D2 : List String,
      ns.foldl aggregateRegion (aggregatedUpTo s R F D) = aggregatedUpTo s R2 F2 D2 ∧
      (∀ n g, n ∈ ns → lookupBy Region.name n s.regions = some g →
        n ∈ R2 ∧ (∀ k ∈ g.feeders, k ∈ F2) ∧ (∀ k ∈ regionDtIds s g, k ∈ D2)) ∧
      (∀ n ∈ R, n ∈ R2) ∧ (∀ k ∈ F, k ∈ F2) ∧ (∀ k ∈ D, k ∈ D2) := by
  induction ns generalizing R F D with
  | nil => exact ⟨R, F, D, rfl, by simp, fun _ h => h, fun _ h => h, fun _ h => h⟩
  | cons n ns ih =>
    obtain ⟨g, hg⟩ := hns n (List.mem_cons_self _ _)
    obtain ⟨R2, F2, D2, heq, hcov, hR, hF, hD⟩ :=
      ih (fun m hm => hns m (List.mem_cons_of_mem _ hm)) (n :: R) (g.feeders.reverse ++ F)
        ((regionDtIds s g).reverse ++ D)
    refine ⟨R2, F2, D2, ?_, ?_, ?_, ?_, ?_⟩
    · rw [List.foldl_cons, aggregateRegion_aggregatedUpTo s R F D n g hg, heq]
    · intro m g2 hm hg2
      rcases List.mem_cons.mp hm with rfl | hm2
      · rw [hg] at hg2
        cases hg2
        refine ⟨hR _ (List.mem_cons_self _ _), ?_, ?_⟩
        · intro k hk
          exact hF k (List.mem_append_left _ (List.mem_reverse.mpr hk))
        · intro k hk
          exact hD k (List.mem_append_left _ (List.mem_reverse.mpr hk))
      · exact hcov m g2 hm2 hg2
    · intro m hm
      exact hR m (List.mem_cons_of_mem _ hm)
    · intro k hk
      exact hF k (List.mem_append_right _ hk)
    · intro k hk
      exact hD k (List.mem_append_right _ hk)

theorem aggregate_eq_aggregatedAll (s : State) (h : WF s) : aggregate s = aggregatedAll s := by
  have hns : ∀ n ∈ s.regions.map Region.name, ∃ g, lookupBy Region.name n s.regions = some g := by
    intro n hn
    obtain ⟨g, hg, rfl⟩ := List.mem_map.mp hn
    exact ⟨g, lookupBy_of_mem h.regions_nodup hg⟩
  obtain ⟨R2, F2, D2, heq, hcov, -, -, -⟩ := foldl_aggregateRegion s _ hns [] [] []
  rw [aggregatedUpTo_nil] at heq
  unfold aggregate
  rw [heq]
  have hR : ∀ g ∈ s.regions, g.name ∈ R2 ∧ (∀ k ∈ g.feeders, k ∈ F2) ∧
      (∀ k ∈ regionDtIds s g, k ∈ D2) := fun g hg =>
    hcov g.name g (List.mem_map.mpr ⟨g, hg, rfl⟩) (lookupBy_of_mem h.regions_nodup hg)
  have hFall : ∀ f ∈ s.feederById, f.id ∈ F2 := by
    intro f hf
    obtain ⟨g, hg, hgf⟩ := h.feeder_region f hf
    apply (hR g hg).2.1
    rw [h.region_feeders g hg]
    exact List.mem_map.mpr ⟨f, List.mem_filter.mpr ⟨hf, by simpa using hgf.symm⟩, rfl⟩
  have hDall : ∀ d ∈ s.dtById, d.id ∈ D2 := by
    intro d hd
    obtain ⟨f, hf, hfd⟩ := h.dt_feeder d hd
    obtain ⟨g, hg, hgf⟩ := h.feeder_region f hf
    apply (hR g hg).2.2
    unfold regionDtIds
    rw [List.mem_flatMap]
    refine ⟨f, ?_, ?_⟩
    · unfold deref
      rw [List.mem_filterMap]
      refine ⟨f.id, ?_, lookupBy_of_mem h.feeders_nodup hf⟩
      rw [h.region_feeders g hg]
      exact List.mem_map.mpr ⟨f, List.mem_filter.mpr ⟨hf, by simpa using hgf.symm⟩, rfl⟩
    · rw [h.feeder_dts f hf]
      exact List.mem_map.mpr ⟨d, List.mem_filter.mpr ⟨hd, by simpa using hfd.symm⟩, rfl⟩
  unfold aggregatedUpTo aggregatedAll
  simp only [State.mk.injEq, and_true, true_and]
  refine ⟨?_, ?_, ?_⟩
  · apply List.map_congr_left
    intro g hg
    simp [(hR g hg).1]
  · apply List.map_congr_left
    intro f hf
    simp [hFall f hf]
  · apply List.map_congr_left
    intro d hd
    simp [hDall d hd]

/-! ## The one-time latch -/

theorem lookupBy_ensureBy {α : Type} (key : α → String) (k : String) (x : α) (xs : List α)
    (hk : key x = k) (k2 : String) :
    lookupBy key k2 (ensureBy key k x xs) =
      if k2 = k then some ((lookupBy key k xs).getD x) else lookupBy key k2 xs := by
  unfold ensureBy
  cases hl : lookupBy key k xs with
  | none =>
    simp only [Option.isNone_none, if_true, lookupBy_append, Option.getD_none]
    by_cases h2 : k2 = k
    · subst h2
      rw [hl]
      simp [lookupBy, hk]
    · have : ¬ key x = k2 := fun h => h2 (h.symm.trans hk)
      simp [h2, lookupBy, this]
  | some y =>
    by_cases h2 : k2 = k
    · subst h2
      simp [hl]
    · simp [h2]

theorem lookupBy_feeder_addRow (s : State) (r : Row) (k : String) :
    lookupBy Feeder.id k (addRow s r).feederById =
      (if k = r.feederId then some ((lookupBy Feeder.id r.feederId s.feederById).getD (newFeeder r))
        else lookupBy Feeder.id k s.feederById).map (feederStep s r) := by
  rw [addRow_feederById, lookupBy_map Feeder.id k _ (feederStep_id s r),
    lookupBy_ensureBy Feeder.id r.feederId (newFeeder r) s.feederById rfl]

theorem lookupBy_dt_addRow (s : State) (r : Row) (k : String) :
    lookupBy DT.id k (addRow s r).dtById =
      (if k = r.dtId then some ((lookupBy DT.id r.dtId s.dtById).getD (newDt r))
        else lookupBy DT.id k s.dtById).map (dtStep s r) := by
  rw [addRow_dtById, lookupBy_map DT.id k _ (dtStep_id s r),
    lookupBy_ensureBy DT.id r.dtId (newDt r) s.dtById rfl]

/-- A feeder whose energy is latched keeps it through the rest of the loop. -/
theorem feeder_latch_stable (rs : List Row) (s : State) (k : String) (f : Feeder)
    (hf : lookupBy Feeder.id k s.feederById = some f) (hset : f.metrics.feEnergySet = true) :
    ∃ f2, lookupBy Feeder.id k (rs.foldl addRow s).feederById = some f2 ∧
      f2.metrics.feederEnergy = f.metrics.feederEnergy ∧ f2.metrics.feEnergySet = true := by
  induction rs generalizing s f with
  | nil => exact ⟨f, hf, rfl, hset⟩
  | cons r rs ih =>
    have hstep : lookupBy Feeder.id k (addRow s r).feederById = some (feederStep s r f) := by
      rw [lookupBy_feeder_addRow]
      by_cases hk : k = r.feederId
      · subst hk; simp [hf]
      · simp [hk, hf]
    have hm : (feederStep s r f).metrics = f.metrics := by
      rw [feederStep_metrics]
      split
      · unfold latchFeeder
        cases r.feederEnergy <;> simp [hset]
      · rfl
    obtain ⟨f2, h1, h2, h3⟩ := ih (addRow s r) (feederStep s r f) hstep (by rw [hm]; exact hset)
    exact ⟨f2, h1, by rw [h2, hm], h3⟩

/-- The feeder energy is latched from the first row of its feeder that has one. -/
theorem feeder_latch_first (rs : List Row) (s : State) (k : String) (r : Row)
    (hfresh : ∀ f, lookupBy Feeder.id k s.feederById = some f → f.metrics.feEnergySet = false)
    (hr : rs.find? (fun x => decide (x.feederId = k) && x.feederEnergy.isSome) = some r) :
    ∃ f, lookupBy Feeder.id k (rs.foldl addRow s).feederById = some f ∧
      f.metrics.feederEnergy = r.feederEnergy ∧ f.metrics.feEnergySet = true := by
  induction rs generalizing s with
  | nil => simp at hr
  | cons r0 rs ih =>
    rw [List.find?_cons] at hr
    by_cases hp : (decide (r0.feederId = k) && r0.feederEnergy.isSome) = true
    · rw [hp] at hr
      simp only [Option.some.injEq] at hr
      subst hr
      simp only [Bool.and_eq_true, decide_eq_true_eq] at hp
      obtain ⟨hid, hsome⟩ := hp
      obtain ⟨e, he⟩ := Option.isSome_iff_exists.mp hsome
      have hfl : ((lookupBy Feeder.id r0.feederId s.feederById).getD (newFeeder r0)).metrics.feEnergySet
          = false := by
        cases hl : lookupBy Feeder.id r0.feederId s.feederById with
        | none => rfl
        | some f => exact hfresh f (hid ▸ hl)
      have hid2 : ((lookupBy Feeder.id r0.feederId s.feederById).getD (newFeeder r0)).id
          = r0.feederId := by
        cases hl : lookupBy Feeder.id r0.feederId s.feederById with
        | none => rfl
        | some f => exact (lookupBy_some hl).2
      have hstep := lookupBy_feeder_addRow s r0 k
      rw [if_pos hid.symm, Option.map_some'] at hstep
      obtain ⟨f2, h1, h2, h3⟩ := feeder_latch_stable rs (addRow s r0) k _ hstep (by
        rw [feederStep_metrics, if_pos hid2]
        simp [latchFeeder, he, hfl])
      refine ⟨f2, h1, ?_, h3⟩
      rw [h2, feederStep_metrics, if_pos hid2]
      simp [latchFeeder, he, hfl]
    · have hp2 : (decide (r0.feederId = k) && r0.feederEnergy.isSome) = false := by
        simpa using hp
      rw [hp2] at hr
      apply ih (addRow s r0) _ hr
      intro f hf
      rw [lookupBy_feeder_addRow] at hf
      by_cases hk : k = r0.feederId
      · have hnone : r0.feederEnergy = none := by
          cases he : r0.feederEnergy with
          | none => rfl
          | some e => simp [hk, he] at hp2
        rw [if_pos hk, Option.map_some'] at hf
        simp only [Option.some.injEq] at hf
        subst hf
        have hid2 : ((lookupBy Feeder.id r0.feederId s.feederById).getD (newFeeder r0)).id
            = r0.feederId := by
          cases hl : lookupBy Feeder.id r0.feederId s.feederById with
          | none => rfl
          | some f => exact (lookupBy_some hl).2
        rw [feederStep_metrics, if_pos hid2, hnone]
        cases hl : lookupBy Feeder.id r0.feederId s.feederById with
        | none => rfl
        | some f => exact hfresh f (hk ▸ hl)
      · rw [if_neg hk] at hf
        obtain ⟨f0, hf0, rfl⟩ := Option.map_eq_some'.mp hf
        rw [feederStep_metrics, if_neg (fun h => hk ((lookupBy_some hf0).2.symm.trans h))]
        exact hfresh f0 hf0

/-- A DT whose energy is latched keeps it through the rest of the loop. -/
theorem dt_latch_stable (rs : List Row) (s : State) (k : String) (f : DT)
    (hf : lookupBy DT.id k s.dtById = some f) (hset : f.metrics.dtEnergySet = true) :
    ∃ f2, lookupBy DT.id k (rs.foldl addRow s).dtById = some f2 ∧
      f2.metrics.dtEnergy = f.metrics.dtEnergy ∧ f2.metrics.dtEnergySet = true := by
  induction rs generalizing s f with
  | nil => exact ⟨f, hf, rfl, hset⟩
  | cons r rs ih =>
    have hstep : lookupBy DT.id k (addRow s r).dtById = some (dtStep s r f) := by
      rw [lookupBy_dt_addRow]
      by_cases hk : k = r.dtId
      · subst hk; simp [hf]
      · simp [hk, hf]
    have hm : (dtStep s r f).metrics = f.metrics := by
      rw [dtStep_metrics]
      split
      · unfold latchDt
        cases r.dtEnergy <;> simp [hset]
      · rfl
    obtain ⟨f2, h1, h2, h3⟩ := ih (addRow s r) (dtStep s r f) hstep (by rw [hm]; exact hset)
    exact ⟨f2, h1, by rw [h2, hm], h3⟩

/-- The DT energy is latched from the first row of its DT that has one. -/
theorem dt_latch_first (rs : List Row) (s : State) (k : String) (r : Row)
    (hfresh : ∀ f, lookupBy DT.id k s.dtById = some f → f.metrics.dtEnergySet = false)
    (hr : rs.find? (fun x => decide (x.dtId = k) && x.dtEnergy.isSome) = some r) :
    ∃ f, lookupBy DT.id k (rs.foldl addRow s).dtById = some f ∧
      f.metrics.dtEnergy = r.dtEnergy ∧ f.metrics.dtEnergySet = true := by
  induction rs generalizing s with
  | nil => simp at hr
  | cons r0 rs ih =>
    rw [List.find?_cons] at hr
    by_cases hp : (decide (r0.dtId = k) && r0.dtEnergy.isSome) = true
    · rw [hp] at hr
      simp only [Option.some.injEq] at hr
      subst hr
      simp only [Bool.and_eq_true, decide_eq_true_eq] at hp
      obtain ⟨hid, hsome⟩ := hp
      obtain ⟨e, he⟩ := Option.isSome_iff_exists.mp hsome
      have hfl : ((lookupBy DT.id r0.dtId s.dtById).getD (newDt r0)).metrics.dtEnergySet
          = false := by
        cases hl : lookupBy DT.id r0.dtId s.dtById with
        | none => rfl
        | some f => exact hfresh f (hid ▸ hl)
      have hid2 : ((lookupBy DT.id r0.dtId s.dtById).getD (newDt r0)).id
          = r0.dtId := by
        cases hl : lookupBy DT.id r0.dtId s.dtById with
        | none => rfl
        | some f => exact (lookupBy_some hl).2
      have hstep := lookupBy_dt_addRow s r0 k
      rw [if_pos hid.symm, Option.map_some'] at hstep
      obtain ⟨f2, h1, h2, h3⟩ := dt_latch_stable rs (addRow s r0) k _ hstep (by
        rw [dtStep_metrics, if_pos hid2]
        simp [latchDt, he, hfl])
      refine ⟨f2, h1, ?_, h3⟩
      rw [h2, dtStep_metrics, if_pos hid2]
      simp [latchDt, he, hfl]
    · have hp2 : (decide (r0.dtId = k) && r0.dtEnergy.isSome) = false := by
        simpa using hp
      rw [hp2] at hr
      apply ih (addRow s r0) _ hr
      intro f hf
      rw [lookupBy_dt_addRow] at hf
      by_cases hk : k = r0.dtId
      · have hnone : r0.dtEnergy = none := by
          cases he : r0.dtEnergy with
          | none => rfl
          | some e => simp [hk, he] at hp2
        rw [if_pos hk, Option.map_some'] at hf
        simp only [Option.some.injEq] at hf
        subst hf
        have hid2 : ((lookupBy DT.id r0.dtId s.dtById).getD (newDt r0)).id
            = r0.dtId := by
          cases hl : lookupBy DT.id r0.dtId s.dtById with
          | none => rfl
          | some f => exact (lookupBy_some hl).2
        rw [dtStep_metrics, if_pos hid2, hnone]
        cases hl : lookupBy DT.id r0.dtId s.dtById with
        | none => rfl
        | some f => exact hfresh f (hk ▸ hl)
      · rw [if_neg hk] at hf
        obtain ⟨f0, hf0, rfl⟩ := Option.map_eq_some'.mp hf
        rw [dtStep_metrics, if_neg (fun h => hk ((lookupBy_some hf0).2.symm.trans h))]
        exact hfresh f0 hf0

/-! ## The model after `buildModelFromRows` -/

theorem buildModelFromRows_eq (st : State) (rows : List RawRow) :
    buildModelFromRows st rows
      = buildResultsTable (aggregatedAll (buildHierarchy st rows)) := by
  unfold buildModelFromRows
  rw [aggregate_eq_aggregatedAll _ (WF_buildHierarchy st rows)]

theorem buildModelFromRows_feederById (st : State) (rows : List RawRow) :
    (buildModelFromRows st rows).feederById
      = (buildHierarchy st rows).feederById.map
          (fun f => { f with metrics := feederMetrics (buildHierarchy st rows) f }) := by
  rw [buildModelFromRows_eq]; rfl

theorem buildModelFromRows_dtById (st : State) (rows : List RawRow) :
    (buildModelFromRows st rows).dtById
      = (buildHierarchy st rows).dtById.map (fun d => { d with metrics := dtMetrics d }) := by
  rw [buildModelFromRows_eq]; rfl

theorem buildModelFromRows_regions (st : State) (rows : List RawRow) :
    (buildModelFromRows st rows).regions
      = (buildHierarchy st rows).regions.map
          (fun g => { g with metrics := regionMetrics (buildHierarchy st rows) g }) := by
  rw [buildModelFromRows_eq]; rfl

theorem buildModelFromRows_meterById (st : State) (rows : List RawRow) :
    (buildModelFromRows st rows).meterById = (buildHierarchy st rows).meterById := by
  rw [buildModelFromRows_eq]; rfl

theorem buildModelFromRows_slaGlobal (st : State) (rows : List RawRow) :
    (buildModelFromRows st rows).slaGlobal = (buildHierarchy st rows).slaGlobal := by
  rw [buildModelFromRows_eq]; rfl

theorem lookupBy_feeder_final (st : State) (rows : List RawRow) (k : String) :
    lookupBy Feeder.id k (buildModelFromRows st rows).feederById
      = (lookupBy Feeder.id k (buildHierarchy st rows).feederById).map
          (fun f => { f with metrics := feederMetrics (buildHierarchy st rows) f }) := by
  rw [buildModelFromRows_feederById]
  exact lookupBy_map Feeder.id k
    (fun f => { f with metrics := feederMetrics (buildHierarchy st rows) f }) (fun _ => rfl) _

theorem lookupBy_dt_final (st : State) (rows : List RawRow) (k : String) :
    lookupBy DT.id k (buildModelFromRows st rows).dtById
      = (lookupBy DT.id k (buildHierarchy st rows).dtById).map
          (fun d => { d with metrics := dtMetrics d }) := by
  rw [buildModelFromRows_dtById]
  exact lookupBy_map DT.id k (fun d => { d with metrics := dtMetrics d }) (fun _ => rfl) _

/-- C3: after `buildModelFromRows`, the energy of a feeder (of a DT) is the one computed
from the first input row of that feeder (DT) whose computed energy is not null: it
is latched by the row loop and is still the value of `metrics.feederEnergy`
(`metrics.dtEnergy`) in the finished model. -/
theorem latch_first_row (st : State) (rows : List RawRow) (k : String) (r : Row) :
    ((rows.map resolveRow).find? (fun x => decide (x.feederId = k) && x.feederEnergy.isSome)
        = some r →
      (∃ f, lookupBy Feeder.id k (buildHierarchy st rows).feederById = some f ∧
        f.metrics.feederEnergy = r.feederEnergy ∧ f.metrics.feEnergySet = true) ∧
      (∃ f, lookupBy Feeder.id k (buildModelFromRows st rows).feederById = some f ∧
        f.metrics.feederEnergy = r.feederEnergy)) ∧
    ((rows.map resolveRow).find? (fun x => decide (x.dtId = k) && x.dtEnergy.isSome)
        = some r →
      (∃ d, lookupBy DT.id k (buildHierarchy st rows).dtById = some d ∧
        d.metrics.dtEnergy = r.dtEnergy ∧ d.metrics.dtEnergySet = true) ∧
      (∃ d, lookupBy DT.id k (buildModelFromRows st rows).dtById = some d ∧
        d.metrics.dtEnergy = r.dtEnergy)) := by
  constructor
  · intro hr
    obtain ⟨f, hf, he, hset⟩ :=
      feeder_latch_first (rows.map resolveRow) (resetState st) k r (by simp [resetState, lookupBy]) hr
    refine ⟨⟨f, hf, he, hset⟩, ?_⟩
    refine ⟨{ f with metrics := feederMetrics (buildHierarchy st rows) f }, ?_, ?_⟩
    · have hf2 : lookupBy Feeder.id k (buildHierarchy st rows).feederById = some f := hf
      rw [lookupBy_feeder_final, hf2]; rfl
    · obtain ⟨e, hre⟩ : ∃ e, r.feederEnergy = some e := by
        have := List.find?_some hr
        simp only [Bool.and_eq_true] at this
        exact Option.isSome_iff_exists.mp this.2
      simp [feederMetrics, feederEnergyOrSum, he, hre]
  · intro hr
    obtain ⟨d, hd, he, hset⟩ :=
      dt_latch_first (rows.map resolveRow) (resetState st) k r (by simp [resetState, lookupBy]) hr
    refine ⟨⟨d, hd, he, hset⟩, ?_⟩
    refine ⟨{ d with metrics := dtMetrics d }, ?_, ?_⟩
    · have hd2 : lookupBy DT.id k (buildHierarchy st rows).dtById = some d := hd
      rw [lookupBy_dt_final, hd2]; rfl
    · obtain ⟨e, hre⟩ : ∃ e, r.dtEnergy = some e := by
        have := List.find?_some hr
        simp only [Bool.and_eq_true] at this
        exact Option.isSome_iff_exists.mp this.2
      simp [dtMetrics, dtEnergyOrSum, he, hre]

/-- Witness for C3: in `latchRows` the first row of feeder `F1` and DT `D1` carries no
readings, the second gives the energies `50` and `30`, the third differs. -/
theorem latch_first_row_witness :
    ((latchRows.map resolveRow).find?
        (fun x => decide (x.feederId = "F1") && x.feederEnergy.isSome)
      = some (resolveRow (sampleRow 150 70 "M2" 5 20 "Yes"))) ∧
    ((latchRows.map resolveRow).find?
        (fun x => decide (x.dtId = "D1") && x.dtEnergy.isSome)
      = some (resolveRow (sampleRow 150 70 "M2" 5 20 "Yes"))) ∧
    (resolveRow (sampleRow 150 70 "M2" 5 20 "Yes")).feederEnergy = some 50 ∧
    (resolveRow (sampleRow 150 70 "M2" 5 20 "Yes")).dtEnergy = some 30 ∧
    (∃ f, lookupBy Feeder.id "F1" (buildModelFromRows State.initial latchRows).feederById = some f ∧
      f.metrics.feederEnergy = (resolveRow (sampleRow 150 70 "M2" 5 20 "Yes")).feederEnergy) ∧
    (∃ d, lookupBy DT.id "D1" (buildModelFromRows State.initial latchRows).dtById = some d ∧
      d.metrics.dtEnergy = (resolveRow (sampleRow 150 70 "M2" 5 20 "Yes")).dtEnergy) :=
  have h1 : (latchRows.map resolveRow).find?
        (fun x => decide (x.feederId = "F1") && x.feederEnergy.isSome)
      = some (resolveRow (sampleRow 150 70 "M2" 5 20 "Yes")) := by decide!
  have h2 : (latchRows.map resolveRow).find?
        (fun x => decide (x.dtId = "D1") && x.dtEnergy.isSome)
      = some (resolveRow (sampleRow 150 70 "M2" 5 20 "Yes")) := by decide!
  ⟨h1, h2, by decide!, by decide!,
    ((latch_first_row State.initial latchRows "F1"
      (resolveRow (sampleRow 150 70 "M2" 5 20 "Yes"))).1 h1).2,
    ((latch_first_row State.initial latchRows "D1"
      (resolveRow (sampleRow 150 70 "M2" 5 20 "Yes"))).2 h2).2⟩

/-- A feeder none of whose rows has an energy is left without one. -/
theorem feeder_latch_none (rs : List Row) (s : State) (k : String)
    (hfresh : ∀ f, lookupBy Feeder.id k s.feederById = some f →
      f.metrics.feEnergySet = false ∧ f.metrics.feederEnergy = none)
    (hr : rs.find? (fun x => decide (x.feederId = k) && x.feederEnergy.isSome) = none) :
    ∀ f, lookupBy Feeder.id k (rs.foldl addRow s).feederById = some f →
      f.metrics.feEnergySet = false ∧ f.metrics.feederEnergy = none := by
  induction rs generalizing s with
  | nil => exact hfresh
  | cons r0 rs ih =>
    rw [List.find?_cons] at hr
    by_cases hp : (decide (r0.feederId = k) && r0.feederEnergy.isSome) = true
    · rw [hp] at hr; cases hr
    · have hp2 : (decide (r0.feederId = k) && r0.feederEnergy.isSome) = false := by
        simpa using hp
      rw [hp2] at hr
      apply ih (addRow s r0) _ hr
      intro f hf
      rw [lookupBy_feeder_addRow] at hf
      by_cases hk : k = r0.feederId
      · have hnone : r0.feederEnergy = none := by
          cases he : r0.feederEnergy with
          | none => rfl
          | some e => simp [hk, he] at hp2
        rw [if_pos hk, Option.map_some'] at hf
        simp only [Option.some.injEq] at hf
        subst hf
        have hid2 : ((lookupBy Feeder.id r0.feederId s.feederById).getD (newFeeder r0)).id
            = r0.feederId := by
          cases hl : lookupBy Feeder.id r0.feederId s.feederById with
          | none => rfl
          | some f => exact (lookupBy_some hl).2
        rw [feederStep_metrics, if_pos hid2, hnone]
        cases hl : lookupBy Feeder.id r0.feederId s.feederById with
        | none => exact ⟨rfl, rfl⟩
        | some f => exact hfresh f (hk ▸ hl)
      · rw [if_neg hk] at hf
        obtain ⟨f0, hf0, rfl⟩ := Option.map_eq_some'.mp hf
        rw [feederStep_metrics, if_neg (fun h => hk ((lookupBy_some hf0).2.symm.trans h))]
        exact hfresh f0 hf0

/-- A DT none of whose rows has an energy is left without one. -/
theorem dt_latch_none (rs : List Row) (s : State) (k : String)
    (hfresh : ∀ f, lookupBy DT.id k s.dtById = some f →
      f.metrics.dtEnergySet = false ∧ f.metrics.dtEnergy = none)
    (hr : rs.find? (fun x => decide (x.dtId = k) && x.dtEnergy.isSome) = none) :
    ∀ f, lookupBy DT.id k (rs.foldl addRow s).dtById = some f →
      f.metrics.dtEnergySet = false ∧ f.metrics.dtEnergy = none := by
  induction rs generalizing s with
  | nil => exact hfresh
  | cons r0 rs ih =>
    rw [List.find?_cons] at hr
    by_cases hp : (decide (r0.dtId = k) && r0.dtEnergy.isSome) = true
    · rw [hp] at hr; cases hr
    · have hp2 : (decide (r0.dtId = k) && r0.dtEnergy.isSome) = false := by
        simpa using hp
      rw [hp2] at hr
      apply ih (addRow s r0) _ hr
      intro f hf
      rw [lookupBy_dt_addRow] at hf
      by_cases hk : k = r0.dtId
      · have hnone : r0.dtEnergy = none := by
          cases he : r0.dtEnergy with
          | none => rfl
          | some e => simp [hk, he] at hp2
        rw [if_pos hk, Option.map_some'] at hf
        simp only [Option.some.injEq] at hf
        subst hf
        have hid2 : ((lookupBy DT.id r0.dtId s.dtById).getD (newDt r0)).id
            = r0.dtId := by
          cases hl : lookupBy DT.id r0.dtId s.dtById with
          | none => rfl
          | some f => exact (lookupBy_some hl).2
        rw [dtStep_metrics, if_pos hid2, hnone]
        cases hl : lookupBy DT.id r0.dtId s.dtById with
        | none => exact ⟨rfl, rfl⟩
        | some f => exact hfresh f (hk ▸ hl)
      · rw [if_neg hk] at hf
        obtain ⟨f0, hf0, rfl⟩ := Option.map_eq_some'.mp hf
        rw [dtStep_metrics, if_neg (fun h => hk ((lookupBy_some hf0).2.symm.trans h))]
        exact hfresh f0 hf0

theorem hierarchy_feeder_energy (st : State) (rows : List RawRow) :
    ∀ f ∈ (buildHierarchy st rows).feederById,
      f.metrics.feederEnergy = latchedFeederEnergy rows f.id := by
  intro f hf
  have hl := lookupBy_of_mem (WF_buildHierarchy st rows).feeders_nodup hf
  unfold latchedFeederEnergy
  cases hr : (rows.map resolveRow).find?
      (fun x => decide (x.feederId = f.id) && x.feederEnergy.isSome) with
  | none =>
    exact (feeder_latch_none _ (resetState st) f.id (by simp [resetState, lookupBy]) hr f hl).2
  | some r =>
    obtain ⟨f2, h1, h2, -⟩ :=
      feeder_latch_first _ (resetState st) f.id r (by simp [resetState, lookupBy]) hr
    have h3 : lookupBy Feeder.id f.id (buildHierarchy st rows).feederById = some f2 := h1
    rw [hl] at h3
    cases h3
    simpa using h2

theorem hierarchy_dt_energy (st : State) (rows : List RawRow) :
    ∀ d ∈ (buildHierarchy st rows).dtById, d.metrics.dtEnergy = latchedDtEnergy rows d.id := by
  intro d hd
  have hl := lookupBy_of_mem (WF_buildHierarchy st rows).dts_nodup hd
  unfold latchedDtEnergy
  cases hr : (rows.map resolveRow).find?
      (fun x => decide (x.dtId = d.id) && x.dtEnergy.isSome) with
  | none =>
    exact (dt_latch_none _ (resetState st) d.id (by simp [resetState, lookupBy]) hr d hl).2
  | some r =>
    obtain ⟨d2, h1, h2, -⟩ :=
      dt_latch_first _ (resetState st) d.id r (by simp [resetState, lookupBy]) hr
    have h3 : lookupBy DT.id d.id (buildHierarchy st rows).dtById = some d2 := h1
    rw [hl] at h3
    cases h3
    simpa using h2

theorem deref_filter {α : Type} (key : α → String) (xs : List α) (hnd : (xs.map key).Nodup)
    (p : α → Bool) : deref key xs ((xs.filter p).map key) = xs.filter p := by
  unfold deref
  rw [List.filterMap_map]
  have : ∀ ys : List α, (∀ y ∈ ys, y ∈ xs) →
      ys.filterMap ((fun k => lookupBy key k xs) ∘ key) = ys := by
    intro ys
    induction ys with
    | nil => intro _; rfl
    | cons y ys ih =>
      intro hys
      rw [List.filterMap_cons]
      simp only [Function.comp_apply]
      rw [lookupBy_of_mem hnd (hys y (List.mem_cons_self _ _))]
      simp only
      rw [ih (fun z hz => hys z (List.mem_cons_of_mem _ hz))]
  exact this _ (fun y hy => (List.mem_filter.mp hy).1)

theorem deref_dt_final {β : Type} (st : State) (rows : List RawRow) (φ ψ : DT → β)
    (h : ∀ d, φ { d with metrics := dtMetrics d } = ψ d) (ids : List String) :
    (deref DT.id (buildModelFromRows st rows).dtById ids).map φ
      = (deref DT.id (buildHierarchy st rows).dtById ids).map ψ :=
  deref_map_congr DT.id (buildHierarchy st rows).dtById _
    (fun d => { d with metrics := dtMetrics d }) (lookupBy_dt_final st rows) φ ψ h ids

theorem deref_feeder_dts (st : State) (rows : List RawRow) :
    ∀ f ∈ (buildHierarchy st rows).feederById,
      (deref DT.id (buildHierarchy st rows).dtById f.dts).map DT.id = f.dts := by
  intro f hf
  have hwf := WF_buildHierarchy st rows
  have h1 := hwf.feeder_dts f hf
  rw [h1, deref_filter DT.id _ hwf.dts_nodup]

/-- C4: after aggregation the DT energy of a DT is its latched value if there is one and
otherwise the sum of the energies of its meters (null as `0`); the DT energy of a
feeder is the sum of these DT values over `feeder.dts`, its feeder energy is its
latched value if there is one and otherwise that same sum, and its consumer energy
is the sum of the energies of `feeder.meters`.  In the scenario the DT latched at `30`
with meters of energies `10` and `15` has `metrics.dtEnergy = 30`. -/
theorem aggregated_energies (st : State) (rows : List RawRow) :
    (∀ d ∈ (buildModelFromRows st rows).dtById,
      d.metrics.dtEnergy = some ((latchedDtEnergy rows d.id).getD
        (sum (d.meters.map (fun m => m.energy.getD 0))))) ∧
    (∀ f ∈ (buildModelFromRows st rows).feederById,
      (deref DT.id (buildModelFromRows st rows).dtById f.dts).map DT.id = f.dts ∧
      f.metrics.dtEnergy = some (sum ((deref DT.id (buildModelFromRows st rows).dtById f.dts).map
        (fun d => d.metrics.dtEnergy.getD 0))) ∧
      f.metrics.feederEnergy = some ((latchedFeederEnergy rows f.id).getD
        (sum ((deref DT.id (buildModelFromRows st rows).dtById f.dts).map
          (fun d => d.metrics.dtEnergy.getD 0)))) ∧
      f.metrics.consumerEnergy = some (sum (f.meters.map (fun m => m.energy.getD 0)))) ∧
    (∃ d, lookupBy DT.id "D1" (buildModelFromRows State.initial scenarioRows).dtById = some d ∧
      latchedDtEnergy scenarioRows "D1" = some 30 ∧
      d.meters.map Meter.energy = [some 10, some 15] ∧
      d.metrics.dtEnergy = some 30) := by
  refine ⟨?_, ?_, ?_⟩
  · intro d hd
    rw [buildModelFromRows_dtById] at hd
    obtain ⟨d0, hd0, rfl⟩ := List.mem_map.mp hd
    simp only [dtMetrics, dtEnergyOrSum, sumMeterEnergy, hierarchy_dt_energy st rows d0 hd0]
  · intro f hf
    rw [buildModelFromRows_feederById] at hf
    obtain ⟨f0, hf0, rfl⟩ := List.mem_map.mp hf
    have hsum : (deref DT.id (buildModelFromRows st rows).dtById f0.dts).map
          (fun d => d.metrics.dtEnergy.getD 0)
        = (deref DT.id (buildHierarchy st rows).dtById f0.dts).map dtEnergyOrSum :=
      deref_dt_final st rows _ _ (fun d => by simp [dtMetrics]) f0.dts
    refine ⟨?_, ?_, ?_, ?_⟩
    · have := deref_dt_final st rows DT.id DT.id (fun _ => rfl) f0.dts
      simp only
      rw [this, deref_feeder_dts st rows f0 hf0]
    · simp only [hsum]
      rfl
    · simp only [hsum, feederMetrics, feederEnergyOrSum, sumDTEnergy,
        hierarchy_feeder_energy st rows f0 hf0]
    · rfl
  · decide!

/-! ## Losses -/

theorem pctLoss_num (a b : JsNum) (ha : (JsVal.num a).truthy = true) :
    pctLoss (.num a) (.num b)
      = Binary64.percent (Binary64.sub (Binary64.round a) (Binary64.round b))
          (Binary64.round a) := by
  simp [pctLoss, ha, Binary64.percent, Binary64.toNumber, JsVal.toNumber]

theorem pctLoss_zero (output : JsVal) : pctLoss (.ofRat 0) output = .fin 0 := by
  simp [pctLoss]

/-- C5: at feeder, region and global scope the three losses are `pctLoss` of the matching
pair of energies of that scope (at global scope the sums over the regions), where
`pctLoss(input, output)` is `0` for a null, zero or NaN input and otherwise
`round((input - output) / input * 100, 2)` as the program evaluates it in binary64
arithmetic; `pctLoss(50, 30) = 40`, `pctLoss(30, 25) = 16.67`,
`pctLoss(160, 63) = 60.62` and `pctLoss(200, 175.31) = 12.34`, the first two as on
feeder `F1` of the scenario. -/
theorem losses_from_energies (st : State) (rows : List RawRow) :
    (∀ f ∈ (buildModelFromRows st rows).feederById,
      f.metrics.lossFdt = some (pctLoss (JsVal.ofOption f.metrics.feederEnergy)
        (JsVal.ofOption f.metrics.dtEnergy)) ∧
      f.metrics.lossDtc = some (pctLoss (JsVal.ofOption f.metrics.dtEnergy)
        (JsVal.ofOption f.metrics.consumerEnergy)) ∧
      f.metrics.lossFc = some (pctLoss (JsVal.ofOption f.metrics.feederEnergy)
        (JsVal.ofOption f.metrics.consumerEnergy))) ∧
    (∀ g ∈ (buildModelFromRows st rows).regions,
      g.metrics.lossFdt = some (pctLoss (JsVal.ofOption g.metrics.feederEnergy)
        (JsVal.ofOption g.metrics.dtEnergy)) ∧
      g.metrics.lossDtc = some (pctLoss (JsVal.ofOption g.metrics.dtEnergy)
        (JsVal.ofOption g.metrics.consumerEnergy)) ∧
      g.metrics.lossFc = some (pctLoss (JsVal.ofOption g.metrics.feederEnergy)
        (JsVal.ofOption g.metrics.consumerEnergy))) ∧
    ((computeGlobalTotals (buildModelFromRows st rows)).lossFdt
        = pctLoss (.ofRat (globalEnergySums (buildModelFromRows st rows)).1)
            (.ofRat (globalEnergySums (buildModelFromRows st rows)).2.1) ∧
      (computeGlobalTotals (buildModelFromRows st rows)).lossDtc
        = pctLoss (.ofRat (globalEnergySums (buildModelFromRows st rows)).2.1)
            (.ofRat (globalEnergySums (buildModelFromRows st rows)).2.2) ∧
      (computeGlobalTotals (buildModelFromRows st rows)).lossFc
        = pctLoss (.ofRat (globalEnergySums (buildModelFromRows st rows)).1)
            (.ofRat (globalEnergySums (buildModelFromRows st rows)).2.2)) ∧
    (∀ output : JsVal, pctLoss .null output = .fin 0 ∧ pctLoss (.num (.fin 0)) output = .fin 0 ∧
      pctLoss (.num .nan) output = .fin 0) ∧
    (∀ input output : JsNum, input ≠ .fin 0 → input ≠ .nan →
      pctLoss (.num input) (.num output)
        = Binary64.percent (Binary64.sub (Binary64.round input) (Binary64.round output))
            (Binary64.round input)) ∧
    pctLoss (.ofRat 50) (.ofRat 30) = .fin 40 ∧
    pctLoss (.ofRat 30) (.ofRat 25) = Binary64.roundDouble (1667 / 100) ∧
    pctLoss (.ofRat 160) (.ofRat 63) = Binary64.roundDouble (6062 / 100) ∧
    pctLoss (.ofRat 200) (.ofRat (17531 / 100)) = Binary64.roundDouble (1234 / 100) ∧
    (∃ f, lookupBy Feeder.id "F1" (buildModelFromRows State.initial scenarioRows).feederById
        = some f ∧
      f.metrics.feederEnergy = some 50 ∧ f.metrics.dtEnergy = some 30 ∧
      f.metrics.consumerEnergy = some 25 ∧
      f.metrics.lossFdt = some (.fin 40) ∧
      f.metrics.lossDtc = some (Binary64.roundDouble (1667 / 100))) := by
  refine ⟨?_, ?_, ⟨rfl, rfl, rfl⟩, ?_, ?_, by decide!, by decide!, by decide!, by decide!,
    by decide!⟩
  · intro f hf
    rw [buildModelFromRows_feederById] at hf
    obtain ⟨f0, -, rfl⟩ := List.mem_map.mp hf
    exact ⟨rfl, rfl, rfl⟩
  · intro g hg
    rw [buildModelFromRows_regions] at hg
    obtain ⟨g0, -, rfl⟩ := List.mem_map.mp hg
    exact ⟨rfl, rfl, rfl⟩
  · intro output
    refine ⟨rfl, ?_, rfl⟩
    simp [pctLoss, JsVal.truthy]
  · intro input output h0 hn
    apply pctLoss_num
    cases input with
    | fin q =>
      have : q ≠ 0 := fun h => h0 (by rw [h])
      simp [JsVal.truthy, this]
    | nan => exact absurd rfl hn
    | posInf => rfl
    | negInf => rfl

/-! ## Raw-row SLA counters -/

theorem countRows_append_singleton (rs : List Row) (r : Row) :
    countRows (rs ++ [r]) = (countRows rs).count r.dailyEnergyYes r.loadDataYes := by
  unfold countRows SlaCounters.count
  cases hd : r.dailyEnergyYes <;> cases hl : r.loadDataYes <;>
    simp [List.filter_append, hd, hl]

theorem foldl_addRow_slaGlobal (rs : List Row) (s : State) (c : List Row)
    (hs : s.slaGlobal = countRows c) : (rs.foldl addRow s).slaGlobal = countRows (c ++ rs) := by
  induction rs generalizing s c with
  | nil => simpa using hs
  | cons r rs ih =>
    have := ih (addRow s r) (c ++ [r]) (by
      rw [addRow_slaGlobal, hs, countRows_append_singleton])
    simpa using this

theorem buildHierarchy_slaGlobal (st : State) (rows : List RawRow) :
    (buildHierarchy st rows).slaGlobal = countRows (rows.map resolveRow) := by
  have := foldl_addRow_slaGlobal (rows.map resolveRow) (resetState st) [] rfl
  simpa using this

theorem lookupBy_region_addRow (s : State) (r : Row) (k : String) :
    lookupBy Region.name k (addRow s r).regions =
      (if k = r.regionName then
          some ((lookupBy Region.name r.regionName s.regions).getD (newRegion r))
        else lookupBy Region.name k s.regions).map (regionStep s r) := by
  rw [addRow_regions, lookupBy_map Region.name k _ (regionStep_name s r),
    lookupBy_ensureBy Region.name r.regionName (newRegion r) s.regions rfl]

/-- The counters of a region count the rows seen so far that resolve to it, and every
such row has its region. -/
theorem foldl_addRow_region_sla (rs : List Row) (s : State) (c : List Row) (k : String)
    (hs : ∀ g, lookupBy Region.name k s.regions = some g →
      g.sla = countRows (c.filter (fun r => r.regionName = k)))
    (hc : ∀ x ∈ c, x.regionName = k → (lookupBy Region.name k s.regions).isSome) :
    (∀ g, lookupBy Region.name k (rs.foldl addRow s).regions = some g →
      g.sla = countRows ((c ++ rs).filter (fun r => r.regionName = k))) ∧
    (∀ x ∈ c ++ rs, x.regionName = k →
      (lookupBy Region.name k (rs.foldl addRow s).regions).isSome) := by
  induction rs generalizing s c with
  | nil =>
    refine ⟨?_, ?_⟩
    · simpa using hs
    · simpa using hc
  | cons r rs ih =>
    have := ih (addRow s r) (c ++ [r]) ?_ ?_
    · simpa using this
    · intro g hg
      rw [lookupBy_region_addRow] at hg
      by_cases hk : k = r.regionName
      · subst hk
        rw [if_pos rfl, Option.map_some'] at hg
        simp only [Option.some.injEq] at hg
        subst hg
        have hname : ((lookupBy Region.name r.regionName s.regions).getD (newRegion r)).name
            = r.regionName := by
          cases hl : lookupBy Region.name r.regionName s.regions with
          | none => rfl
          | some g0 => exact (lookupBy_some hl).2
        rw [regionStep_sla, if_pos hname, List.filter_append]
        have hfil : List.filter (fun x => decide (x.regionName = r.regionName)) [r] = [r] := by
          simp
        rw [hfil, countRows_append_singleton]
        congr 1
        cases hl : lookupBy Region.name r.regionName s.regions with
        | none =>
          have hemp : c.filter (fun x => x.regionName = r.regionName) = [] := by
            rw [List.filter_eq_nil_iff]
            intro x hx hxk
            have := hc x hx (by simpa using hxk)
            rw [hl] at this
            simp at this
          rw [hemp]; rfl
        | some g0 => exact hs g0 hl
      · rw [if_neg hk] at hg
        obtain ⟨g0, hg0, rfl⟩ := Option.map_eq_some'.mp hg
        have hne : ¬ g0.name = r.regionName := fun h => hk ((lookupBy_some hg0).2.symm.trans h)
        have hne2 : ¬ r.regionName = k := fun h => hk h.symm
        rw [regionStep_sla, if_neg hne, hs g0 hg0]
        simp [List.filter_append, hne2]
    · intro x hx hxk
      rw [lookupBy_region_addRow]
      by_cases hk : k = r.regionName
      · simp [hk]
      · rw [if_neg hk, Option.isSome_map']
        rcases List.mem_append.mp hx with h | h
        · exact hc x h hxk
        · simp only [List.mem_singleton] at h
          subst h
          exact absurd hxk.symm hk

theorem buildHierarchy_region_sla (st : State) (rows : List RawRow) :
    (∀ g ∈ (buildHierarchy st rows).regions, g.sla = countRows (rowsOfRegion rows g.name)) ∧
    (∀ r ∈ rows.map resolveRow, ∃ g ∈ (buildHierarchy st rows).regions, g.name = r.regionName) := by
  constructor
  · intro g hg
    have hl := lookupBy_of_mem (WF_buildHierarchy st rows).regions_nodup hg
    have := (foldl_addRow_region_sla (rows.map resolveRow) (resetState st) [] g.name
      (by simp [resetState, lookupBy]) (by simp)).1 g hl
    simpa [rowsOfRegion] using this
  · intro r hr
    have := (foldl_addRow_region_sla (rows.map resolveRow) (resetState st) [] r.regionName
      (by simp [resetState, lookupBy]) (by simp)).2 r (by simpa using hr) rfl
    obtain ⟨g, hg⟩ := Option.isSome_iff_exists.mp this
    exact ⟨g, (lookupBy_some hg).1, (lookupBy_some hg).2⟩

theorem computeGlobalTotals_sla (s : State) :
    (computeGlobalTotals s).slaDailyPct
      = pct (JsVal.ofNat s.slaGlobal.dailyYes) (JsVal.ofNat s.slaGlobal.totalRows) ∧
    (computeGlobalTotals s).slaLoadPct
      = pct (JsVal.ofNat s.slaGlobal.loadYes) (JsVal.ofNat s.slaGlobal.totalRows) := by
  unfold computeGlobalTotals pct JsVal.ofNat
  by_cases h : s.slaGlobal.totalRows = 0 <;> simp [h]

/-- C6: the SLA percentages of a region are `pct` of the number of input rows resolving to
that region with a yes flag over the number of input rows resolving to it, and the
global percentages are the same ratio over all input rows; the region of every row
exists.  With three rows of one region, two of them daily = Yes and the third
repeating a known meter, the region has `slaDailyPct = 66.67` (and only two meters). -/
theorem region_sla_over_rows (st : State) (rows : List RawRow) :
    (∀ g ∈ (buildModelFromRows st rows).regions,
      g.metrics.slaDailyPct = some (pct
        (JsVal.ofNat ((rowsOfRegion rows g.name).filter (fun r => r.dailyEnergyYes)).length)
        (JsVal.ofNat (rowsOfRegion rows g.name).length)) ∧
      g.metrics.slaLoadPct = some (pct
        (JsVal.ofNat ((rowsOfRegion rows g.name).filter (fun r => r.loadDataYes)).length)
        (JsVal.ofNat (rowsOfRegion rows g.name).length))) ∧
    (∀ r ∈ rows.map resolveRow,
      ∃ g ∈ (buildModelFromRows st rows).regions, g.name = r.regionName) ∧
    (computeGlobalTotals (buildModelFromRows st rows)).slaDailyPct
      = pct (JsVal.ofNat ((rows.map resolveRow).filter (fun r => r.dailyEnergyYes)).length)
          (JsVal.ofNat rows.length) ∧
    (computeGlobalTotals (buildModelFromRows st rows)).slaLoadPct
      = pct (JsVal.ofNat ((rows.map resolveRow).filter (fun r => r.loadDataYes)).length)
          (JsVal.ofNat rows.length) ∧
    ((buildModelFromRows State.initial slaRows).regions.map
        (fun g => (g.name, g.metrics.slaDailyPct))
        = [("R1", some (Binary64.roundDouble (6667 / 100)))] ∧
      (buildModelFromRows State.initial slaRows).meterById.length = 2 ∧
      (computeGlobalTotals (buildModelFromRows State.initial slaRows)).slaDailyPct
        = Binary64.roundDouble (6667 / 100)) := by
  refine ⟨?_, ?_, ?_, ?_, by decide!⟩
  · intro g hg
    rw [buildModelFromRows_regions] at hg
    obtain ⟨g0, hg0, rfl⟩ := List.mem_map.mp hg
    have hsla := (buildHierarchy_region_sla st rows).1 g0 hg0
    constructor <;> simp only [regionMetrics, hsla, countRows]
  · intro r hr
    obtain ⟨g, hg, hname⟩ := (buildHierarchy_region_sla st rows).2 r hr
    refine ⟨{ g with metrics := regionMetrics (buildHierarchy st rows) g }, ?_, hname⟩
    rw [buildModelFromRows_regions]
    exact List.mem_map.mpr ⟨g, hg, rfl⟩
  · rw [(computeGlobalTotals_sla _).1, buildModelFromRows_slaGlobal, buildHierarchy_slaGlobal]
    simp [countRows]
  · rw [(computeGlobalTotals_sla _).2, buildModelFromRows_slaGlobal, buildHierarchy_slaGlobal]
    simp [countRows]

/-! ## SLA percentages of feeders and DTs -/

theorem pct_ofNat (p w : ℕ) (hw : w ≠ 0) :
    pct (JsVal.ofNat p) (JsVal.ofNat w) = Binary64.percent (.fin p) (.fin w) := by
  simp [pct, JsVal.ofNat, hw, Binary64.percent]

theorem pct_zero (part : JsVal) : pct part (JsVal.ofNat 0) = .fin 0 := by
  simp [pct, JsVal.ofNat]

theorem nodup_filter_ids {α : Type} (key : α → String) (xs : List α)
    (h : (xs.map key).Nodup) (p : α → Bool) : ((xs.filter p).map key).Nodup :=
  List.Nodup.sublist (List.Sublist.map key (List.filter_sublist xs)) h

/-- C7: the SLA percentages of a feeder (of a DT) are `pct` of the number of its meters
with the flag over the number of its meters, where its meters are the distinct meter
objects whose `feederId` (`dtId`) names it, each present once whatever the number of
rows that mention it; `pct(part, 0) = 0` and `pct(part, whole) = round(part / whole *
100, 2)` otherwise, as the program evaluates it in binary64 arithmetic, so that
`pct(23, 160) = 14.37`.  With three rows, two distinct meters of which one is daily =
Yes, the feeder has `50` while its region has `66.67`. -/
theorem feeder_dt_sla_over_meters (st : State) (rows : List RawRow) :
    (∀ f ∈ (buildModelFromRows st rows).feederById,
      f.metrics.slaDailyPct = some (pct
        (JsVal.ofNat (f.meters.filter (fun m => m.sla.daily)).length)
        (JsVal.ofNat f.meters.length)) ∧
      f.metrics.slaLoadPct = some (pct
        (JsVal.ofNat (f.meters.filter (fun m => m.sla.load)).length)
        (JsVal.ofNat f.meters.length)) ∧
      f.meters = (buildModelFromRows st rows).meterById.filter (fun m => m.feederId = f.id) ∧
      (f.meters.map Meter.id).Nodup) ∧
    (∀ d ∈ (buildModelFromRows st rows).dtById,
      d.metrics.slaDailyPct = some (pct
        (JsVal.ofNat (d.meters.filter (fun m => m.sla.daily)).length)
        (JsVal.ofNat d.meters.length)) ∧
      d.metrics.slaLoadPct = some (pct
        (JsVal.ofNat (d.meters.filter (fun m => m.sla.load)).length)
        (JsVal.ofNat d.meters.length)) ∧
      d.meters = (buildModelFromRows st rows).meterById.filter (fun m => m.dtId = d.id) ∧
      (d.meters.map Meter.id).Nodup) ∧
    (∀ part : JsVal, pct part (JsVal.ofNat 0) = .fin 0) ∧
    (∀ part whole : ℕ, whole ≠ 0 →
      pct (JsVal.ofNat part) (JsVal.ofNat whole)
        = Binary64.percent (.fin part) (.fin whole)) ∧
    pct (JsVal.ofNat 23) (JsVal.ofNat 160) = Binary64.roundDouble (1437 / 100) ∧
    ((buildModelFromRows State.initial slaRows).feederById.map
        (fun f => (f.id, f.meters.map (fun m => (m.id, m.sla.daily)), f.metrics.slaDailyPct))
      = [("F1", [("M1", true), ("M2", false)], some (.fin 50))] ∧
      (buildModelFromRows State.initial slaRows).dtById.map
        (fun d => (d.id, d.metrics.slaDailyPct)) = [("D1", some (.fin 50))] ∧
      (buildModelFromRows State.initial slaRows).regions.map
        (fun g => (g.name, g.sla.totalRows, g.metrics.slaDailyPct))
      = [("R1", 3, some (Binary64.roundDouble (6667 / 100)))]) := by
  have hwf := WF_buildHierarchy st rows
  refine ⟨?_, ?_, pct_zero, pct_ofNat, by decide!, by decide!⟩
  · intro f hf
    rw [buildModelFromRows_feederById] at hf
    obtain ⟨f0, hf0, rfl⟩ := List.mem_map.mp hf
    have hm := hwf.feeder_meters f0 hf0
    rw [List.map_id] at hm
    refine ⟨rfl, rfl, ?_, ?_⟩
    · rw [buildModelFromRows_meterById]; exact hm
    · simp only
      rw [hm]
      exact nodup_filter_ids Meter.id _ hwf.meters_nodup _
  · intro d hd
    rw [buildModelFromRows_dtById] at hd
    obtain ⟨d0, hd0, rfl⟩ := List.mem_map.mp hd
    have hm := hwf.dt_meters d0 hd0
    rw [List.map_id] at hm
    refine ⟨rfl, rfl, ?_, ?_⟩
    · rw [buildModelFromRows_meterById]; exact hm
    · simp only
      rw [hm]
      exact nodup_filter_ids Meter.id _ hwf.meters_nodup _

/-! ## Results flattener -/

theorem NumMap.get_replace (m : NumMap) (k : String) (v : ℚ) (k2 : String) :
    NumMap.get (m.map (fun p => if p.1 = k then (k, v) else p)) k2
      = if k2 = k then (m.get k).map (fun _ => v) else m.get k2 := by
  unfold NumMap.get
  induction m with
  | nil => simp
  | cons p ps ih =>
    by_cases hp : p.1 = k
    · by_cases h2 : k2 = k
      · simp [List.find?_cons, hp, h2]
      · have h3 : ¬ k = k2 := fun h => h2 h.symm
        have h4 : ¬ p.1 = k2 := fun h => h3 (hp.symm.trans h)
        simp only [List.map_cons, hp, if_true, List.find?_cons, h3, decide_False, h4, h2,
          if_false] at ih ⊢
        exact ih
    · by_cases h4 : p.1 = k2
      · have h5 : ¬ k2 = k := fun h => hp (h4.trans h)
        simp [List.find?_cons, hp, h4, h5]
      · simp only [List.map_cons, hp, if_false, List.find?_cons, h4, decide_False]
        exact ih

theorem NumMap.get_set (m : NumMap) (k : String) (v : ℚ) (k2 : String) :
    (m.set k v).get k2 = if k2 = k then some v else m.get k2 := by
  unfold NumMap.set
  split
  · rename_i hsome
    rw [NumMap.get_replace]
    obtain ⟨w, hw⟩ := Option.isSome_iff_exists.mp hsome
    simp [hw]
  · rename_i hnone
    have hn : m.get k = none := by simpa using hnone
    unfold NumMap.get at hn ⊢
    rw [List.find?_append]
    by_cases h2 : k2 = k
    · subst h2
      cases hf : List.find? (fun p => decide (p.1 = k2)) m with
      | none => simp
      | some p => simp [hf] at hn
    · have h3 : ¬ k = k2 := fun h => h2 h.symm
      simp [h2, h3]

theorem energyById_foldl_get {α : Type} (id : α → String) (energy : α → Option ℚ)
    (xs : List α) (hnd : (xs.map id).Nodup) (m : NumMap) (k : String) :
    (xs.foldl (fun mp x =>
      match energy x with
      | none => mp
      | some e => if e < 0 then mp else mp.set (id x) e) m).get k
    = ((lookupBy id k xs).bind (fun x => nonExcluded (energy x))).or (m.get k) := by
  induction xs generalizing m with
  | nil => simp [lookupBy]
  | cons x xs ih =>
    simp only [List.map_cons, List.nodup_cons] at hnd
    rw [List.foldl_cons, ih hnd.2]
    by_cases hx : id x = k
    · have hnone : lookupBy id k xs = none := by
        rw [lookupBy_eq_none_iff]
        intro y hy hyk
        exact hnd.1 (List.mem_map.mpr ⟨y, hy, hyk.trans hx.symm⟩)
      have hl : lookupBy id k (x :: xs) = some x := by simp [lookupBy, List.find?_cons, hx]
      rw [hnone, hl]
      have hb : ((some x).bind fun y => nonExcluded (energy y)) = nonExcluded (energy x) := rfl
      have hn : ((none : Option α).bind fun y => nonExcluded (energy y)) = none := rfl
      rw [hb, hn]
      generalize energy x = ex
      cases ex with
      | none => simp [nonExcluded]
      | some e =>
        by_cases hneg : e < 0
        · simp [nonExcluded, hneg]
        · simp [nonExcluded, hneg, NumMap.get_set, hx]
    · have hl : lookupBy id k (x :: xs) = lookupBy id k xs := by
        simp [lookupBy, List.find?_cons, hx]
      have hx2 : ¬ k = id x := fun h => hx h.symm
      rw [hl]
      generalize energy x = ex
      cases ex with
      | none => rfl
      | some e =>
        by_cases hneg : e < 0
        · simp [hneg]
        · simp [hneg, NumMap.get_set, hx2]

theorem energyById_get {α : Type} (id : α → String) (energy : α → Option ℚ)
    (xs : List α) (hnd : (xs.map id).Nodup) (x : α) (hx : x ∈ xs) :
    (energyById id energy xs).get (id x) = nonExcluded (energy x) := by
  unfold energyById
  rw [energyById_foldl_get id energy xs hnd, lookupBy_of_mem hnd hx]
  simp [NumMap.get]

theorem sumByGroup_foldl_get {α : Type} (group : α → String) (v : α → ℚ)
    (xs : List α) (m : NumMap) (g : String) :
    ((xs.foldl (fun mp x => mp.set (group x) ((mp.get (group x)).getD 0 + v x)) m).get g).getD 0
    = ((xs.filter (fun x => group x = g)).map v).foldl (fun a b => a + b) ((m.get g).getD 0) := by
  induction xs generalizing m with
  | nil => rfl
  | cons x xs ih =>
    rw [List.foldl_cons, ih]
    by_cases hx : group x = g
    · subst hx
      simp [NumMap.get_set]
    · have hx2 : ¬ g = group x := fun h => hx h.symm
      simp [NumMap.get_set, hx, hx2]

theorem sumByGroup_get {α : Type} (id group : α → String) (recorded : NumMap)
    (xs : List α) (g : String) :
    ((sumByGroup id group recorded xs).get g).getD 0
      = sum ((xs.filter (fun x => group x = g)).map (fun x => (recorded.get (id x)).getD 0)) := by
  unfold sumByGroup sum
  rw [sumByGroup_foldl_get group (fun x => (recorded.get (id x)).getD 0)]
  rfl

theorem lossOrNull_eq_lossSpec (anchor : Option ℚ) (s : ℚ) :
    lossOrNull (JsVal.ofOption anchor) (JsVal.ofRat s) = lossSpec anchor (some s) := by
  cases anchor with
  | none => rfl
  | some a =>
    have h0 : (JsVal.ofRat a = JsVal.num (.fin 0)) ↔ a = 0 := by simp [JsVal.ofRat]
    have h1 : JsVal.ofOption (some a) = JsVal.ofRat a := rfl
    rw [h1]
    by_cases ha : a = 0
    · subst ha
      simp [lossOrNull, lossSpec, h0]
    · simp [lossOrNull, lossSpec, h0, ha, Binary64.percent, Binary64.toNumber, Binary64.round]

theorem childRel_map {π γ κ : Type} (pk : π → String) (kids : π → List κ)
    (par : γ → String) (proj : γ → κ) (P : List π) (C : List γ)
    (stepP : π → π) (stepC : γ → γ)
    (hrel : ∀ p ∈ P, kids p = (C.filter (fun c => par c = pk p)).map proj)
    (hpk : ∀ p, pk (stepP p) = pk p) (hkids : ∀ p, kids (stepP p) = kids p)
    (hpar : ∀ c, par (stepC c) = par c) (hproj : ∀ c, proj (stepC c) = proj c) :
    ∀ p ∈ P.map stepP, kids p = ((C.map stepC).filter (fun c => par c = pk p)).map proj := by
  intro p hp
  obtain ⟨p0, hp0, rfl⟩ := List.mem_map.mp hp
  rw [hpk, hkids, List.filter_map, List.map_map, hrel p0 hp0]
  have hf1 : ((fun c => decide (par c = pk p0)) ∘ stepC) = (fun c => decide (par c = pk p0)) := by
    funext c; simp [hpar]
  have hf2 : (proj ∘ stepC) = proj := funext hproj
  rw [hf1, hf2]

theorem childClosed_map {π γ : Type} (pk : π → String) (par : γ → String)
    (P : List π) (C : List γ) (stepP : π → π) (stepC : γ → γ)
    (hclosed : ∀ c ∈ C, ∃ p ∈ P, pk p = par c)
    (hpk : ∀ p, pk (stepP p) = pk p) (hpar : ∀ c, par (stepC c) = par c) :
    ∀ c ∈ C.map stepC, ∃ p ∈ P.map stepP, pk p = par c := by
  intro c hc
  obtain ⟨c0, hc0, rfl⟩ := List.mem_map.mp hc
  obtain ⟨p, hp, hpc⟩ := hclosed c0 hc0
  exact ⟨stepP p, List.mem_map.mpr ⟨p, hp, rfl⟩, by rw [hpk, hpar, hpc]⟩

theorem WF_aggregatedAll {s : State} (h : WF s) : WF (aggregatedAll s) := by
  have e1 : (Region.name ∘ fun g : Region => { g with metrics := regionMetrics s g })
      = Region.name := rfl
  have e2 : (Feeder.id ∘ fun f : Feeder => { f with metrics := feederMetrics s f })
      = Feeder.id := rfl
  have e3 : (DT.id ∘ fun d : DT => { d with metrics := dtMetrics d }) = DT.id := rfl
  constructor
  · simpa [aggregatedAll, List.map_map, e1] using h.regions_nodup
  · simpa [aggregatedAll, List.map_map, e2] using h.feeders_nodup
  · simpa [aggregatedAll, List.map_map, e3] using h.dts_nodup
  · exact h.meters_nodup
  · exact childRel_map Region.name Region.feeders Feeder.region Feeder.id s.regions s.feederById
      _ _ h.region_feeders (fun _ => rfl) (fun _ => rfl) (fun _ => rfl) (fun _ => rfl)
  · exact childRel_map Feeder.id Feeder.dts DT.feederId DT.id s.feederById s.dtById
      _ _ h.feeder_dts (fun _ => rfl) (fun _ => rfl) (fun _ => rfl) (fun _ => rfl)
  · have := childRel_map Feeder.id Feeder.meters Meter.feederId id s.feederById s.meterById
      (fun f => { f with metrics := feederMetrics s f }) id h.feeder_meters
      (fun _ => rfl) (fun _ => rfl) (fun _ => rfl) (fun _ => rfl)
    simpa [aggregatedAll] using this
  · have := childRel_map DT.id DT.meters Meter.dtId id s.dtById s.meterById
      (fun d => { d with metrics := dtMetrics d }) id h.dt_meters
      (fun _ => rfl) (fun _ => rfl) (fun _ => rfl) (fun _ => rfl)
    simpa [aggregatedAll] using this
  · exact childClosed_map Region.name Feeder.region s.regions s.feederById _ _
      h.feeder_region (fun _ => rfl) (fun _ => rfl)
  · exact childClosed_map Feeder.id DT.feederId s.feederById s.dtById _ _
      h.dt_feeder (fun _ => rfl) (fun _ => rfl)
  · have := childClosed_map Feeder.id Meter.feederId s.feederById s.meterById
      (fun f => { f with metrics := feederMetrics s f }) id h.meter_feeder
      (fun _ => rfl) (fun _ => rfl)
    simpa [aggregatedAll] using this
  · have := childClosed_map DT.id Meter.dtId s.dtById s.meterById
      (fun d => { d with metrics := dtMetrics d }) id h.meter_dt (fun _ => rfl) (fun _ => rfl)
    simpa [aggregatedAll] using this

theorem WF_buildResultsTable {s : State} (h : WF s) : WF (buildResultsTable s) :=
  ⟨h.1, h.2, h.3, h.4, h.5, h.6, h.7, h.8, h.9, h.10, h.11, h.12⟩

theorem WF_buildModelFromRows (st : State) (rows : List RawRow) :
    WF (buildModelFromRows st rows) := by
  rw [buildModelFromRows_eq]
  exact WF_buildResultsTable (WF_aggregatedAll (WF_buildHierarchy st rows))

theorem results_sumDt (s : State) (h : WF s) (f : Feeder) (hf : f ∈ s.feederById) :
    ((sumByGroup DT.id DT.feederId
        (energyById DT.id (fun d => d.metrics.dtEnergy) s.dtById) s.dtById).get f.id).getD 0
      = sum ((deref DT.id s.dtById f.dts).map
          (fun d => (nonExcluded d.metrics.dtEnergy).getD 0)) := by
  rw [sumByGroup_get, h.feeder_dts f hf, deref_filter DT.id _ h.dts_nodup]
  congr 1
  apply List.map_congr_left
  intro d hd
  rw [energyById_get DT.id (fun d => d.metrics.dtEnergy) s.dtById h.dts_nodup d
    (List.mem_filter.mp hd).1]

theorem results_sumConsFeeder (s : State) (h : WF s) (f : Feeder) (hf : f ∈ s.feederById) :
    ((sumByGroup Meter.id Meter.feederId
        (energyById Meter.id Meter.energy s.meterById) s.meterById).get f.id).getD 0
      = sum (f.meters.map (fun m => (nonExcluded m.energy).getD 0)) := by
  rw [sumByGroup_get, h.feeder_meters f hf, List.map_id]
  congr 1
  apply List.map_congr_left
  intro m hm
  rw [energyById_get Meter.id Meter.energy s.meterById h.meters_nodup m
    (List.mem_filter.mp hm).1]

theorem results_sumConsDt (s : State) (h : WF s) (d : DT) (hd : d ∈ s.dtById) :
    ((sumByGroup Meter.id Meter.dtId
        (energyById Meter.id Meter.energy s.meterById) s.meterById).get d.id).getD 0
      = sum (d.meters.map (fun m => (nonExcluded m.energy).getD 0)) := by
  rw [sumByGroup_get, h.dt_meters d hd, List.map_id]
  congr 1
  apply List.map_congr_left
  intro m hm
  rw [energyById_get Meter.id Meter.energy s.meterById h.meters_nodup m
    (List.mem_filter.mp hm).1]

theorem resultsRows_eq (s : State) (h : WF s) :
    (buildResultsTable s).resultsRows
      = s.feederById.map (feederRowSpec s) ++ s.dtById.map dtRowSpec := by
  unfold buildResultsTable
  simp only
  congr 1
  · apply List.map_congr_left
    intro f hf
    rw [results_sumDt s h f hf, results_sumConsFeeder s h f hf,
      energyById_get Feeder.id (fun f => f.metrics.feederEnergy) s.feederById h.feeders_nodup f hf,
      lossOrNull_eq_lossSpec, lossOrNull_eq_lossSpec]
    rfl
  · apply List.map_congr_left
    intro d hd
    rw [results_sumConsDt s h d hd,
      energyById_get DT.id (fun d => d.metrics.dtEnergy) s.dtById h.dts_nodup d hd,
      lossOrNull_eq_lossSpec]
    rfl

theorem buildModelFromRows_resultsRows (st : State) (rows : List RawRow) :
    (buildModelFromRows st rows).resultsRows
      = (buildModelFromRows st rows).feederById.map (feederRowSpec (buildModelFromRows st rows))
        ++ (buildModelFromRows st rows).dtById.map dtRowSpec := by
  have h := resultsRows_eq _ (WF_aggregatedAll (WF_buildHierarchy st rows))
  rw [buildModelFromRows_eq]
  exact h

/-- C8 (evaluation at the failing input): with one record that carries no feeder and no DT
readings, no energy is latched for feeder `F1` or DT `D1`, yet the results rows show
`Feeder_E = 10` (with a loss of `0`, not null) and `DT_E = 10`: the fallback sums that
the aggregator wrote into `metrics` before `buildResultsTable` ran. -/
theorem results_show_fallback_energy :
    latchedFeederEnergy unlatchedRows "F1" = none ∧
    latchedDtEnergy unlatchedRows "D1" = none ∧
    (buildHierarchy State.initial unlatchedRows).feederById.map
        (fun f => (f.id, f.metrics.feederEnergy)) = [("F1", none)] ∧
    (buildHierarchy State.initial unlatchedRows).dtById.map
        (fun d => (d.id, d.metrics.dtEnergy)) = [("D1", none)] ∧
    (buildModelFromRows State.initial unlatchedRows).resultsRows.map
        (fun r => (r.Feeder_Code, r.DT_Code, r.Feeder_E, r.Feeder_to_DT_Loss, r.DT_E))
      = [("F1", "", some 10, some (.fin 0), none), ("F1", "D1", none, none, some 10)] := by
  decide!

/-- C9: in every results row each loss column is null when the anchor energy of the row
is null or `0` and is `round((anchor - sum) / anchor * 100, 2)` of the matching sum
column otherwise, as the program evaluates it in binary64 arithmetic (so does
`lossOrNull`, and `lossOrNull(160, 63) = 60.62` as in the row of a feeder with energy
`160` over a DT with energy `63`); a feeder whose `metrics.feederEnergy` is `0` has
`metrics.lossFdt = 0` while its results row has `Feeder_to_DT_Loss` null, as for the
feeder of `zeroFeederRows`. -/
theorem results_loss_columns (st : State) (rows : List RawRow) :
    (∀ r ∈ (buildModelFromRows st rows).resultsRows,
      r.Feeder_to_DT_Loss = lossSpec r.Feeder_E r.Sum_DT_E ∧
      r.Feeder_to_Cons_Loss = lossSpec r.Feeder_E r.Sum_Cons_E ∧
      r.DT_to_Cons_Loss = lossSpec r.DT_E r.Sum_Cons_E_for_DT) ∧
    (∀ sum : Option ℚ, lossSpec none sum = none ∧ lossSpec (some 0) sum = none) ∧
    (∀ a s : ℚ, a ≠ 0 →
      lossSpec (some a) (some s)
        = some (Binary64.percent
            (Binary64.sub (Binary64.roundDouble a) (Binary64.roundDouble s))
            (Binary64.roundDouble a))) ∧
    (∀ s : JsVal, lossOrNull .null s = none ∧ lossOrNull (.ofRat 0) s = none) ∧
    (∀ a s : ℚ, a ≠ 0 →
      lossOrNull (.ofRat a) (.ofRat s)
        = some (Binary64.percent
            (Binary64.sub (Binary64.roundDouble a) (Binary64.roundDouble s))
            (Binary64.roundDouble a))) ∧
    lossOrNull (.ofRat 200) (.ofRat (17531 / 100)) = some (Binary64.roundDouble (1234 / 100)) ∧
    lossOrNull (.ofRat 160) (.ofRat 63) = some (Binary64.roundDouble (6062 / 100)) ∧
    (buildModelFromRows State.initial lossRows).resultsRows.map
        (fun r => (r.Feeder_Code, r.DT_Code, r.Feeder_E, r.Sum_DT_E, r.Feeder_to_DT_Loss))
      = [("F1", "", some 160, some 63, some (Binary64.roundDouble (6062 / 100))),
         ("F1", "D1", none, none, none)] ∧
    (∀ f ∈ (buildModelFromRows st rows).feederById, f.metrics.feederEnergy = some 0 →
      f.metrics.lossFdt = some (.fin 0) ∧
      ∃ r ∈ (buildModelFromRows st rows).resultsRows,
        r.Feeder_Code = f.id ∧ r.DT_Code = "" ∧ r.Feeder_E = some 0 ∧
        r.Feeder_to_DT_Loss = none) ∧
    ((buildModelFromRows State.initial zeroFeederRows).feederById.map
        (fun f => (f.id, f.metrics.feederEnergy, f.metrics.lossFdt))
      = [("F1", some 0, some (.fin 0))] ∧
     (buildModelFromRows State.initial zeroFeederRows).resultsRows.map
        (fun r => (r.Feeder_Code, r.DT_Code, r.Feeder_E, r.Sum_DT_E, r.Feeder_to_DT_Loss))
      = [("F1", "", some 0, some 30, none), ("F1", "D1", none, none, none)]) := by
  refine ⟨?_, ?_, ?_, ?_, ?_, by decide!, by decide!, by decide!, ?_, by decide!⟩
  · intro r hr
    rw [buildModelFromRows_resultsRows] at hr
    rcases List.mem_append.mp hr with h | h
    · obtain ⟨f, -, rfl⟩ := List.mem_map.mp h
      exact ⟨rfl, rfl, rfl⟩
    · obtain ⟨d, -, rfl⟩ := List.mem_map.mp h
      exact ⟨rfl, rfl, rfl⟩
  · intro sum
    exact ⟨rfl, by simp [lossSpec]⟩
  · intro a s ha
    simp [lossSpec, ha]
  · intro s
    exact ⟨rfl, by simp [lossOrNull, JsVal.ofRat]⟩
  · intro a s ha
    have := lossOrNull_eq_lossSpec (some a) s
    simp only [JsVal.ofOption] at this
    rw [show JsVal.ofRat a = JsVal.num (.fin a) from rfl, this]
    simp [lossSpec, ha]
  · intro f hf h0
    constructor
    · rw [buildModelFromRows_feederById] at hf
      obtain ⟨f0, -, rfl⟩ := List.mem_map.mp hf
      simp only [feederMetrics, Option.some.injEq] at h0
      simp only [feederMetrics, h0, pctLoss_zero]
    · refine ⟨feederRowSpec (buildModelFromRows st rows) f, ?_, rfl, rfl, ?_, ?_⟩
      · rw [buildModelFromRows_resultsRows]
        exact List.mem_append_left _ (List.mem_map.mpr ⟨f, hf, rfl⟩)
      · simp [feederRowSpec, h0, nonExcluded]
      · simp [feederRowSpec, h0, nonExcluded, lossSpec]

/-- What the flattener computes: `resultsRows` is one feeder-anchored row per feeder (in
lookup order, ids distinct) followed by one DT-anchored row per DT; the `Sum_DT_E` of
a feeder row adds, over the DTs in `feeder.dts`, the non-excluded `metrics.dtEnergy`
as it stands when the table is built, that is after the aggregator has replaced it
by `latched ?? sum of the meter energies`; its `Sum_Cons_E` is the sum of the
non-excluded energies of `feeder.meters`, and the `Sum_Cons_E_for_DT` of a DT row the
sum of the non-excluded energies of `dt.meters`.  In the scenario the row of `F1` has
`Feeder_E = 50`, `Sum_DT_E = 30` and `Feeder_to_DT_Loss = 40`. -/
theorem results_rows_and_sums (st : State) (rows : List RawRow) :
    (buildModelFromRows st rows).resultsRows
      = (buildModelFromRows st rows).feederById.map (feederRowSpec (buildModelFromRows st rows))
        ++ (buildModelFromRows st rows).dtById.map dtRowSpec ∧
    ((buildModelFromRows st rows).feederById.map Feeder.id).Nodup ∧
    ((buildModelFromRows st rows).dtById.map DT.id).Nodup ∧
    (∀ f ∈ (buildModelFromRows st rows).feederById,
      (feederRowSpec (buildModelFromRows st rows) f).Feeder_Code = f.id ∧
      (feederRowSpec (buildModelFromRows st rows) f).DT_Code = "" ∧
      (deref DT.id (buildModelFromRows st rows).dtById f.dts).map DT.id = f.dts ∧
      (feederRowSpec (buildModelFromRows st rows) f).Sum_DT_E
        = some (sum ((deref DT.id (buildModelFromRows st rows).dtById f.dts).map
            (fun d => (nonExcluded d.metrics.dtEnergy).getD 0))) ∧
      (feederRowSpec (buildModelFromRows st rows) f).Sum_Cons_E
        = some (sum (f.meters.map (fun x => (nonExcluded x.energy).getD 0)))) ∧
    (∀ d ∈ (buildModelFromRows st rows).dtById,
      (dtRowSpec d).DT_Code = d.id ∧ (dtRowSpec d).Feeder_Code = d.feederId ∧
      (dtRowSpec d).Sum_Cons_E_for_DT
        = some (sum (d.meters.map (fun x => (nonExcluded x.energy).getD 0)))) ∧
    (nonExcluded none = none ∧
      ∀ e : ℚ, nonExcluded (some e) = if e < 0 then none else some e) ∧
    (buildModelFromRows State.initial scenarioRows).resultsRows.map
        (fun r => (r.Feeder_Code, r.DT_Code, r.Feeder_E, r.Sum_DT_E, r.Feeder_to_DT_Loss))
      = [("F1", "", some 50, some 30, some (.fin 40)), ("F1", "D1", none, none, none)] := by
  have hwf := WF_buildModelFromRows st rows
  refine ⟨buildModelFromRows_resultsRows st rows, hwf.feeders_nodup, hwf.dts_nodup, ?_, ?_,
    ⟨rfl, fun _ => rfl⟩, by decide!⟩
  · intro f hf
    refine ⟨rfl, rfl, ?_, rfl, rfl⟩
    rw [hwf.feeder_dts f hf, deref_filter DT.id _ hwf.dts_nodup]
  · intro d _
    exact ⟨rfl, rfl, rfl⟩

/-- C10 (evaluation at the failing input): the single record of `unlatchedRows` carries no
DT reading, so no DT energy is latched and DT `D1` of feeder `F1` has no energy of its
own: the sum of the non-excluded DT energies under `F1` is `0`.  Yet the results row
of `F1` has `Sum_DT_E = 10`: the table is built after the aggregator has written the
fallback sum of the meter energies to `metrics.dtEnergy`.  The rows are one for the
feeder followed by one for the DT, and the consumer sums are those of the meter. -/
theorem results_sum_dt_counts_fallback :
    latchedDtEnergy unlatchedRows "D1" = none ∧
    (buildHierarchy State.initial unlatchedRows).dtById.map
        (fun d => (d.id, d.feederId, d.metrics.dtEnergy)) = [("D1", "F1", none)] ∧
    sum ((buildHierarchy State.initial unlatchedRows).dtById.map
        (fun d => (nonExcluded d.metrics.dtEnergy).getD 0)) = 0 ∧
    (buildModelFromRows State.initial unlatchedRows).dtById.map
        (fun d => (d.id, d.metrics.dtEnergy)) = [("D1", some 10)] ∧
    (buildModelFromRows State.initial unlatchedRows).resultsRows.map
        (fun r => (r.Feeder_Code, r.DT_Code, r.Sum_DT_E, r.Sum_Cons_E, r.Sum_Cons_E_for_DT))
      = [("F1", "", some 10, some 10, none), ("F1", "D1", none, none, some 10)] := by
  decide!

/-! ## Meters -/

theorem newMeter_energy_nonneg (r : Row) (e : ℚ) (he : (newMeter r).energy = some e) :
    0 ≤ e := by
  unfold newMeter at he
  simp only at he
  cases h1 : r.meterDay1 with
  | none => simp [h1, diffEnergy, computeEnergy, JsVal.ofOption, JsVal.isNullish] at he
  | some a =>
    cases h2 : r.meterDay2 with
    | none => simp [h1, h2, diffEnergy, computeEnergy, JsVal.ofOption, JsVal.isNullish] at he
    | some b =>
      rw [h1, h2] at he
      have h5 : diffEnergy (JsVal.ofOption (some a)) (JsVal.ofOption (some b)) (JsVal.ofRat 1)
          = some (toFixed2 (max 0 (toFixed2 (b - a)) * 1)) := diffEnergy_ofRat a b 1
      rw [h5] at he
      cases he
      exact toFixed2_nonneg (mul_nonneg (le_max_left _ _) (by norm_num))

theorem nonExcluded_of_nonneg (e : Option ℚ) (h : ∀ v, e = some v → 0 ≤ v) :
    nonExcluded e = e := by
  cases e with
  | none => rfl
  | some v =>
    have := h v rfl
    simp [nonExcluded, not_lt.mpr this]

/-- Every meter of the lookup was created from some row of the rows seen so far. -/
theorem foldl_addRow_meter_origin (rs : List Row) (s : State)
    (hs : ∀ m ∈ s.meterById, ∃ r, m = newMeter r) :
    ∀ m ∈ (rs.foldl addRow s).meterById, ∃ r, m = newMeter r := by
  induction rs generalizing s with
  | nil => exact hs
  | cons r rs ih =>
    apply ih (addRow s r)
    intro m hm
    rw [addRow_meterById] at hm
    rcases mem_ensureBy.mp hm with h | ⟨rfl, _⟩
    · exact hs m h
    · exact ⟨r, rfl⟩

theorem buildModelFromRows_meter_origin (st : State) (rows : List RawRow) :
    ∀ m ∈ (buildModelFromRows st rows).meterById, ∃ r, m = newMeter r := by
  rw [buildModelFromRows_meterById]
  exact foldl_addRow_meter_origin _ (resetState st) (by simp [resetState])

theorem meter_energy_nonExcluded (st : State) (rows : List RawRow) :
    ∀ m ∈ (buildModelFromRows st rows).meterById, nonExcluded m.energy = m.energy := by
  intro m hm
  obtain ⟨r, rfl⟩ := buildModelFromRows_meter_origin st rows m hm
  exact nonExcluded_of_nonneg _ (newMeter_energy_nonneg r)
theorem feeder_consumerEnergy_final (st : State) (rows : List RawRow) :
    ∀ f ∈ (buildModelFromRows st rows).feederById,
      f.metrics.consumerEnergy = some (sum (f.meters.map (fun m => m.energy.getD 0))) := by
  intro f hf
  rw [buildModelFromRows_feederById] at hf
  obtain ⟨f0, -, rfl⟩ := List.mem_map.mp hf
  rfl

theorem dt_consumerEnergy_final (st : State) (rows : List RawRow) :
    ∀ d ∈ (buildModelFromRows st rows).dtById,
      d.metrics.consumerEnergy = some (sum (d.meters.map (fun m => m.energy.getD 0))) := by
  intro d hd
  rw [buildModelFromRows_dtById] at hd
  obtain ⟨d0, -, rfl⟩ := List.mem_map.mp hd
  rfl

theorem take_results_feeders (st : State) (rows : List RawRow) :
    (buildModelFromRows st rows).resultsRows.take (buildModelFromRows st rows).feederById.length
      = (buildModelFromRows st rows).feederById.map (feederRowSpec (buildModelFromRows st rows)) ∧
    (buildModelFromRows st rows).resultsRows.drop (buildModelFromRows st rows).feederById.length
      = (buildModelFromRows st rows).dtById.map dtRowSpec := by
  have h := buildModelFromRows_resultsRows st rows
  have hlen : ((buildModelFromRows st rows).feederById.map
      (feederRowSpec (buildModelFromRows st rows))).length
      = (buildModelFromRows st rows).feederById.length := List.length_map _ _
  constructor
  · rw [h, ← hlen, List.take_left]
  · rw [h, ← hlen, List.drop_left]

/-- C11: the consumer sums of the flattener agree with the rollups of the aggregator: the
first rows of `resultsRows` are the feeder rows, in the order of the feeders, and the
`Sum_Cons_E` of each is the `metrics.consumerEnergy` of its feeder; the remaining rows
are the DT rows and the `Sum_Cons_E_for_DT` of each is the `metrics.consumerEnergy` of
its DT; the meters grouped by the back-references `feederId` / `dtId` are exactly
`feeder.meters` / `dt.meters`. -/
theorem flattener_consumer_sums_agree (st : State) (rows : List RawRow) :
    ((buildModelFromRows st rows).resultsRows.take
        (buildModelFromRows st rows).feederById.length).map
        (fun r => (r.Feeder_Code, r.Sum_Cons_E))
      = (buildModelFromRows st rows).feederById.map
          (fun f => (f.id, f.metrics.consumerEnergy)) ∧
    ((buildModelFromRows st rows).resultsRows.drop
        (buildModelFromRows st rows).feederById.length).map
        (fun r => (r.DT_Code, r.Sum_Cons_E_for_DT))
      = (buildModelFromRows st rows).dtById.map (fun d => (d.id, d.metrics.consumerEnergy)) ∧
    (∀ f ∈ (buildModelFromRows st rows).feederById,
      (buildModelFromRows st rows).meterById.filter (fun m => m.feederId = f.id) = f.meters) ∧
    (∀ d ∈ (buildModelFromRows st rows).dtById,
      (buildModelFromRows st rows).meterById.filter (fun m => m.dtId = d.id) = d.meters) ∧
    ((buildModelFromRows State.initial scenarioRows).resultsRows.map
        (fun r => (r.Feeder_Code, r.DT_Code, r.Sum_Cons_E, r.Sum_Cons_E_for_DT))
      = [("F1", "", some 25, none), ("F1", "D1", none, some 25)] ∧
     (buildModelFromRows State.initial scenarioRows).feederById.map
        (fun f => (f.id, f.metrics.consumerEnergy)) = [("F1", some 25)] ∧
     (buildModelFromRows State.initial scenarioRows).dtById.map
        (fun d => (d.id, d.metrics.consumerEnergy)) = [("D1", some 25)]) := by
  have hwf := WF_buildModelFromRows st rows
  have hne := meter_energy_nonExcluded st rows
  refine ⟨?_, ?_, ?_, ?_, by decide!⟩
  · rw [(take_results_feeders st rows).1, List.map_map]
    apply List.map_congr_left
    intro f hf
    simp only [Function.comp_apply, feederRowSpec, Prod.mk.injEq, true_and]
    rw [feeder_consumerEnergy_final st rows f hf]
    congr 2
    apply List.map_congr_left
    intro m hm
    have hm2 : m ∈ (buildModelFromRows st rows).meterById := by
      have := hwf.feeder_meters f hf
      rw [List.map_id] at this
      rw [this] at hm
      exact (List.mem_filter.mp hm).1
    rw [hne m hm2]
  · rw [(take_results_feeders st rows).2, List.map_map]
    apply List.map_congr_left
    intro d hd
    simp only [Function.comp_apply, dtRowSpec, Prod.mk.injEq, true_and]
    rw [dt_consumerEnergy_final st rows d hd]
    congr 2
    apply List.map_congr_left
    intro m hm
    have hm2 : m ∈ (buildModelFromRows st rows).meterById := by
      have := hwf.dt_meters d hd
      rw [List.map_id] at this
      rw [this] at hm
      exact (List.mem_filter.mp hm).1
    rw [hne m hm2]
  · intro f hf
    have := hwf.feeder_meters f hf
    rw [List.map_id] at this
    exact this.symm
  · intro d hd
    have := hwf.dt_meters d hd
    rw [List.map_id] at this
    exact this.symm

/-! ## Region and global rollups -/

theorem foldl_add_eq (xs : List ℚ) (a : ℚ) : xs.foldl (fun x y => x + y) a = a + xs.sum := by
  induction xs generalizing a with
  | nil => simp
  | cons x xs ih => rw [List.foldl_cons, ih, List.sum_cons, add_assoc]

theorem sum_eq_listSum (xs : List ℚ) : sum xs = xs.sum := by
  unfold sum
  rw [foldl_add_eq, zero_add]

theorem sum_flatMap_map {α β : Type} (l : List α) (f : α → List β) (φ : β → ℚ) :
    sum ((l.flatMap f).map φ) = sum (l.map (fun a => sum ((f a).map φ))) := by
  simp only [sum_eq_listSum]
  induction l with
  | nil => rfl
  | cons a l ih =>
    rw [List.flatMap_cons, List.map_append, List.sum_append, ih, List.map_cons, List.sum_cons]

theorem deref_flatMap {α β : Type} (key : β → String) (xs : List β) (l : List α)
    (f : α → List String) :
    deref key xs (l.flatMap f) = l.flatMap (fun a => deref key xs (f a)) := by
  unfold deref
  induction l with
  | nil => rfl
  | cons a l ih => rw [List.flatMap_cons, List.filterMap_append, ih, List.flatMap_cons]

theorem length_flatMap_sum {α β : Type} (l : List α) (f : α → List β) :
    (l.flatMap f).length = (l.map (fun a => (f a).length)).sum := by
  induction l with
  | nil => rfl
  | cons a l ih => rw [List.flatMap_cons, List.length_append, ih, List.map_cons, List.sum_cons]

theorem deref_feeder_final {β : Type} (st : State) (rows : List RawRow) (φ ψ : Feeder → β)
    (h : ∀ f, φ { f with metrics := feederMetrics (buildHierarchy st rows) f } = ψ f)
    (ids : List String) :
    (deref Feeder.id (buildModelFromRows st rows).feederById ids).map φ
      = (deref Feeder.id (buildHierarchy st rows).feederById ids).map ψ :=
  deref_map_congr Feeder.id (buildHierarchy st rows).feederById _
    (fun f => { f with metrics := feederMetrics (buildHierarchy st rows) f })
    (lookupBy_feeder_final st rows) φ ψ h ids

/-- C12 (as amended): with the sums taken in exact arithmetic, the feeder, DT and consumer
energies of a region are the sums, over the feeders referenced by `region.feeders`,
of the finished `metrics.feederEnergy`, `metrics.dtEnergy` and
`metrics.consumerEnergy` of these feeders; its `feeders`, `dts` and `meters` counts
are the sums of their counts; the counts of `computeGlobalTotals` are the sums of the
region counts, and its three losses are `pctLoss` of the sums of the region
energies. -/
theorem region_and_global_rollups (st : State) (rows : List RawRow) :
    (∀ g ∈ (buildModelFromRows st rows).regions,
      (deref Feeder.id (buildModelFromRows st rows).feederById g.feeders).map Feeder.id
        = g.feeders ∧
      g.metrics.feederEnergy = some (sum
        ((deref Feeder.id (buildModelFromRows st rows).feederById g.feeders).map
          (fun f => f.metrics.feederEnergy.getD 0))) ∧
      g.metrics.dtEnergy = some (sum
        ((deref Feeder.id (buildModelFromRows st rows).feederById g.feeders).map
          (fun f => f.metrics.dtEnergy.getD 0))) ∧
      g.metrics.consumerEnergy = some (sum
        ((deref Feeder.id (buildModelFromRows st rows).feederById g.feeders).map
          (fun f => f.metrics.consumerEnergy.getD 0))) ∧
      g.metrics.feeders = some
        ((deref Feeder.id (buildModelFromRows st rows).feederById g.feeders).map
          (fun f => f.metrics.feeders.getD 0)).sum ∧
      g.metrics.dts = some
        ((deref Feeder.id (buildModelFromRows st rows).feederById g.feeders).map
          (fun f => f.metrics.dts.getD 0)).sum ∧
      g.metrics.meters = some
        ((deref Feeder.id (buildModelFromRows st rows).feederById g.feeders).map
          (fun f => f.metrics.meters.getD 0)).sum) ∧
    (computeGlobalTotals (buildModelFromRows st rows)).feeders
      = (((buildModelFromRows st rows).regions.map
          (fun g => g.metrics.feeders.getD 0)).sum : ℕ) ∧
    (computeGlobalTotals (buildModelFromRows st rows)).dts
      = (((buildModelFromRows st rows).regions.map (fun g => g.metrics.dts.getD 0)).sum : ℕ) ∧
    (computeGlobalTotals (buildModelFromRows st rows)).meters
      = (((buildModelFromRows st rows).regions.map
          (fun g => g.metrics.meters.getD 0)).sum : ℕ) ∧
    (computeGlobalTotals (buildModelFromRows st rows)).lossFdt
      = pctLoss
          (.ofRat (sum ((buildModelFromRows st rows).regions.map
            (fun g => g.metrics.feederEnergy.getD 0))))
          (.ofRat (sum ((buildModelFromRows st rows).regions.map
            (fun g => g.metrics.dtEnergy.getD 0)))) ∧
    (computeGlobalTotals (buildModelFromRows st rows)).lossDtc
      = pctLoss
          (.ofRat (sum ((buildModelFromRows st rows).regions.map
            (fun g => g.metrics.dtEnergy.getD 0))))
          (.ofRat (sum ((buildModelFromRows st rows).regions.map
            (fun g => g.metrics.consumerEnergy.getD 0)))) ∧
    (computeGlobalTotals (buildModelFromRows st rows)).lossFc
      = pctLoss
          (.ofRat (sum ((buildModelFromRows st rows).regions.map
            (fun g => g.metrics.feederEnergy.getD 0))))
          (.ofRat (sum ((buildModelFromRows st rows).regions.map
            (fun g => g.metrics.consumerEnergy.getD 0)))) := by
  have hwf := WF_buildModelFromRows st rows
  have hwh := WF_buildHierarchy st rows
  refine ⟨?_, ?_, ?_, ?_, rfl, rfl, rfl⟩
  · intro g hg
    have hres : (deref Feeder.id (buildModelFromRows st rows).feederById g.feeders).map Feeder.id
        = g.feeders := by
      rw [hwf.region_feeders g hg, deref_filter Feeder.id _ hwf.feeders_nodup]
    rw [buildModelFromRows_regions] at hg
    obtain ⟨g0, hg0, rfl⟩ := List.mem_map.mp hg
    refine ⟨hres, ?_, ?_, ?_, ?_, ?_, ?_⟩
    · simp only [regionMetrics]
      rw [deref_feeder_final st rows _ (feederEnergyOrSum (buildHierarchy st rows))
        (fun f => rfl)]
    · simp only [regionMetrics]
      rw [deref_feeder_final st rows _
        (fun f => sum ((deref DT.id (buildHierarchy st rows).dtById f.dts).map dtEnergyOrSum))
        (fun f => rfl), deref_flatMap, List.map_flatMap]
      have := sum_flatMap_map (deref Feeder.id (buildHierarchy st rows).feederById g0.feeders)
        (fun f => (deref DT.id (buildHierarchy st rows).dtById f.dts).map dtEnergyOrSum) id
      simp only [List.map_id] at this
      rw [this]
    · simp only [regionMetrics]
      rw [deref_feeder_final st rows _
        (fun f => sum (f.meters.map (fun m => m.energy.getD 0))) (fun f => rfl),
        sum_flatMap_map]
    · simp only [regionMetrics]
      have h1 := deref_feeder_final st rows (fun f => f.metrics.feeders.getD 0) (fun _ => 1)
        (fun f => rfl) g0.feeders
      have h2 := deref_feeder_final st rows Feeder.id Feeder.id (fun f => rfl) g0.feeders
      have h3 : (deref Feeder.id (buildHierarchy st rows).feederById g0.feeders).length
          = g0.feeders.length := by
        have := congrArg List.length (h2.symm.trans hres)
        simpa using this
      rw [h1]
      simp [h3]
    · simp only [regionMetrics]
      rw [deref_feeder_final st rows (fun f => f.metrics.dts.getD 0) (fun f => f.dts.length)
        (fun f => rfl), length_flatMap_sum]
    · simp only [regionMetrics]
      rw [deref_feeder_final st rows (fun f => f.metrics.meters.getD 0)
        (fun f => f.meters.length) (fun f => rfl), length_flatMap_sum]
  · simp only [computeGlobalTotals, sum_eq_listSum]
    push_cast
    simp [List.map_map, Function.comp_def]
  · simp only [computeGlobalTotals, sum_eq_listSum]
    push_cast
    simp [List.map_map, Function.comp_def]
  · simp only [computeGlobalTotals, sum_eq_listSum]
    push_cast
    simp [List.map_map, Function.comp_def]

/-- C12 (counterexample): in `groupingRows` region `R1` has feeder `F1` over a DT with
energy `0.1` and feeder `F2` over DTs with energies `0.2` and `0.3`.  The program sums
the three DT energies of the region in one left-to-right pass,
`((0 + 0.1) + 0.2) + 0.3`, which in binary64 arithmetic is `0.6000000000000001`,
whereas the DT energies of the two feeders are `0 + 0.1` and `(0 + 0.2) + 0.3 = 0.5`,
whose sum is `0.6`; in exact arithmetic both are `0.6`. -/
theorem region_sum_differs_from_feeder_sums :
    (buildModelFromRows State.initial groupingRows).regions.map
        (fun g => (g.name, g.feeders, g.metrics.dtEnergy))
      = [("R1", ["F1", "F2"], some (6 / 10))] ∧
    (buildModelFromRows State.initial groupingRows).feederById.map
        (fun f => (f.id, f.dts, f.metrics.dtEnergy))
      = [("F1", ["D1"], some (1 / 10)), ("F2", ["D2", "D3"], some (5 / 10))] ∧
    (buildModelFromRows State.initial groupingRows).dtById.map
        (fun d => (d.id, d.feederId, d.metrics.dtEnergy))
      = [("D1", "F1", some (1 / 10)), ("D2", "F2", some (2 / 10)),
         ("D3", "F2", some (3 / 10))] ∧
    Binary64.diffEnergy (.ofRat 0) (.ofRat (1 / 10)) (.ofRat 1)
      = some (Binary64.roundDouble (1 / 10)) ∧
    Binary64.diffEnergy (.ofRat 0) (.ofRat (2 / 10)) (.ofRat 1)
      = some (Binary64.roundDouble (2 / 10)) ∧
    Binary64.diffEnergy (.ofRat 0) (.ofRat (3 / 10)) (.ofRat 1)
      = some (Binary64.roundDouble (3 / 10)) ∧
    Binary64.sum [.num (Binary64.roundDouble (1 / 10)), .num (Binary64.roundDouble (2 / 10)),
        .num (Binary64.roundDouble (3 / 10))]
      = .fin (5404319552844596 / 9007199254740992) ∧
    Binary64.sum [.num (Binary64.roundDouble (2 / 10)), .num (Binary64.roundDouble (3 / 10))]
      = .fin (1 / 2) ∧
    Binary64.sum [.num (Binary64.sum [.num (Binary64.roundDouble (1 / 10))]),
        .num (Binary64.sum [.num (Binary64.roundDouble (2 / 10)),
          .num (Binary64.roundDouble (3 / 10))])]
      = Binary64.roundDouble (6 / 10) ∧
    Binary64.roundDouble (6 / 10) = .fin (5404319552844595 / 9007199254740992) := by
  decide!

theorem buildModelFromRows_region_sla (st : State) (rows : List RawRow) :
    ∀ g ∈ (buildModelFromRows st rows).regions, g.sla = countRows (rowsOfRegion rows g.name) := by
  intro g hg
  rw [buildModelFromRows_regions] at hg
  obtain ⟨g0, hg0, rfl⟩ := List.mem_map.mp hg
  exact (buildHierarchy_region_sla st rows).1 g0 hg0

/-- C13: after `buildModelFromRows(rows)` the global counters are the number of input rows
and the numbers of input rows whose daily / load flag parses to true, and the counters
of each region are the same counts over the rows that resolve to its name; every row
is counted: two rows for the same meter id give `totalRows = 2` and one meter. -/
theorem raw_row_counters (st : State) (rows : List RawRow) :
    (buildModelFromRows st rows).slaGlobal.totalRows = rows.length ∧
    (buildModelFromRows st rows).slaGlobal.dailyYes
      = (rows.filter (fun r =>
          parseYesNo (getVal r ["Daily energy", "Daily Energy", "Daily_energy"]))).length ∧
    (buildModelFromRows st rows).slaGlobal.loadYes
      = (rows.filter (fun r =>
          parseYesNo (getVal r ["Load Data", "LoadData", "Load_Data"]))).length ∧
    (∀ g ∈ (buildModelFromRows st rows).regions,
      g.sla.totalRows
        = (rows.filter (fun r => (resolveRow r).regionName = g.name)).length ∧
      g.sla.dailyYes
        = (rows.filter (fun r => decide ((resolveRow r).regionName = g.name) &&
            parseYesNo (getVal r ["Daily energy", "Daily Energy", "Daily_energy"]))).length ∧
      g.sla.loadYes
        = (rows.filter (fun r => decide ((resolveRow r).regionName = g.name) &&
            parseYesNo (getVal r ["Load Data", "LoadData", "Load_Data"]))).length) ∧
    (∀ r ∈ rows, ∃ g ∈ (buildModelFromRows st rows).regions,
      g.name = (resolveRow r).regionName) ∧
    ((buildModelFromRows State.initial duplicateMeterRows).slaGlobal
        = { totalRows := 2, dailyYes := 1, loadYes := 0 } ∧
      (buildModelFromRows State.initial duplicateMeterRows).regions.map
        (fun g => (g.name, g.sla)) = [("R1", { totalRows := 2, dailyYes := 1, loadYes := 0 })] ∧
      (buildModelFromRows State.initial duplicateMeterRows).meterById.map
        (fun m => (m.id, m.readings.day1, m.readings.day2)) = [("M1", some 0, some 10)]) := by
  have hg := buildHierarchy_slaGlobal st rows
  refine ⟨?_, ?_, ?_, ?_, ?_, by decide!⟩
  · rw [buildModelFromRows_slaGlobal, hg]
    simp [countRows]
  · rw [buildModelFromRows_slaGlobal, hg]
    simp only [countRows, List.filter_map, List.length_map]
    rfl
  · rw [buildModelFromRows_slaGlobal, hg]
    simp only [countRows, List.filter_map, List.length_map]
    rfl
  · intro g hgm
    rw [buildModelFromRows_region_sla st rows g hgm]
    simp only [countRows, rowsOfRegion, List.filter_map, List.length_map, List.filter_filter]
    refine ⟨rfl, ?_, ?_⟩
    · congr 1
      apply List.filter_congr
      intro r _
      simp only [Function.comp_apply]
      rw [Bool.and_comm]
      rfl
    · congr 1
      apply List.filter_congr
      intro r _
      simp only [Function.comp_apply]
      rw [Bool.and_comm]
      rfl
  · intro r hr
    obtain ⟨g, hgr, hname⟩ := (buildHierarchy_region_sla st rows).2 (resolveRow r)
      (List.mem_map.mpr ⟨r, hr, rfl⟩)
    refine ⟨{ g with metrics := regionMetrics (buildHierarchy st rows) g }, ?_, hname⟩
    rw [buildModelFromRows_regions]
    exact List.mem_map.mpr ⟨g, hgr, rfl⟩

/-! ## One entity per identifier -/

theorem nodup_flatMap_children {π γ : Type} (pk : π → String) (kids : π → List String)
    (par : γ → String) (proj : γ → String) (C : List γ) (hC : (C.map proj).Nodup) :
    ∀ P : List π, (P.map pk).Nodup →
      (∀ p ∈ P, kids p = (C.filter (fun c => par c = pk p)).map proj) →
      (P.flatMap kids).Nodup := by
  intro P
  induction P with
  | nil => intro _ _; simp
  | cons p P ih =>
    intro hP hrel
    simp only [List.map_cons, List.nodup_cons] at hP
    rw [List.flatMap_cons, List.nodup_append]
    refine ⟨?_, ih hP.2 (fun q hq => hrel q (List.mem_cons_of_mem _ hq)), ?_⟩
    · rw [hrel p (List.mem_cons_self _ _)]
      exact nodup_filter_ids proj C hC _
    · intro x hx1 hx2
      rw [hrel p (List.mem_cons_self _ _)] at hx1
      obtain ⟨c1, hc1, rfl⟩ := List.mem_map.mp hx1
      obtain ⟨q, hq, hxq⟩ := List.mem_flatMap.mp hx2
      rw [hrel q (List.mem_cons_of_mem _ hq)] at hxq
      obtain ⟨c2, hc2, h12⟩ := List.mem_map.mp hxq
      have heq : c2 = c1 :=
        List.inj_on_of_nodup_map hC (List.mem_filter.mp hc2).1 (List.mem_filter.mp hc1).1 h12
      subst heq
      have h1 : par c2 = pk p := by simpa using (List.mem_filter.mp hc1).2
      have h2 : par c2 = pk q := by simpa using (List.mem_filter.mp hc2).2
      exact hP.1 (List.mem_map.mpr ⟨q, hq, h2.symm.trans h1⟩)

theorem mem_ids_ensureBy_map {α : Type} (key : α → String) (kx : String) (x : α) (xs : List α)
    (hk : key x = kx) (step : α → α) (hstep : ∀ y, key (step y) = key y) (k : String) :
    k ∈ ((ensureBy key kx x xs).map step).map key ↔ k ∈ xs.map key ∨ k = kx := by
  have hfun : (key ∘ step) = key := funext hstep
  rw [List.map_map, hfun]
  constructor
  · intro h
    obtain ⟨y, hy, rfl⟩ := List.mem_map.mp h
    rcases mem_ensureBy.mp hy with h1 | ⟨rfl, _⟩
    · exact Or.inl (List.mem_map.mpr ⟨y, h1, rfl⟩)
    · exact Or.inr hk
  · rintro (h | rfl)
    · obtain ⟨y, hy, rfl⟩ := List.mem_map.mp h
      exact List.mem_map.mpr ⟨y, mem_ensureBy.mpr (Or.inl hy), rfl⟩
    · obtain ⟨y, hy, hyk⟩ := exists_key_ensureBy key k x xs hk
      exact List.mem_map.mpr ⟨y, hy, hyk⟩

theorem foldl_addRow_ids (ids : State → List String) (rk : Row → String)
    (hstep : ∀ s r k, k ∈ ids (addRow s r) ↔ k ∈ ids s ∨ k = rk r) (rs : List Row) :
    ∀ s k, k ∈ ids (rs.foldl addRow s) ↔ k ∈ ids s ∨ ∃ r ∈ rs, rk r = k := by
  induction rs with
  | nil => intro s k; simp
  | cons r rs ih =>
    intro s k
    rw [List.foldl_cons, ih, hstep]
    constructor
    · rintro ((h | h) | ⟨r2, h2, h3⟩)
      · exact Or.inl h
      · exact Or.inr ⟨r, List.mem_cons_self _ _, h.symm⟩
      · exact Or.inr ⟨r2, List.mem_cons_of_mem _ h2, h3⟩
    · rintro (h | ⟨r2, h2, h3⟩)
      · exact Or.inl (Or.inl h)
      · rcases List.mem_cons.mp h2 with rfl | h4
        · exact Or.inl (Or.inr h3.symm)
        · exact Or.inr ⟨r2, h4, h3⟩

theorem buildHierarchy_ids (st : State) (rows : List RawRow) (k : String) :
    (k ∈ (buildHierarchy st rows).regions.map Region.name
      ↔ k ∈ (rows.map resolveRow).map Row.regionName) ∧
    (k ∈ (buildHierarchy st rows).feederById.map Feeder.id
      ↔ k ∈ (rows.map resolveRow).map Row.feederId) ∧
    (k ∈ (buildHierarchy st rows).dtById.map DT.id
      ↔ k ∈ (rows.map resolveRow).map Row.dtId) ∧
    (k ∈ (buildHierarchy st rows).meterById.map Meter.id
      ↔ k ∈ (rows.map resolveRow).map Row.meterId) := by
  refine ⟨?_, ?_, ?_, ?_⟩
  · have := foldl_addRow_ids (fun s => s.regions.map Region.name) Row.regionName (by
      intro s r k
      simp only [addRow_regions]
      exact mem_ids_ensureBy_map Region.name r.regionName (newRegion r) s.regions rfl _
        (regionStep_name s r) k) (rows.map resolveRow) (resetState st) k
    simpa [buildHierarchy, resetState] using this
  · have := foldl_addRow_ids (fun s => s.feederById.map Feeder.id) Row.feederId (by
      intro s r k
      simp only [addRow_feederById]
      exact mem_ids_ensureBy_map Feeder.id r.feederId (newFeeder r) s.feederById rfl _
        (feederStep_id s r) k) (rows.map resolveRow) (resetState st) k
    simpa [buildHierarchy, resetState] using this
  · have := foldl_addRow_ids (fun s => s.dtById.map DT.id) Row.dtId (by
      intro s r k
      simp only [addRow_dtById]
      exact mem_ids_ensureBy_map DT.id r.dtId (newDt r) s.dtById rfl _
        (dtStep_id s r) k) (rows.map resolveRow) (resetState st) k
    simpa [buildHierarchy, resetState] using this
  · have := foldl_addRow_ids (fun s => s.meterById.map Meter.id) Row.meterId (by
      intro s r k
      simp only [addRow_meterById]
      have := mem_ids_ensureBy_map Meter.id r.meterId (newMeter r) s.meterById rfl id
        (fun _ => rfl) k
      simpa using this) (rows.map resolveRow) (resetState st) k
    simpa [buildHierarchy, resetState] using this

theorem length_eq_dedup_of_nodup (l1 l2 : List String) (h1 : l1.Nodup)
    (h : ∀ k, k ∈ l1 ↔ k ∈ l2) : l1.length = l2.dedup.length := by
  apply List.Perm.length_eq
  rw [List.perm_ext_iff_of_nodup h1 (List.nodup_dedup l2)]
  intro k
  rw [h k, List.mem_dedup]

theorem getStr_fallback (row : RawRow) (cands : List String) (fallback : String)
    (h : (getVal row cands).isNullish = true) : getStr row cands fallback = fallback := by
  simp [getStr, h]

theorem buildModelFromRows_ids (st : State) (rows : List RawRow) :
    (buildModelFromRows st rows).regions.map Region.name
      = (buildHierarchy st rows).regions.map Region.name ∧
    (buildModelFromRows st rows).feederById.map Feeder.id
      = (buildHierarchy st rows).feederById.map Feeder.id ∧
    (buildModelFromRows st rows).dtById.map DT.id
      = (buildHierarchy st rows).dtById.map DT.id ∧
    (buildModelFromRows st rows).meterById.map Meter.id
      = (buildHierarchy st rows).meterById.map Meter.id := by
  refine ⟨?_, ?_, ?_, ?_⟩
  · rw [buildModelFromRows_regions, List.map_map]; rfl
  · rw [buildModelFromRows_feederById, List.map_map]; rfl
  · rw [buildModelFromRows_dtById, List.map_map]; rfl
  · rw [buildModelFromRows_meterById]

/-- C14: in the built model each identifier maps to one entity: the four lookups have
distinct keys, no feeder id occurs twice across the `feeders` lists of the regions, no
DT id twice across the `dts` lists of the feeders, no meter id twice across the
`meters` lists of the DTs; the numbers of regions, feeders, DTs and meters are the
numbers of distinct resolved region names, feeder ids, DT ids and meter ids of the
input; an identifier whose cell is missing resolves to its placeholder, and the four
resolved identifiers of every row are keys of the lookups. -/
theorem one_entity_per_identifier (st : State) (rows : List RawRow) :
    (((buildModelFromRows st rows).regions.map Region.name).Nodup ∧
      ((buildModelFromRows st rows).feederById.map Feeder.id).Nodup ∧
      ((buildModelFromRows st rows).dtById.map DT.id).Nodup ∧
      ((buildModelFromRows st rows).meterById.map Meter.id).Nodup) ∧
    (((buildModelFromRows st rows).regions.flatMap Region.feeders).Nodup ∧
      ((buildModelFromRows st rows).feederById.flatMap Feeder.dts).Nodup ∧
      (((buildModelFromRows st rows).dtById.flatMap DT.meters).map Meter.id).Nodup) ∧
    ((buildModelFromRows st rows).regions.length
        = ((rows.map resolveRow).map Row.regionName).dedup.length ∧
      (buildModelFromRows st rows).feederById.length
        = ((rows.map resolveRow).map Row.feederId).dedup.length ∧
      (buildModelFromRows st rows).dtById.length
        = ((rows.map resolveRow).map Row.dtId).dedup.length ∧
      (buildModelFromRows st rows).meterById.length
        = ((rows.map resolveRow).map Row.meterId).dedup.length) ∧
    (∀ r : RawRow,
      ((getVal r ["Region Name", "Region", "RegionName"]).isNullish = true →
        (resolveRow r).regionName = "Unknown") ∧
      ((getVal r ["Feeder Code", "FeederId", "Feeder Code.", "Feeder Code ", "Feeder"]).isNullish
          = true → (resolveRow r).feederId = "F-?") ∧
      ((getVal r ["DT Code", "DTId", "DT Code "]).isNullish = true →
        (resolveRow r).dtId = "DT-?") ∧
      ((getVal r ["Meter No", "Meter No.", "Meter Number", "Meter N", "Meter"]).isNullish
          = true → (resolveRow r).meterId = "M-?")) ∧
    (∀ r ∈ rows,
      (resolveRow r).regionName ∈ (buildModelFromRows st rows).regions.map Region.name ∧
      (resolveRow r).feederId ∈ (buildModelFromRows st rows).feederById.map Feeder.id ∧
      (resolveRow r).dtId ∈ (buildModelFromRows st rows).dtById.map DT.id ∧
      (resolveRow r).meterId ∈ (buildModelFromRows st rows).meterById.map Meter.id) ∧
    ((buildModelFromRows State.initial anonymousRows).regions.map
        (fun g => (g.name, g.feeders, g.sla.totalRows)) = [("Unknown", ["F-?"], 2)] ∧
      (buildModelFromRows State.initial anonymousRows).feederById.map
        (fun f => (f.id, f.dts, f.meters.map Meter.id)) = [("F-?", ["DT-?"], ["M-?"])] ∧
      (buildModelFromRows State.initial anonymousRows).dtById.map
        (fun d => (d.id, d.meters.map Meter.id)) = [("DT-?", ["M-?"])] ∧
      (buildModelFromRows State.initial anonymousRows).meterById.map Meter.id = ["M-?"]) := by
  have hwf := WF_buildModelFromRows st rows
  have hids := buildModelFromRows_ids st rows
  have hmem := buildHierarchy_ids st rows
  refine ⟨⟨hwf.regions_nodup, hwf.feeders_nodup, hwf.dts_nodup, hwf.meters_nodup⟩,
    ⟨?_, ?_, ?_⟩, ⟨?_, ?_, ?_, ?_⟩, ?_, ?_, by decide!⟩
  · exact nodup_flatMap_children Region.name Region.feeders Feeder.region Feeder.id _
      hwf.feeders_nodup _ hwf.regions_nodup hwf.region_feeders
  · exact nodup_flatMap_children Feeder.id Feeder.dts DT.feederId DT.id _
      hwf.dts_nodup _ hwf.feeders_nodup hwf.feeder_dts
  · rw [List.map_flatMap]
    apply nodup_flatMap_children DT.id (fun d => d.meters.map Meter.id) Meter.dtId Meter.id _
      hwf.meters_nodup _ hwf.dts_nodup
    intro d hd
    have := hwf.dt_meters d hd
    rw [List.map_id] at this
    show d.meters.map Meter.id = _
    rw [this]
  · have := length_eq_dedup_of_nodup _ ((rows.map resolveRow).map Row.regionName)
      hwf.regions_nodup (fun k => by rw [hids.1]; exact (hmem k).1)
    simpa using this
  · have := length_eq_dedup_of_nodup _ ((rows.map resolveRow).map Row.feederId)
      hwf.feeders_nodup (fun k => by rw [hids.2.1]; exact (hmem k).2.1)
    simpa using this
  · have := length_eq_dedup_of_nodup _ ((rows.map resolveRow).map Row.dtId)
      hwf.dts_nodup (fun k => by rw [hids.2.2.1]; exact (hmem k).2.2.1)
    simpa using this
  · have := length_eq_dedup_of_nodup _ ((rows.map resolveRow).map Row.meterId)
      hwf.meters_nodup (fun k => by rw [hids.2.2.2]; exact (hmem k).2.2.2)
    simpa using this
  · intro r
    exact ⟨getStr_fallback r _ _, getStr_fallback r _ _, getStr_fallback r _ _,
      getStr_fallback r _ _⟩
  · intro r hr
    have hr2 : resolveRow r ∈ rows.map resolveRow := List.mem_map.mpr ⟨r, hr, rfl⟩
    refine ⟨?_, ?_, ?_, ?_⟩
    · rw [hids.1]
      exact (hmem _).1.mpr (List.mem_map.mpr ⟨_, hr2, rfl⟩)
    · rw [hids.2.1]
      exact (hmem _).2.1.mpr (List.mem_map.mpr ⟨_, hr2, rfl⟩)
    · rw [hids.2.2.1]
      exact (hmem _).2.2.1.mpr (List.mem_map.mpr ⟨_, hr2, rfl⟩)
    · rw [hids.2.2.2]
      exact (hmem _).2.2.2.mpr (List.mem_map.mpr ⟨_, hr2, rfl⟩)

theorem foldl_addRow_meter_first (rs : List Row) (s : State) (k : String) :
    lookupBy Meter.id k (rs.foldl addRow s).meterById
      = (lookupBy Meter.id k s.meterById).or
          ((rs.find? (fun r => r.meterId = k)).map newMeter) := by
  induction rs generalizing s with
  | nil => simp
  | cons r rs ih =>
    rw [List.foldl_cons, ih, addRow_meterById,
      lookupBy_ensureBy Meter.id r.meterId (newMeter r) s.meterById rfl, List.find?_cons]
    by_cases hk : k = r.meterId
    · subst hk
      cases hl : lookupBy Meter.id r.meterId s.meterById <;> simp
    · have hk2 : ¬ r.meterId = k := fun h => hk h.symm
      simp [hk, hk2]

/-- C15: the meter entity of a meter id is the object created from the first input row
with that id: its readings, its energy (`diffEnergy` of these readings with
multiplier `1`), its two SLA flags, its `dtId` and its `feederId` are those resolved
from that row, whatever the later rows with the same id carry; the same object sits in
the `meters` list of that DT and of that feeder. -/
theorem meter_from_first_row (st : State) (rows : List RawRow) (k : String) (r : Row)
    (h : (rows.map resolveRow).find? (fun x => x.meterId = k) = some r) :
    ∃ m, lookupBy Meter.id k (buildModelFromRows st rows).meterById = some m ∧
      m.id = k ∧
      m.readings = { day1 := r.meterDay1, day2 := r.meterDay2 } ∧
      m.energy = diffEnergy (JsVal.ofOption r.meterDay1) (JsVal.ofOption r.meterDay2)
        (JsVal.ofRat 1) ∧
      m.sla = { daily := r.dailyEnergyYes, load := r.loadDataYes } ∧
      m.dtId = r.dtId ∧ m.feederId = r.feederId ∧
      (∃ d ∈ (buildModelFromRows st rows).dtById, d.id = r.dtId ∧ m ∈ d.meters) ∧
      (∃ f ∈ (buildModelFromRows st rows).feederById, f.id = r.feederId ∧ m ∈ f.meters) := by
  have hwf := WF_buildModelFromRows st rows
  have hl : lookupBy Meter.id k (buildModelFromRows st rows).meterById = some (newMeter r) := by
    rw [buildModelFromRows_meterById]
    have := foldl_addRow_meter_first (rows.map resolveRow) (resetState st) k
    rw [h] at this
    simpa [buildHierarchy, resetState, lookupBy] using this
  have hk : r.meterId = k := by simpa using List.find?_some h
  have hmem := (lookupBy_some hl).1
  refine ⟨newMeter r, hl, hk, rfl, rfl, rfl, rfl, rfl, ?_, ?_⟩
  · obtain ⟨d, hd, hdid⟩ := hwf.meter_dt _ hmem
    refine ⟨d, hd, hdid, ?_⟩
    rw [hwf.dt_meters d hd, List.map_id]
    exact List.mem_filter.mpr ⟨hmem, by simpa using hdid.symm⟩
  · obtain ⟨f, hf, hfid⟩ := hwf.meter_feeder _ hmem
    refine ⟨f, hf, hfid, ?_⟩
    rw [hwf.feeder_meters f hf, List.map_id]
    exact List.mem_filter.mpr ⟨hmem, by simpa using hfid.symm⟩

/-- Witness for C15: in `duplicateMeterRows` the meter `M1` keeps the readings `0`, `10`,
the energy `10` and the flag daily = Yes of its first row. -/
theorem meter_from_first_row_witness :
    (duplicateMeterRows.map resolveRow).find? (fun x => x.meterId = "M1")
      = some (resolveRow (sampleRow 150 70 "M1" 0 10 "Yes")) ∧
    (resolveRow (sampleRow 150 70 "M1" 0 10 "Yes")).meterDay2 = some 10 ∧
    (resolveRow (sampleRow 150 70 "M1" 0 10 "Yes")).dailyEnergyYes = true ∧
    ∃ m, lookupBy Meter.id "M1" (buildModelFromRows State.initial duplicateMeterRows).meterById
        = some m ∧
      m.id = "M1" ∧
      m.readings = { day1 := (resolveRow (sampleRow 150 70 "M1" 0 10 "Yes")).meterDay1,
                     day2 := (resolveRow (sampleRow 150 70 "M1" 0 10 "Yes")).meterDay2 } ∧
      m.energy = diffEnergy
        (JsVal.ofOption (resolveRow (sampleRow 150 70 "M1" 0 10 "Yes")).meterDay1)
        (JsVal.ofOption (resolveRow (sampleRow 150 70 "M1" 0 10 "Yes")).meterDay2)
        (JsVal.ofRat 1) ∧
      m.sla = { daily := (resolveRow (sampleRow 150 70 "M1" 0 10 "Yes")).dailyEnergyYes,
                load := (resolveRow (sampleRow 150 70 "M1" 0 10 "Yes")).loadDataYes } ∧
      m.dtId = (resolveRow (sampleRow 150 70 "M1" 0 10 "Yes")).dtId ∧
      m.feederId = (resolveRow (sampleRow 150 70 "M1" 0 10 "Yes")).feederId ∧
      (∃ d ∈ (buildModelFromRows State.initial duplicateMeterRows).dtById,
        d.id = (resolveRow (sampleRow 150 70 "M1" 0 10 "Yes")).dtId ∧ m ∈ d.meters) ∧
      (∃ f ∈ (buildModelFromRows State.initial duplicateMeterRows).feederById,
        f.id = (resolveRow (sampleRow 150 70 "M1" 0 10 "Yes")).feederId ∧ m ∈ f.meters) :=
  have h : (duplicateMeterRows.map resolveRow).find? (fun x => x.meterId = "M1")
      = some (resolveRow (sampleRow 150 70 "M1" 0 10 "Yes")) := by decide!
  ⟨h, by decide!, by decide!,
    meter_from_first_row State.initial duplicateMeterRows "M1"
      (resolveRow (sampleRow 150 70 "M1" 0 10 "Yes")) h⟩

/-! ## Row normalizer -/

/-- C16 (evaluation at the failing input): a null (empty) cell in a reading column is read
as `0`, because `Number(null)` is `0` and `getNum` has no null test; with the first-day
feeder reading null and the second-day reading `150` the feeder energy of the row is
`150`, not null.  The same row with the header absent or with an unparsable text
gives null. -/
theorem null_reading_cell_counts_as_zero :
    getNum [("Feeder Day1", .null)] ["Feeder Day1"] none = some 0 ∧
    getNum [("Feeder Day1", .str "")] ["Feeder Day1"] none = some 0 ∧
    (resolveRow (feederDay1Row .null)).feederDay1 = some 0 ∧
    (resolveRow (feederDay1Row .null)).feederEnergy = some 150 ∧
    (resolveRow (feederDay1Row (.str "n/a"))).feederEnergy = none ∧
    (resolveRow ((feederDay1Row .null).filter (fun p => p.1 ≠ "Feeder Day1"))).feederEnergy
      = none := by
  decide!

/-- C17 (evaluation at the failing input): a null multiplier is not replaced by `1`:
`isFinite(null)` holds and `Number(null)` is `0`, so `diffEnergy(100, 150, null) = 0`
while `diffEnergy(100, 150, 1) = 50` (as with the multiplier omitted, NaN or infinite);
likewise a row whose `MF Feeder` cell is null has feeder energy `0`, whereas the same
row with multiplier `1`, or without the column, has `50`. -/
theorem null_multiplier_counts_as_zero :
    diffEnergy (.ofRat 100) (.ofRat 150) .null = some 0 ∧
    diffEnergy (.ofRat 100) (.ofRat 150) (.ofRat 1) = some 50 ∧
    diffEnergy (.ofRat 100) (.ofRat 150) .undefined = some 50 ∧
    diffEnergy (.ofRat 100) (.ofRat 150) (.num .nan) = some 50 ∧
    diffEnergy (.ofRat 100) (.ofRat 150) (.num .posInf) = some 50 ∧
    (resolveRow (feederMfRow .null)).feederMf = some 0 ∧
    (resolveRow (feederMfRow .null)).feederEnergy = some 0 ∧
    (resolveRow (feederMfRow (.ofRat 1))).feederEnergy = some 50 ∧
    (resolveRow ((feederMfRow .null).filter (fun p => p.1 ≠ "MF Feeder"))).feederEnergy
      = some 50 := by
  decide!

theorem startsWithChars_self (cs : List Char) : startsWithChars cs cs = true := by
  induction cs with
  | nil => rfl
  | cons c cs ih => simp [startsWithChars, ih]

theorem jsIncludes_self (s : String) : jsIncludes s s = true := by
  unfold jsIncludes
  cases h : s.data with
  | nil => rfl
  | cons c cs => simp [includesChars, startsWithChars_self]

theorem getVal_append_of_no_match (row : RawRow) (pre cands : List String)
    (hpre : ∀ p ∈ pre, ∀ k ∈ row.map Prod.fst, k ≠ "" →
      jsIncludes (jsToLowerCase k) (jsToLowerCase p) = false) :
    getVal row (pre ++ cands) = getVal row cands := by
  induction pre with
  | nil => rfl
  | cons p pre ih =>
    have hp := hpre p (List.mem_cons_self _ _)
    have h1 : (row.map Prod.fst).find?
        (fun k => decide (k ≠ "") && decide (jsToLowerCase k = jsToLowerCase p)) = none := by
      rw [List.find?_eq_none]
      intro k hk hc
      simp only [Bool.and_eq_true, decide_eq_true_eq] at hc
      have := hp k hk hc.1
      rw [hc.2, jsIncludes_self] at this
      cases this
    have h2 : (row.map Prod.fst).find?
        (fun k => decide (k ≠ "") && jsIncludes (jsToLowerCase k) (jsToLowerCase p)) = none := by
      rw [List.find?_eq_none]
      intro k hk hc
      simp only [Bool.and_eq_true, decide_eq_true_eq] at hc
      rw [hp k hk hc.1] at hc
      cases hc.2
    rw [List.cons_append, getVal]
    simp only [h1, h2, Option.orElse]
    exact ih (fun q hq => hpre q (List.mem_cons_of_mem _ hq))

/-- C18 (as amended): `getVal` goes through the candidates in order; candidates that no
non-empty header contains are passed over; for the first remaining candidate the value
is that of the first non-empty header equal to it (case-insensitively), or, when there
is none, that of the first non-empty header containing it; when no non-empty header
contains it either, the search goes on with the next candidates, and without
candidates left the field is absent. -/
theorem getVal_per_candidate (row : RawRow) (pre : List String) (c : String)
    (post : List String)
    (hpre : ∀ p ∈ pre, ∀ k ∈ row.map Prod.fst, k ≠ "" →
      jsIncludes (jsToLowerCase k) (jsToLowerCase p) = false) :
    (∀ k, (row.map Prod.fst).find?
        (fun k => decide (k ≠ "") && decide (jsToLowerCase k = jsToLowerCase c)) = some k →
      getVal row (pre ++ c :: post) = row.prop k) ∧
    ((row.map Prod.fst).find?
        (fun k => decide (k ≠ "") && decide (jsToLowerCase k = jsToLowerCase c)) = none →
      ∀ k, (row.map Prod.fst).find?
          (fun k => decide (k ≠ "") && jsIncludes (jsToLowerCase k) (jsToLowerCase c)) = some k →
        getVal row (pre ++ c :: post) = row.prop k) ∧
    ((∀ k ∈ row.map Prod.fst, k ≠ "" →
        jsIncludes (jsToLowerCase k) (jsToLowerCase c) = false) →
      getVal row (pre ++ c :: post) = getVal row post) ∧
    getVal row [] = .undefined := by
  refine ⟨?_, ?_, ?_, rfl⟩
  · intro k hk
    rw [getVal_append_of_no_match row pre _ hpre, getVal]
    simp only [hk, Option.orElse]
  · intro hnone k hk
    rw [getVal_append_of_no_match row pre _ hpre, getVal]
    simp only [hnone, hk, Option.orElse]
  · intro hc
    have := getVal_append_of_no_match row (pre ++ [c]) post (by
      intro p hp k hk hne
      rcases List.mem_append.mp hp with h | h
      · exact hpre p h k hk hne
      · simp only [List.mem_singleton] at h
        subst h
        exact hc k hk hne)
    simpa using this

/-- Witness for C18: with the candidates of the region name, the header `Sub Region Name`
contains the first candidate and no header equals it, so its value `A` is returned. -/
theorem getVal_per_candidate_witness :
    (∀ p ∈ ([] : List String), ∀ k ∈ twoRegionHeadersRow.map Prod.fst, k ≠ "" →
      jsIncludes (jsToLowerCase k) (jsToLowerCase p) = false) ∧
    (twoRegionHeadersRow.map Prod.fst).find?
        (fun k => decide (k ≠ "") && decide (jsToLowerCase k = jsToLowerCase "Region Name"))
      = none ∧
    (twoRegionHeadersRow.map Prod.fst).find?
        (fun k => decide (k ≠ "") &&
          jsIncludes (jsToLowerCase k) (jsToLowerCase "Region Name"))
      = some "Sub Region Name" ∧
    getVal twoRegionHeadersRow ([] ++ "Region Name" :: ["Region", "RegionName"])
      = twoRegionHeadersRow.prop "Sub Region Name" :=
  have h0 : ∀ p ∈ ([] : List String), ∀ k ∈ twoRegionHeadersRow.map Prod.fst, k ≠ "" →
      jsIncludes (jsToLowerCase k) (jsToLowerCase p) = false := by
    intro p hp
    cases hp
  have h1 : (twoRegionHeadersRow.map Prod.fst).find?
        (fun k => decide (k ≠ "") && decide (jsToLowerCase k = jsToLowerCase "Region Name"))
      = none := by decide!
  have h2 : (twoRegionHeadersRow.map Prod.fst).find?
        (fun k => decide (k ≠ "") &&
          jsIncludes (jsToLowerCase k) (jsToLowerCase "Region Name"))
      = some "Sub Region Name" := by decide!
  ⟨h0, h1, h2,
    (getVal_per_candidate twoRegionHeadersRow [] "Region Name" ["Region", "RegionName"] h0).2.1
      h1 "Sub Region Name" h2⟩

/-- C18 (counterexample): the header `Region` equals the second candidate, yet `getVal`
returns the value `A` of the header `Sub Region Name`, which only contains the first
candidate, and not the value `B` of the exactly matching header. -/
theorem getVal_substring_before_exact :
    (twoRegionHeadersRow.map Prod.fst).find?
        (fun k => decide (k ≠ "") && decide (jsToLowerCase k = jsToLowerCase "Region"))
      = some "Region" ∧
    twoRegionHeadersRow.prop "Region" = .str "B" ∧
    getVal twoRegionHeadersRow ["Region Name", "Region", "RegionName"] = .str "A" ∧
    getVal twoRegionHeadersRow ["Region Name", "Region", "RegionName"]
      ≠ twoRegionHeadersRow.prop "Region" := by
  decide!

/-- C19: `parseYesNo(v)` is false for null or undefined; otherwise it is true when the
trimmed, lower-cased text of `v` is one of `yes`, `y`, `true`, `1`, false when it is
one of `no`, `n`, `false`, `0`, and the truthiness of `v` for any other text. -/
theorem parseYesNo_spec (v : JsVal) :
    (v.isNullish = true → parseYesNo v = false) ∧
    (v.isNullish = false → yesNoText v ∈ ["yes", "y", "true", "1"] → parseYesNo v = true) ∧
    (v.isNullish = false → yesNoText v ∈ ["no", "n", "false", "0"] → parseYesNo v = false) ∧
    (v.isNullish = false → yesNoText v ∉ ["yes", "y", "true", "1"] →
      yesNoText v ∉ ["no", "n", "false", "0"] → parseYesNo v = v.truthy) ∧
    (parseYesNo .null = false ∧ parseYesNo .undefined = false ∧
      parseYesNo (.str " YES ") = true ∧ parseYesNo (.str "y") = true ∧
      parseYesNo (.bool true) = true ∧ parseYesNo (.num (.fin 1)) = true ∧
      parseYesNo (.str "No") = false ∧ parseYesNo (.str "N") = false ∧
      parseYesNo (.bool false) = false ∧ parseYesNo (.num (.fin 0)) = false ∧
      parseYesNo (.str "maybe") = true ∧ parseYesNo (.str "") = false ∧
      parseYesNo (.num (.fin 2)) = true ∧ parseYesNo (.num .nan) = false) := by
  refine ⟨?_, ?_, ?_, ?_, by decide!⟩
  · intro h
    simp [parseYesNo, h]
  · intro h ht
    simp only [List.mem_cons, List.mem_singleton, List.not_mem_nil, or_false, yesNoText] at ht
    simp [parseYesNo, h, ht]
  · intro h ht
    simp only [List.mem_cons, List.mem_singleton, List.not_mem_nil, or_false, yesNoText] at ht
    have hno : ¬ (jsToLowerCase (jsTrim v.toStr) = "yes" ∨ jsToLowerCase (jsTrim v.toStr) = "y" ∨
        jsToLowerCase (jsTrim v.toStr) = "true" ∨ jsToLowerCase (jsTrim v.toStr) = "1") := by
      rcases ht with h1 | h1 | h1 | h1 <;> rw [h1] <;> decide
    simp [parseYesNo, h, hno, ht]
  · intro h hy hn
    simp only [List.mem_cons, List.mem_singleton, List.not_mem_nil, or_false, yesNoText]
      at hy hn
    simp [parseYesNo, h, hy, hn]

/-! ## Rebuild from scratch -/

theorem addRow_resultsRows_irrelevant (s : State) (rr : List ResultRow) (r : Row) :
    addRow { s with resultsRows := rr } r = { addRow s r with resultsRows := rr } := by
  simp only [addRow, latchEnergies, ensureMeter, ensureDt, ensureFeeder, countRegion,
    ensureRegion, countGlobal]
  repeat' split
  all_goals rfl

theorem foldl_addRow_resultsRows_irrelevant (rs : List Row) (s : State)
    (rr : List ResultRow) :
    rs.foldl addRow { s with resultsRows := rr }
      = { rs.foldl addRow s with resultsRows := rr } := by
  induction rs generalizing s with
  | nil => rfl
  | cons r rs ih => rw [List.foldl_cons, List.foldl_cons, addRow_resultsRows_irrelevant, ih]

theorem buildHierarchy_resultsRows_irrelevant (st : State) (rows : List RawRow) :
    buildHierarchy st rows
      = { buildHierarchy State.initial rows with resultsRows := st.resultsRows } := by
  unfold buildHierarchy
  exact foldl_addRow_resultsRows_irrelevant _ (resetState State.initial) st.resultsRows

theorem buildModelFromRows_initial (st : State) (rows : List RawRow) :
    buildModelFromRows st rows = buildModelFromRows State.initial rows := by
  rw [buildModelFromRows_eq, buildModelFromRows_eq, buildHierarchy_resultsRows_irrelevant st rows]
  rfl

/-- C20: the rebuild starts from scratch: the state after `buildModelFromRows(rows)`
(regions, the three other lookups, the SLA counters, the metrics of every entity and
`resultsRows`) is the same from every prior state, so building twice from the same
rows, or after a build from other rows, gives an identical model and an identical
`resultsRows`. -/
theorem rebuild_depends_only_on_rows (st1 st2 : State) (rows other : List RawRow) :
    buildModelFromRows st1 rows = buildModelFromRows st2 rows ∧
    buildModelFromRows (buildModelFromRows st1 rows) rows = buildModelFromRows st1 rows ∧
    buildModelFromRows (buildModelFromRows st1 other) rows = buildModelFromRows st1 rows ∧
    ((buildModelFromRows (buildModelFromRows State.initial latchRows) scenarioRows).resultsRows
        = (buildModelFromRows State.initial scenarioRows).resultsRows ∧
      (buildModelFromRows State.initial latchRows).resultsRows
        ≠ (buildModelFromRows State.initial scenarioRows).resultsRows) := by
  refine ⟨?_, ?_, ?_, ?_, by decide!⟩
  · rw [buildModelFromRows_initial st1, buildModelFromRows_initial st2]
  · rw [buildModelFromRows_initial (buildModelFromRows st1 rows), buildModelFromRows_initial st1]
  · rw [buildModelFromRows_initial (buildModelFromRows st1 other), buildModelFromRows_initial st1]
  · rw [buildModelFromRows_initial (buildModelFromRows State.initial latchRows)]

/-! ## Bounds of the SLA percentages -/

theorem toFixed2_le_hundred {x : ℚ} (h0 : 0 ≤ x) (h1 : x ≤ 100) : toFixed2 x ≤ 100 := by
  unfold toFixed2
  rw [if_pos h0, div_le_iff₀ (by norm_num : (0 : ℚ) < 100)]
  have h : ⌊x * 100 + 1 / 2⌋ ≤ (10000 : ℤ) := by
    have hlt : ⌊x * 100 + 1 / 2⌋ < (10001 : ℤ) := by
      rw [Int.floor_lt]
      push_cast
      linarith
    omega
  have h2 : ((⌊x * 100 + 1 / 2⌋ : ℤ) : ℚ) ≤ ((10000 : ℤ) : ℚ) := by exact_mod_cast h
  calc ((⌊x * 100 + 1 / 2⌋ : ℤ) : ℚ) ≤ ((10000 : ℤ) : ℚ) := h2
    _ = 100 * 100 := by norm_num

theorem pct_bounds (p w : ℕ) (h : p ≤ w) :
    ∃ q : ℚ, pct (JsVal.ofNat p) (JsVal.ofNat w) = .fin q ∧ 0 ≤ q ∧ q ≤ 100 := by
  by_cases hw : w = 0
  · subst hw
    exact ⟨0, pct_zero _, le_refl _, by norm_num⟩
  · have hwpos : (0 : ℚ) < (w : ℚ) := by
      exact_mod_cast Nat.pos_of_ne_zero hw
    have hw0 : (w : ℚ) ≠ 0 := ne_of_gt hwpos
    have hx0 : (0 : ℚ) ≤ (p : ℚ) / (w : ℚ) := by positivity
    have hx1 : (p : ℚ) / (w : ℚ) ≤ ((1 * 2 ^ 0 : ℕ) : ℚ) := by
      rw [div_le_iff₀ hwpos]
      push_cast
      rw [one_mul]
      exact_mod_cast h
    obtain ⟨r1, e1, h10, h11⟩ :=
      Binary64.roundDouble_bounds _ 1 0 hx0 hx1 (by norm_num) (by norm_num)
    have h11b : r1 ≤ 1 := by simpa using h11
    have hy1 : r1 * 100 ≤ ((100 * 2 ^ 0 : ℕ) : ℚ) := by
      push_cast
      linarith
    obtain ⟨r2, e2, h20, h21⟩ :=
      Binary64.roundDouble_bounds _ 100 0 (by positivity) hy1 (by norm_num) (by norm_num)
    have h21b : r2 ≤ 100 := by simpa using h21
    have hz1 : toFixed2 r2 ≤ ((100 * 2 ^ 0 : ℕ) : ℚ) := by
      have := toFixed2_le_hundred h20 h21b
      simpa using this
    obtain ⟨r3, e3, h30, h31⟩ :=
      Binary64.roundDouble_bounds _ 100 0 (toFixed2_nonneg h20) hz1 (by norm_num) (by norm_num)
    have hbig : ¬ ((10 : ℚ) ^ 21 ≤ r2 ∨ r2 ≤ -10 ^ 21) := by
      intro hcon
      rcases hcon with hc | hc
      · have : (100 : ℚ) < 10 ^ 21 := by norm_num
        linarith
      · have : (0 : ℚ) < 10 ^ 21 := by norm_num
        linarith
    refine ⟨r3, ?_, h30, by simpa using h31⟩
    rw [pct_ofNat p w hw]
    have hd : Binary64.div (.fin (p : ℚ)) (.fin (w : ℚ)) = .fin r1 := by
      unfold Binary64.div
      rw [JsNum.div_fin _ _ hw0]
      exact e1
    have hm : Binary64.mul (.fin r1) (.fin 100) = .fin r2 := by
      unfold Binary64.mul
      rw [JsNum.mul_fin]
      exact e2
    unfold Binary64.percent
    rw [hd, hm]
    show (if (10 : ℚ) ^ 21 ≤ r2 ∨ r2 ≤ -10 ^ 21 then JsNum.fin r2
      else Binary64.roundDouble (toFixed2 r2)) = JsNum.fin r3
    rw [if_neg hbig]
    exact e3

theorem countRows_le (rs : List Row) :
    (countRows rs).dailyYes ≤ (countRows rs).totalRows ∧
    (countRows rs).loadYes ≤ (countRows rs).totalRows :=
  ⟨List.length_filter_le _ _, List.length_filter_le _ _⟩

/-- C22: every SLA percentage produced by `buildModelFromRows` and `computeGlobalTotals`
(daily and load, of every DT, feeder and region and of the global totals) is a finite
number between `0` and `100`. -/
theorem sla_percentages_bounded (st : State) (rows : List RawRow) :
    (∀ d ∈ (buildModelFromRows st rows).dtById, ∃ q1 q2 : ℚ,
      d.metrics.slaDailyPct = some (.fin q1) ∧ 0 ≤ q1 ∧ q1 ≤ 100 ∧
      d.metrics.slaLoadPct = some (.fin q2) ∧ 0 ≤ q2 ∧ q2 ≤ 100) ∧
    (∀ f ∈ (buildModelFromRows st rows).feederById, ∃ q1 q2 : ℚ,
      f.metrics.slaDailyPct = some (.fin q1) ∧ 0 ≤ q1 ∧ q1 ≤ 100 ∧
      f.metrics.slaLoadPct = some (.fin q2) ∧ 0 ≤ q2 ∧ q2 ≤ 100) ∧
    (∀ g ∈ (buildModelFromRows st rows).regions, ∃ q1 q2 : ℚ,
      g.metrics.slaDailyPct = some (.fin q1) ∧ 0 ≤ q1 ∧ q1 ≤ 100 ∧
      g.metrics.slaLoadPct = some (.fin q2) ∧ 0 ≤ q2 ∧ q2 ≤ 100) ∧
    (∃ q1 q2 : ℚ,
      (computeGlobalTotals (buildModelFromRows st rows)).slaDailyPct = .fin q1 ∧
      0 ≤ q1 ∧ q1 ≤ 100 ∧
      (computeGlobalTotals (buildModelFromRows st rows)).slaLoadPct = .fin q2 ∧
      0 ≤ q2 ∧ q2 ≤ 100) ∧
    (pct (JsVal.ofNat 0) (JsVal.ofNat 0) = .fin 0 ∧
      pct (JsVal.ofNat 3) (JsVal.ofNat 3) = .fin 100 ∧
      pct (JsVal.ofNat 2) (JsVal.ofNat 3) = Binary64.roundDouble (6667 / 100)) := by
  refine ⟨?_, ?_, ?_, ?_, by decide!⟩
  · intro d hd
    rw [buildModelFromRows_dtById] at hd
    obtain ⟨d0, -, rfl⟩ := List.mem_map.mp hd
    obtain ⟨q1, h1, h2, h3⟩ := pct_bounds (d0.meters.filter (fun m => m.sla.daily)).length
      d0.meters.length (List.length_filter_le _ _)
    obtain ⟨q2, h4, h5, h6⟩ := pct_bounds (d0.meters.filter (fun m => m.sla.load)).length
      d0.meters.length (List.length_filter_le _ _)
    exact ⟨q1, q2, congrArg some h1, h2, h3, congrArg some h4, h5, h6⟩
  · intro f hf
    rw [buildModelFromRows_feederById] at hf
    obtain ⟨f0, -, rfl⟩ := List.mem_map.mp hf
    obtain ⟨q1, h1, h2, h3⟩ := pct_bounds (f0.meters.filter (fun m => m.sla.daily)).length
      f0.meters.length (List.length_filter_le _ _)
    obtain ⟨q2, h4, h5, h6⟩ := pct_bounds (f0.meters.filter (fun m => m.sla.load)).length
      f0.meters.length (List.length_filter_le _ _)
    exact ⟨q1, q2, congrArg some h1, h2, h3, congrArg some h4, h5, h6⟩
  · intro g hg
    rw [buildModelFromRows_regions] at hg
    obtain ⟨g0, hg0, rfl⟩ := List.mem_map.mp hg
    have hsla := (buildHierarchy_region_sla st rows).1 g0 hg0
    have hle := countRows_le (rowsOfRegion rows g0.name)
    rw [← hsla] at hle
    obtain ⟨q1, h1, h2, h3⟩ := pct_bounds g0.sla.dailyYes g0.sla.totalRows hle.1
    obtain ⟨q2, h4, h5, h6⟩ := pct_bounds g0.sla.loadYes g0.sla.totalRows hle.2
    exact ⟨q1, q2, congrArg some h1, h2, h3, congrArg some h4, h5, h6⟩
  · have hg := buildHierarchy_slaGlobal st rows
    have hle := countRows_le (rows.map resolveRow)
    rw [← hg, ← buildModelFromRows_slaGlobal] at hle
    obtain ⟨q1, h1, h2, h3⟩ := pct_bounds _ _ hle.1
    obtain ⟨q2, h4, h5, h6⟩ := pct_bounds _ _ hle.2
    refine ⟨q1, q2, ?_, h2, h3, ?_, h5, h6⟩
    · rw [(computeGlobalTotals_sla _).1, h1]
    · rw [(computeGlobalTotals_sla _).2, h4]

/-! ## Rollups read off the lookups -/

theorem filter_map_core {α γ : Type} (core : α → γ) (p : γ → Bool) (φ : γ → ℚ) (L : List α) :
    ((L.filter (fun x => p (core x))).map (fun x => φ (core x)))
      = ((L.map core).filter p).map φ := by
  rw [List.filter_map, List.map_map]
  rfl

theorem dtEnergyOrSum_eq_dtValue (s : State) (h : WF s) (d : DT) (hd : d ∈ s.dtById) :
    dtEnergyOrSum d = dtValue (s.meterById.map Meter.core) d.core := by
  unfold dtEnergyOrSum sumMeterEnergy dtValue
  rw [sum_eq_listSum, h.dt_meters d hd, List.map_id]
  have := filter_map_core Meter.core (fun m => decide (m.2.1 = d.id)) (fun m => m.2.2.2.getD 0)
    s.meterById
  simp only [Meter.core] at this
  simp only [DT.core]
  rw [← this]

theorem sumDTEnergy_eq_feederDtValue (s : State) (h : WF s) (f : Feeder)
    (hf : f ∈ s.feederById) :
    sumDTEnergy s f
      = feederDtValue (s.dtById.map DT.core) (s.meterById.map Meter.core) f.id := by
  unfold sumDTEnergy feederDtValue
  rw [sum_eq_listSum, h.feeder_dts f hf, deref_filter DT.id _ h.dts_nodup]
  have := filter_map_core DT.core (fun d => decide (d.2.1 = f.id))
    (dtValue (s.meterById.map Meter.core)) s.dtById
  simp only [DT.core] at this
  rw [← this]
  congr 1
  apply List.map_congr_left
  intro d hd
  exact dtEnergyOrSum_eq_dtValue s h d (List.mem_filter.mp hd).1

theorem feederEnergyOrSum_eq_feederValue (s : State) (h : WF s) (f : Feeder)
    (hf : f ∈ s.feederById) :
    feederEnergyOrSum s f
      = feederValue (s.dtById.map DT.core) (s.meterById.map Meter.core) f.core := by
  unfold feederEnergyOrSum feederValue
  rw [sumDTEnergy_eq_feederDtValue s h f hf]
  rfl

theorem feeder_consumer_eq_value (s : State) (h : WF s) (f : Feeder)
    (hf : f ∈ s.feederById) :
    sum (f.meters.map (fun m => m.energy.getD 0))
      = feederConsumerValue (s.meterById.map Meter.core) f.id := by
  unfold feederConsumerValue
  rw [sum_eq_listSum, h.feeder_meters f hf, List.map_id]
  have := filter_map_core Meter.core (fun m => decide (m.2.2.1 = f.id))
    (fun m => m.2.2.2.getD 0) s.meterById
  simp only [Meter.core] at this
  rw [← this]

theorem regionMetrics_eq_regionRollup (s : State) (h : WF s) (g : Region) (hg : g ∈ s.regions) :
    ((regionMetrics s g).feederEnergy, (regionMetrics s g).dtEnergy,
        (regionMetrics s g).consumerEnergy)
      = (some (regionRollup (s.feederById.map Feeder.core) (s.dtById.map DT.core)
            (s.meterById.map Meter.core) g.name).1,
         some (regionRollup (s.feederById.map Feeder.core) (s.dtById.map DT.core)
            (s.meterById.map Meter.core) g.name).2.1,
         some (regionRollup (s.feederById.map Feeder.core) (s.dtById.map DT.core)
            (s.meterById.map Meter.core) g.name).2.2) := by
  have hder : deref Feeder.id s.feederById g.feeders
      = s.feederById.filter (fun f => f.region = g.name) := by
    rw [h.region_feeders g hg, deref_filter Feeder.id _ h.feeders_nodup]
  have hmem : ∀ f ∈ s.feederById.filter (fun f => f.region = g.name), f ∈ s.feederById :=
    fun f hf => (List.mem_filter.mp hf).1
  have e1 := filter_map_core Feeder.core (fun f => decide (f.2.1 = g.name))
    (feederValue (s.dtById.map DT.core) (s.meterById.map Meter.core)) s.feederById
  have e2 := filter_map_core Feeder.core (fun f => decide (f.2.1 = g.name))
    (fun f => feederDtValue (s.dtById.map DT.core) (s.meterById.map Meter.core) f.1)
    s.feederById
  have e3 := filter_map_core Feeder.core (fun f => decide (f.2.1 = g.name))
    (fun f => feederConsumerValue (s.meterById.map Meter.core) f.1) s.feederById
  simp only [Feeder.core] at e1 e2 e3
  simp only [regionMetrics, regionRollup, hder, Prod.mk.injEq, Option.some.injEq]
  refine ⟨?_, ?_, ?_⟩
  · rw [sum_eq_listSum, ← e1]
    congr 1
    apply List.map_congr_left
    intro f hf
    exact feederEnergyOrSum_eq_feederValue s h f (hmem f hf)
  · rw [deref_flatMap, List.map_flatMap]
    have := sum_flatMap_map (s.feederById.filter (fun f => f.region = g.name))
      (fun f => (deref DT.id s.dtById f.dts).map dtEnergyOrSum) id
    simp only [List.map_id] at this
    rw [this, sum_eq_listSum, ← e2]
    congr 1
    apply List.map_congr_left
    intro f hf
    exact sumDTEnergy_eq_feederDtValue s h f (hmem f hf)
  · rw [sum_flatMap_map, sum_eq_listSum, ← e3]
    congr 1
    apply List.map_congr_left
    intro f hf
    exact feeder_consumer_eq_value s h f (hmem f hf)

/-! ## Row-order invariance -/

theorem sum_filter_map_perm {γ : Type} {L1 L2 : List γ} (hp : L1.Perm L2) (p : γ → Bool)
    (φ : γ → ℚ) : ((L1.filter p).map φ).sum = ((L2.filter p).map φ).sum :=
  ((hp.filter p).map φ).sum_eq

theorem dtValue_perm {M1 M2 : List (String × String × String × Option ℚ)} (hM : M1.Perm M2)
    (d : String × String × Option ℚ) : dtValue M1 d = dtValue M2 d := by
  unfold dtValue
  rw [sum_filter_map_perm hM]

theorem feederDtValue_perm {D1 D2 : List (String × String × Option ℚ)}
    {M1 M2 : List (String × String × String × Option ℚ)} (hD : D1.Perm D2) (hM : M1.Perm M2)
    (k : String) : feederDtValue D1 M1 k = feederDtValue D2 M2 k := by
  unfold feederDtValue
  have hfun : dtValue M1 = dtValue M2 := funext (dtValue_perm hM)
  rw [hfun, sum_filter_map_perm hD]

theorem regionRollup_perm {F1 F2 D1 D2 : List (String × String × Option ℚ)}
    {M1 M2 : List (String × String × String × Option ℚ)}
    (hF : F1.Perm F2) (hD : D1.Perm D2) (hM : M1.Perm M2) (name : String) :
    regionRollup F1 D1 M1 name = regionRollup F2 D2 M2 name := by
  unfold regionRollup
  have h1 : feederValue D1 M1 = feederValue D2 M2 := by
    funext f
    unfold feederValue
    rw [feederDtValue_perm hD hM]
  have h2 : (fun f : String × String × Option ℚ => feederDtValue D1 M1 f.1)
      = (fun f => feederDtValue D2 M2 f.1) := by
    funext f
    exact feederDtValue_perm hD hM f.1
  have h3 : (fun f : String × String × Option ℚ => feederConsumerValue M1 f.1)
      = (fun f => feederConsumerValue M2 f.1) := by
    funext f
    unfold feederConsumerValue
    rw [sum_filter_map_perm hM]
  rw [h1, h2, h3, sum_filter_map_perm hF, sum_filter_map_perm hF, sum_filter_map_perm hF]

theorem countRows_perm {rs1 rs2 : List Row} (hp : rs1.Perm rs2) :
    countRows rs1 = countRows rs2 := by
  unfold countRows
  rw [hp.length_eq, (hp.filter _).length_eq, (hp.filter _).length_eq]

/-- Every object of a lookup goes back to a row seen so far. -/
theorem foldl_addRow_origin {α : Type} (proj : State → List α) (P : α → Row → Prop)
    (hstep : ∀ s r x, x ∈ proj (addRow s r) → (∃ y ∈ proj s, ∀ r2, P y r2 → P x r2) ∨ P x r)
    (rs : List Row) :
    ∀ s, (proj s = []) → ∀ x ∈ proj (rs.foldl addRow s), ∃ r ∈ rs, P x r := by
  have key : ∀ (rs : List Row) (s : State) (c : List Row),
      (∀ x ∈ proj s, ∃ r ∈ c, P x r) →
      ∀ x ∈ proj (rs.foldl addRow s), ∃ r ∈ c ++ rs, P x r := by
    intro rs
    induction rs with
    | nil => intro s c h x hx; simpa using h x hx
    | cons r rs ih =>
      intro s c h x hx
      have := ih (addRow s r) (c ++ [r]) (by
        intro y hy
        rcases hstep s r y hy with ⟨z, hz, hzy⟩ | hP
        · obtain ⟨r0, hr0, hP0⟩ := h z hz
          exact ⟨r0, List.mem_append_left _ hr0, hzy r0 hP0⟩
        · exact ⟨r, by simp, hP⟩) x hx
      simpa using this
  intro s hs x hx
  have := key rs s [] (by rw [hs]; intro y hy; cases hy) x hx
  simpa using this

theorem buildHierarchy_origin (st : State) (rows : List RawRow) :
    (∀ f ∈ (buildHierarchy st rows).feederById, ∃ r ∈ rows.map resolveRow,
      r.feederId = f.id ∧ r.regionName = f.region) ∧
    (∀ d ∈ (buildHierarchy st rows).dtById, ∃ r ∈ rows.map resolveRow,
      r.dtId = d.id ∧ r.feederId = d.feederId) ∧
    (∀ m ∈ (buildHierarchy st rows).meterById, ∃ r ∈ rows.map resolveRow, m = newMeter r) := by
  refine ⟨?_, ?_, ?_⟩
  · apply foldl_addRow_origin (fun s => s.feederById)
      (fun f r => r.feederId = f.id ∧ r.regionName = f.region) _ _ _ rfl
    intro s r x hx
    replace hx : x ∈ (addRow s r).feederById := hx
    show (∃ y ∈ s.feederById, ∀ r2 : Row, (r2.feederId = y.id ∧ r2.regionName = y.region) →
      (r2.feederId = x.id ∧ r2.regionName = x.region)) ∨ (r.feederId = x.id ∧ r.regionName = x.region)
    rw [addRow_feederById] at hx
    obtain ⟨y, hy, rfl⟩ := List.mem_map.mp hx
    rcases mem_ensureBy.mp hy with h | ⟨rfl, _⟩
    · exact Or.inl ⟨y, h, fun r2 h2 => by simpa using h2⟩
    · exact Or.inr (by simp [newFeeder])
  · apply foldl_addRow_origin (fun s => s.dtById)
      (fun d r => r.dtId = d.id ∧ r.feederId = d.feederId) _ _ _ rfl
    intro s r x hx
    replace hx : x ∈ (addRow s r).dtById := hx
    show (∃ y ∈ s.dtById, ∀ r2 : Row, (r2.dtId = y.id ∧ r2.feederId = y.feederId) →
      (r2.dtId = x.id ∧ r2.feederId = x.feederId)) ∨ (r.dtId = x.id ∧ r.feederId = x.feederId)
    rw [addRow_dtById] at hx
    obtain ⟨y, hy, rfl⟩ := List.mem_map.mp hx
    rcases mem_ensureBy.mp hy with h | ⟨rfl, _⟩
    · exact Or.inl ⟨y, h, fun r2 h2 => by simpa using h2⟩
    · exact Or.inr (by simp [newDt])
  · apply foldl_addRow_origin (fun s => s.meterById) (fun m r => m = newMeter r) _ _ _ rfl
    intro s r x hx
    replace hx : x ∈ (addRow s r).meterById := hx
    show (∃ y ∈ s.meterById, ∀ r2 : Row, y = newMeter r2 → x = newMeter r2) ∨ x = newMeter r
    rw [addRow_meterById] at hx
    rcases mem_ensureBy.mp hx with h | ⟨rfl, _⟩
    · exact Or.inl ⟨x, h, fun r2 h2 => h2⟩
    · exact Or.inr rfl

theorem perm_of_nodup_key {γ : Type} (key : γ → String) {l1 l2 : List γ}
    (h1 : (l1.map key).Nodup) (h2 : (l2.map key).Nodup) (h : ∀ x, x ∈ l1 ↔ x ∈ l2) :
    l1.Perm l2 :=
  (List.perm_ext_iff_of_nodup (List.Nodup.of_map key h1) (List.Nodup.of_map key h2)).mpr h

/-- When the rows of one feeder agree on region and computed feeder energy, a feeder of
the hierarchy carries the data of every row that names it. -/
theorem hierarchy_feeder_core (st : State) (rows : List RawRow)
    (hF : ∀ r ∈ rows.map resolveRow, ∀ r2 ∈ rows.map resolveRow,
      r.feederId = r2.feederId → r.feederCore = r2.feederCore) :
    ∀ f ∈ (buildHierarchy st rows).feederById, ∀ r ∈ rows.map resolveRow,
      r.feederId = f.id → f.core = r.feederCore := by
  intro f hf r hr hid
  obtain ⟨r0, hr0, h0id, h0reg⟩ := (buildHierarchy_origin st rows).1 f hf
  have hagree := hF r hr r0 hr0 (hid.trans h0id.symm)
  have hen : f.metrics.feederEnergy = r.feederEnergy := by
    rw [hierarchy_feeder_energy st rows f hf]
    unfold latchedFeederEnergy
    cases hfind : (rows.map resolveRow).find?
        (fun x => decide (x.feederId = f.id) && x.feederEnergy.isSome) with
    | none =>
      have := List.find?_eq_none.mp hfind r hr
      simp only [hid, decide_True, Bool.true_and, Bool.not_eq_true, Option.not_isSome,
        Option.isNone_iff_eq_none] at this
      simp [this]
    | some r1 =>
      have hm := List.mem_of_find?_eq_some hfind
      have hp := List.find?_some hfind
      simp only [Bool.and_eq_true, decide_eq_true_eq] at hp
      have := hF r1 hm r hr (hp.1.trans hid.symm)
      simp only [Row.feederCore, Prod.mk.injEq] at this
      simpa using this.2.2
  simp only [Row.feederCore, Prod.mk.injEq] at hagree
  simp only [Feeder.core, Row.feederCore, Prod.mk.injEq]
  exact ⟨hid.symm, by rw [← h0reg, hagree.2.1], hen⟩

/-- When the rows of one DT agree on feeder id and computed DT energy, a DT of the
hierarchy carries the data of every row that names it. -/
theorem hierarchy_dt_core (st : State) (rows : List RawRow)
    (hD : ∀ r ∈ rows.map resolveRow, ∀ r2 ∈ rows.map resolveRow,
      r.dtId = r2.dtId → r.dtCore = r2.dtCore) :
    ∀ d ∈ (buildHierarchy st rows).dtById, ∀ r ∈ rows.map resolveRow,
      r.dtId = d.id → d.core = r.dtCore := by
  intro d hd r hr hid
  obtain ⟨r0, hr0, h0id, h0f⟩ := (buildHierarchy_origin st rows).2.1 d hd
  have hagree := hD r hr r0 hr0 (hid.trans h0id.symm)
  have hen : d.metrics.dtEnergy = r.dtEnergy := by
    rw [hierarchy_dt_energy st rows d hd]
    unfold latchedDtEnergy
    cases hfind : (rows.map resolveRow).find?
        (fun x => decide (x.dtId = d.id) && x.dtEnergy.isSome) with
    | none =>
      have := List.find?_eq_none.mp hfind r hr
      simp only [hid, decide_True, Bool.true_and, Bool.not_eq_true, Option.not_isSome,
        Option.isNone_iff_eq_none] at this
      simp [this]
    | some r1 =>
      have hm := List.mem_of_find?_eq_some hfind
      have hp := List.find?_some hfind
      simp only [Bool.and_eq_true, decide_eq_true_eq] at hp
      have := hD r1 hm r hr (hp.1.trans hid.symm)
      simp only [Row.dtCore, Prod.mk.injEq] at this
      simpa using this.2.2
  simp only [Row.dtCore, Prod.mk.injEq] at hagree
  simp only [DT.core, Row.dtCore, Prod.mk.injEq]
  exact ⟨hid.symm, by rw [← h0f, hagree.2.1], hen⟩

/-- When the rows of one meter agree on DT, feeder and meter energy, a meter of the
hierarchy carries the data of every row that names it. -/
theorem hierarchy_meter_core (st : State) (rows : List RawRow)
    (hM : ∀ r ∈ rows.map resolveRow, ∀ r2 ∈ rows.map resolveRow,
      r.meterId = r2.meterId → r.meterCore = r2.meterCore) :
    ∀ m ∈ (buildHierarchy st rows).meterById, ∀ r ∈ rows.map resolveRow,
      r.meterId = m.id → m.core = r.meterCore := by
  intro m hm r hr hid
  obtain ⟨r0, hr0, rfl⟩ := (buildHierarchy_origin st rows).2.2 m hm
  have hagree := hM r hr r0 hr0 hid
  rw [hagree]
  rfl

/-- The data read off a lookup is the data of the rows, whatever their order. -/
theorem core_mem_iff {α γ : Type} (L : List α) (R : List Row) (key : α → String)
    (core : α → γ) (rk : Row → String) (rc : Row → γ)
    (hids : ∀ k, k ∈ L.map key ↔ k ∈ R.map rk)
    (hcore : ∀ x ∈ L, ∀ r ∈ R, rk r = key x → core x = rc r) (c : γ) :
    c ∈ L.map core ↔ c ∈ R.map rc := by
  constructor
  · intro hc
    obtain ⟨x, hx, rfl⟩ := List.mem_map.mp hc
    obtain ⟨r, hr, hrk⟩ := List.mem_map.mp ((hids (key x)).mp (List.mem_map_of_mem key hx))
    exact List.mem_map.mpr ⟨r, hr, (hcore x hx r hr hrk).symm⟩
  · intro hc
    obtain ⟨r, hr, rfl⟩ := List.mem_map.mp hc
    obtain ⟨x, hx, hxk⟩ := List.mem_map.mp ((hids (rk r)).mpr (List.mem_map_of_mem rk hr))
    exact List.mem_map.mpr ⟨x, hx, hcore x hx r hr hxk.symm⟩

theorem hierarchy_cores_perm (st1 st2 : State) (rows1 rows2 : List RawRow)
    (hp : rows1.Perm rows2)
    (hF : ∀ r ∈ rows1.map resolveRow, ∀ r2 ∈ rows1.map resolveRow,
      r.feederId = r2.feederId → r.feederCore = r2.feederCore)
    (hD : ∀ r ∈ rows1.map resolveRow, ∀ r2 ∈ rows1.map resolveRow,
      r.dtId = r2.dtId → r.dtCore = r2.dtCore)
    (hM : ∀ r ∈ rows1.map resolveRow, ∀ r2 ∈ rows1.map resolveRow,
      r.meterId = r2.meterId → r.meterCore = r2.meterCore) :
    ((buildHierarchy st1 rows1).feederById.map Feeder.core).Perm
        ((buildHierarchy st2 rows2).feederById.map Feeder.core) ∧
    ((buildHierarchy st1 rows1).dtById.map DT.core).Perm
        ((buildHierarchy st2 rows2).dtById.map DT.core) ∧
    ((buildHierarchy st1 rows1).meterById.map Meter.core).Perm
        ((buildHierarchy st2 rows2).meterById.map Meter.core) := by
  have hmem : ∀ r, r ∈ rows1.map resolveRow ↔ r ∈ rows2.map resolveRow :=
    fun r => (hp.map resolveRow).mem_iff
  have hF2 : ∀ r ∈ rows2.map resolveRow, ∀ r2 ∈ rows2.map resolveRow,
      r.feederId = r2.feederId → r.feederCore = r2.feederCore :=
    fun r hr r2 hr2 => hF r ((hmem r).mpr hr) r2 ((hmem r2).mpr hr2)
  have hD2 : ∀ r ∈ rows2.map resolveRow, ∀ r2 ∈ rows2.map resolveRow,
      r.dtId = r2.dtId → r.dtCore = r2.dtCore :=
    fun r hr r2 hr2 => hD r ((hmem r).mpr hr) r2 ((hmem r2).mpr hr2)
  have hM2 : ∀ r ∈ rows2.map resolveRow, ∀ r2 ∈ rows2.map resolveRow,
      r.meterId = r2.meterId → r.meterCore = r2.meterCore :=
    fun r hr r2 hr2 => hM r ((hmem r).mpr hr) r2 ((hmem r2).mpr hr2)
  refine ⟨?_, ?_, ?_⟩
  · apply perm_of_nodup_key Prod.fst
    · rw [List.map_map]; exact (WF_buildHierarchy st1 rows1).feeders_nodup
    · rw [List.map_map]; exact (WF_buildHierarchy st2 rows2).feeders_nodup
    · intro c
      rw [core_mem_iff _ (rows1.map resolveRow) Feeder.id Feeder.core Row.feederId
          Row.feederCore (fun k => (buildHierarchy_ids st1 rows1 k).2.1)
          (hierarchy_feeder_core st1 rows1 hF) c,
        core_mem_iff _ (rows2.map resolveRow) Feeder.id Feeder.core Row.feederId
          Row.feederCore (fun k => (buildHierarchy_ids st2 rows2 k).2.1)
          (hierarchy_feeder_core st2 rows2 hF2) c]
      exact ((hp.map resolveRow).map Row.feederCore).mem_iff
  · apply perm_of_nodup_key Prod.fst
    · rw [List.map_map]; exact (WF_buildHierarchy st1 rows1).dts_nodup
    · rw [List.map_map]; exact (WF_buildHierarchy st2 rows2).dts_nodup
    · intro c
      rw [core_mem_iff _ (rows1.map resolveRow) DT.id DT.core Row.dtId
          Row.dtCore (fun k => (buildHierarchy_ids st1 rows1 k).2.2.1)
          (hierarchy_dt_core st1 rows1 hD) c,
        core_mem_iff _ (rows2.map resolveRow) DT.id DT.core Row.dtId
          Row.dtCore (fun k => (buildHierarchy_ids st2 rows2 k).2.2.1)
          (hierarchy_dt_core st2 rows2 hD2) c]
      exact ((hp.map resolveRow).map Row.dtCore).mem_iff
  · apply perm_of_nodup_key Prod.fst
    · rw [List.map_map]; exact (WF_buildHierarchy st1 rows1).meters_nodup
    · rw [List.map_map]; exact (WF_buildHierarchy st2 rows2).meters_nodup
    · intro c
      rw [core_mem_iff _ (rows1.map resolveRow) Meter.id Meter.core Row.meterId
          Row.meterCore (fun k => (buildHierarchy_ids st1 rows1 k).2.2.2)
          (hierarchy_meter_core st1 rows1 hM) c,
        core_mem_iff _ (rows2.map resolveRow) Meter.id Meter.core Row.meterId
          Row.meterCore (fun k => (buildHierarchy_ids st2 rows2 k).2.2.2)
          (hierarchy_meter_core st2 rows2 hM2) c]
      exact ((hp.map resolveRow).map Row.meterCore).mem_iff

/-- The rollups of the region looked up by name in the built model. -/
theorem final_region_rollups (st : State) (rows : List RawRow) (k : String) :
    (lookupBy Region.name k (buildModelFromRows st rows).regions).map Region.rollups
      = if k ∈ (rows.map resolveRow).map Row.regionName then
          some (some (regionRollup ((buildHierarchy st rows).feederById.map Feeder.core)
                  ((buildHierarchy st rows).dtById.map DT.core)
                  ((buildHierarchy st rows).meterById.map Meter.core) k).1,
                some (regionRollup ((buildHierarchy st rows).feederById.map Feeder.core)
                  ((buildHierarchy st rows).dtById.map DT.core)
                  ((buildHierarchy st rows).meterById.map Meter.core) k).2.1,
                some (regionRollup ((buildHierarchy st rows).feederById.map Feeder.core)
                  ((buildHierarchy st rows).dtById.map DT.core)
                  ((buildHierarchy st rows).meterById.map Meter.core) k).2.2)
        else none := by
  rw [buildModelFromRows_regions, lookupBy_map Region.name k
    (fun g => { g with metrics := regionMetrics (buildHierarchy st rows) g }) (fun _ => rfl)]
  cases hl : lookupBy Region.name k (buildHierarchy st rows).regions with
  | none =>
    have hnot : k ∉ (rows.map resolveRow).map Row.regionName := by
      rw [← (buildHierarchy_ids st rows k).1]
      intro hk
      obtain ⟨g, hg, hgk⟩ := List.mem_map.mp hk
      exact (lookupBy_eq_none_iff Region.name k _).mp hl g hg hgk
    rw [if_neg hnot]
    rfl
  | some g =>
    obtain ⟨hg, hgk⟩ := lookupBy_some hl
    have hin : k ∈ (rows.map resolveRow).map Row.regionName := by
      rw [← (buildHierarchy_ids st rows k).1]
      exact List.mem_map.mpr ⟨g, hg, hgk⟩
    rw [if_pos hin]
    have := regionMetrics_eq_regionRollup (buildHierarchy st rows) (WF_buildHierarchy st rows)
      g hg
    rw [hgk] at this
    simp only [Option.map_some', Region.rollups]
    rw [this]

/-- The counters of the region looked up by name in the built model. -/
theorem final_region_sla (st : State) (rows : List RawRow) (k : String) :
    (lookupBy Region.name k (buildModelFromRows st rows).regions).map Region.sla
      = if k ∈ (rows.map resolveRow).map Row.regionName then
          some (countRows (rowsOfRegion rows k))
        else none := by
  cases hl : lookupBy Region.name k (buildModelFromRows st rows).regions with
  | none =>
    have hnot : k ∉ (rows.map resolveRow).map Row.regionName := by
      rw [← (buildHierarchy_ids st rows k).1, ← (buildModelFromRows_ids st rows).1]
      intro hk
      obtain ⟨g, hg, hgk⟩ := List.mem_map.mp hk
      exact (lookupBy_eq_none_iff Region.name k _).mp hl g hg hgk
    rw [if_neg hnot]
    rfl
  | some g =>
    obtain ⟨hg, hgk⟩ := lookupBy_some hl
    have hin : k ∈ (rows.map resolveRow).map Row.regionName := by
      rw [← (buildHierarchy_ids st rows k).1, ← (buildModelFromRows_ids st rows).1]
      exact List.mem_map.mpr ⟨g, hg, hgk⟩
    rw [if_pos hin, Option.map_some', buildModelFromRows_region_sla st rows g hg, hgk]

/-- The global energy sums as sums of the region rollups over the region names. -/
theorem globalEnergySums_eq (st : State) (rows : List RawRow) :
    globalEnergySums (buildModelFromRows st rows)
      = ((((buildHierarchy st rows).regions.map Region.name).map
            (fun k => (regionRollup ((buildHierarchy st rows).feederById.map Feeder.core)
              ((buildHierarchy st rows).dtById.map DT.core)
              ((buildHierarchy st rows).meterById.map Meter.core) k).1)).sum,
         (((buildHierarchy st rows).regions.map Region.name).map
            (fun k => (regionRollup ((buildHierarchy st rows).feederById.map Feeder.core)
              ((buildHierarchy st rows).dtById.map DT.core)
              ((buildHierarchy st rows).meterById.map Meter.core) k).2.1)).sum,
         (((buildHierarchy st rows).regions.map Region.name).map
            (fun k => (regionRollup ((buildHierarchy st rows).feederById.map Feeder.core)
              ((buildHierarchy st rows).dtById.map DT.core)
              ((buildHierarchy st rows).meterById.map Meter.core) k).2.2)).sum) := by
  have key : ∀ g ∈ (buildHierarchy st rows).regions,
      ((regionMetrics (buildHierarchy st rows) g).feederEnergy.getD 0,
       (regionMetrics (buildHierarchy st rows) g).dtEnergy.getD 0,
       (regionMetrics (buildHierarchy st rows) g).consumerEnergy.getD 0)
      = regionRollup ((buildHierarchy st rows).feederById.map Feeder.core)
          ((buildHierarchy st rows).dtById.map DT.core)
          ((buildHierarchy st rows).meterById.map Meter.core) g.name := by
    intro g hg
    have := regionMetrics_eq_regionRollup (buildHierarchy st rows) (WF_buildHierarchy st rows)
      g hg
    simp only [Prod.mk.injEq] at this
    rw [this.1, this.2.1, this.2.2]
    rfl
  unfold globalEnergySums
  rw [buildModelFromRows_regions]
  simp only [sum_eq_listSum, List.map_map, Prod.mk.injEq]
  refine ⟨?_, ?_, ?_⟩
  · congr 1
    apply List.map_congr_left
    intro g hg
    have := key g hg
    simp only [Function.comp]
    rw [← this]
  · congr 1
    apply List.map_congr_left
    intro g hg
    have := key g hg
    simp only [Function.comp]
    rw [← this]
  · congr 1
    apply List.map_congr_left
    intro g hg
    have := key g hg
    simp only [Function.comp]
    rw [← this]

theorem hierarchy_region_names_perm (st1 st2 : State) (rows1 rows2 : List RawRow)
    (hp : rows1.Perm rows2) :
    ((buildHierarchy st1 rows1).regions.map Region.name).Perm
      ((buildHierarchy st2 rows2).regions.map Region.name) := by
  apply (List.perm_ext_iff_of_nodup (WF_buildHierarchy st1 rows1).regions_nodup
    (WF_buildHierarchy st2 rows2).regions_nodup).mpr
  intro k
  rw [(buildHierarchy_ids st1 rows1 k).1, (buildHierarchy_ids st2 rows2 k).1]
  exact ((hp.map resolveRow).map Row.regionName).mem_iff

/-- C21 (as amended): for a row sequence `rows1` and any permutation `rows2` of it, the
global `totalRows`/`dailyYes`/`loadYes` counters and the counters of the region looked
up under each name are identical; and when the rows that share a feeder id agree on
region name and computed feeder energy, the rows that share a DT id agree on feeder id
and computed DT energy, and the rows that share a meter id agree on DT id, feeder id
and meter energy, then the `feederEnergy`, `dtEnergy` and `consumerEnergy` of the region
looked up under each name, the three energy sums over the regions formed by
`computeGlobalTotals` and its three loss values are identical too (sums taken in exact
arithmetic). -/
theorem rollups_row_order_invariant (st1 st2 : State) (rows1 rows2 : List RawRow)
    (hperm : rows1.Perm rows2) :
    (buildModelFromRows st1 rows1).slaGlobal = (buildModelFromRows st2 rows2).slaGlobal ∧
    (∀ name : String,
      (lookupBy Region.name name (buildModelFromRows st1 rows1).regions).map Region.sla
        = (lookupBy Region.name name (buildModelFromRows st2 rows2).regions).map Region.sla) ∧
    ((∀ r ∈ rows1.map resolveRow, ∀ r2 ∈ rows1.map resolveRow,
        r.feederId = r2.feederId → r.feederCore = r2.feederCore) →
     (∀ r ∈ rows1.map resolveRow, ∀ r2 ∈ rows1.map resolveRow,
        r.dtId = r2.dtId → r.dtCore = r2.dtCore) →
     (∀ r ∈ rows1.map resolveRow, ∀ r2 ∈ rows1.map resolveRow,
        r.meterId = r2.meterId → r.meterCore = r2.meterCore) →
      (∀ name : String,
        (lookupBy Region.name name (buildModelFromRows st1 rows1).regions).map Region.rollups
          = (lookupBy Region.name name (buildModelFromRows st2 rows2).regions).map
              Region.rollups) ∧
      globalEnergySums (buildModelFromRows st1 rows1)
        = globalEnergySums (buildModelFromRows st2 rows2) ∧
      (computeGlobalTotals (buildModelFromRows st1 rows1)).lossFdt
        = (computeGlobalTotals (buildModelFromRows st2 rows2)).lossFdt ∧
      (computeGlobalTotals (buildModelFromRows st1 rows1)).lossDtc
        = (computeGlobalTotals (buildModelFromRows st2 rows2)).lossDtc ∧
      (computeGlobalTotals (buildModelFromRows st1 rows1)).lossFc
        = (computeGlobalTotals (buildModelFromRows st2 rows2)).lossFc) := by
  have hR := hperm.map resolveRow
  have hnames : ∀ name : String, name ∈ (rows1.map resolveRow).map Row.regionName
      ↔ name ∈ (rows2.map resolveRow).map Row.regionName :=
    fun name => (hR.map Row.regionName).mem_iff
  refine ⟨?_, ?_, ?_⟩
  · rw [buildModelFromRows_slaGlobal, buildModelFromRows_slaGlobal,
      buildHierarchy_slaGlobal, buildHierarchy_slaGlobal]
    exact countRows_perm hR
  · intro name
    rw [final_region_sla, final_region_sla]
    have hc : countRows (rowsOfRegion rows1 name) = countRows (rowsOfRegion rows2 name) :=
      countRows_perm (hR.filter _)
    rw [hc]
    by_cases hin : name ∈ (rows1.map resolveRow).map Row.regionName
    · rw [if_pos hin, if_pos ((hnames name).mp hin)]
    · rw [if_neg hin, if_neg (fun h => hin ((hnames name).mpr h))]
  · intro hF hD hM
    obtain ⟨pF, pD, pM⟩ := hierarchy_cores_perm st1 st2 rows1 rows2 hperm hF hD hM
    have hRR := regionRollup_perm pF pD pM
    have hsums : globalEnergySums (buildModelFromRows st1 rows1)
        = globalEnergySums (buildModelFromRows st2 rows2) := by
      rw [globalEnergySums_eq, globalEnergySums_eq]
      have pN := hierarchy_region_names_perm st1 st2 rows1 rows2 hperm
      simp only [hRR]
      rw [(pN.map _).sum_eq, (pN.map _).sum_eq, (pN.map _).sum_eq]
    have h1 := congrArg (fun t : ℚ × ℚ × ℚ => t.1) hsums
    have h2 := congrArg (fun t : ℚ × ℚ × ℚ => t.2.1) hsums
    have h3 := congrArg (fun t : ℚ × ℚ × ℚ => t.2.2) hsums
    simp only [globalEnergySums] at h1 h2 h3
    refine ⟨?_, hsums, ?_, ?_, ?_⟩
    · intro name
      rw [final_region_rollups, final_region_rollups, hRR name]
      by_cases hin : name ∈ (rows1.map resolveRow).map Row.regionName
      · rw [if_pos hin, if_pos ((hnames name).mp hin)]
      · rw [if_neg hin, if_neg (fun h => hin ((hnames name).mpr h))]
    · simp only [computeGlobalTotals, h1, h2]
    · simp only [computeGlobalTotals, h2, h3]
    · simp only [computeGlobalTotals, h1, h3]

/-- C21, at `scenarioRows` and its reversal: two rows of one feeder and one DT with the
same feeder/DT readings and different meters. -/
theorem rollups_row_order_invariant_witness :
    scenarioRows.Perm scenarioRows.reverse ∧
    (∀ r ∈ scenarioRows.map resolveRow, ∀ r2 ∈ scenarioRows.map resolveRow,
        r.feederId = r2.feederId → r.feederCore = r2.feederCore) ∧
    (∀ r ∈ scenarioRows.map resolveRow, ∀ r2 ∈ scenarioRows.map resolveRow,
        r.dtId = r2.dtId → r.dtCore = r2.dtCore) ∧
    (∀ r ∈ scenarioRows.map resolveRow, ∀ r2 ∈ scenarioRows.map resolveRow,
        r.meterId = r2.meterId → r.meterCore = r2.meterCore) ∧
    (buildModelFromRows State.initial scenarioRows).slaGlobal
      = (buildModelFromRows State.initial scenarioRows.reverse).slaGlobal ∧
    (lookupBy Region.name "R1" (buildModelFromRows State.initial scenarioRows).regions).map
        Region.rollups = some (some 50, some 30, some 25) ∧
    (lookupBy Region.name "R1"
        (buildModelFromRows State.initial scenarioRows.reverse).regions).map
        Region.rollups = some (some 50, some 30, some 25) ∧
    globalEnergySums (buildModelFromRows State.initial scenarioRows)
      = globalEnergySums (buildModelFromRows State.initial scenarioRows.reverse) :=
  have hp : scenarioRows.Perm scenarioRows.reverse := (List.reverse_perm scenarioRows).symm
  have hF : ∀ r ∈ scenarioRows.map resolveRow, ∀ r2 ∈ scenarioRows.map resolveRow,
      r.feederId = r2.feederId → r.feederCore = r2.feederCore := by decide!
  have hD : ∀ r ∈ scenarioRows.map resolveRow, ∀ r2 ∈ scenarioRows.map resolveRow,
      r.dtId = r2.dtId → r.dtCore = r2.dtCore := by decide!
  have hM : ∀ r ∈ scenarioRows.map resolveRow, ∀ r2 ∈ scenarioRows.map resolveRow,
      r.meterId = r2.meterId → r.meterCore = r2.meterCore := by decide!
  have h := rollups_row_order_invariant State.initial State.initial scenarioRows
    scenarioRows.reverse hp
  ⟨hp, hF, hD, hM, h.1, by decide!,
    ((h.2.2 hF hD hM).1 "R1").symm.trans (by decide!), (h.2.2 hF hD hM).2.1⟩

/-- C21 (counterexample to the claim as stated): the two rows of `duplicateMeterRows`
carry the same feeder and DT readings and name the same meter `M1` with different meter
readings; in the given order region `R1` has `consumerEnergy = 10`, in the reverse
order `27`, and the global consumer sum and the DT-to-consumer loss differ likewise. -/
theorem rollups_depend_on_meter_row_order :
    duplicateMeterRows.reverse.Perm duplicateMeterRows ∧
    (∀ r ∈ duplicateMeterRows.map resolveRow, ∀ r2 ∈ duplicateMeterRows.map resolveRow,
      r.regionName = r2.regionName ∧ r.feederId = r2.feederId ∧ r.dtId = r2.dtId ∧
      r.feederDay1 = r2.feederDay1 ∧ r.feederDay2 = r2.feederDay2 ∧
      r.feederMf = r2.feederMf ∧ r.feederEnergy = r2.feederEnergy ∧
      r.dtDay1 = r2.dtDay1 ∧ r.dtDay2 = r2.dtDay2 ∧ r.dtMf = r2.dtMf ∧
      r.dtEnergy = r2.dtEnergy) ∧
    (lookupBy Region.name "R1"
        (buildModelFromRows State.initial duplicateMeterRows).regions).map Region.rollups
      = some (some 50, some 30, some 10) ∧
    (lookupBy Region.name "R1"
        (buildModelFromRows State.initial duplicateMeterRows.reverse).regions).map
        Region.rollups
      = some (some 50, some 30, some 27) ∧
    globalEnergySums (buildModelFromRows State.initial duplicateMeterRows) = (50, 30, 10) ∧
    globalEnergySums (buildModelFromRows State.initial duplicateMeterRows.reverse)
      = (50, 30, 27) ∧
    (computeGlobalTotals (buildModelFromRows State.initial duplicateMeterRows)).lossDtc
      ≠ (computeGlobalTotals
          (buildModelFromRows State.initial duplicateMeterRows.reverse)).lossDtc :=
  ⟨List.reverse_perm duplicateMeterRows, by decide!, by decide!, by decide!, by decide!,
    by decide!, by decide!⟩

end Genus
